import Mathlib

/-!
# Tensor-network engine of `quantum-pde` (namespace `qps`)

A shallow embedding of `include/solver/tensor.hh`, `src/tensor_network.cc`,
`include/solver/solver.hh` and `src/solver.cc`, followed by theorems about it.

* `double` is idealised as an arbitrary commutative ring (a field for the solvers) `R`,
  so every definition can be evaluated over `ℚ` and stated over `ℝ`.
* A C++ exception is a value of `Error`; a throwing function returns `Except Error _`.
  A size precondition of Eigen (`eigen_assert`) that fails is the error `eigenAssert`.
* A dense array is its extents together with its coefficient function; coefficients
  outside the extents do not exist in the source and are fixed to `0` here.  The extents
  of an array are natural numbers.  The constructor `Tensor(dims, idx)` also accepts
  negative sizes: Eigen then throws `std::bad_alloc` or keeps the negative extent
  (`Allocator`), and the result of the constructor (`Constructed`) records which.
  Memory is unbounded.
* A member function of `TensorNetwork` is a function of the object; the calls are also
  given as operations on the object state (`call_add_tensor`, `call_get_tensor`,
  `call_contract`), which return the outcome together with the object after the call.
* The numerical routines of Eigen (`sqrt`, the matrix exponentials) are parameters,
  collected in `MatrixFunctions`.
* The file streams of the solvers (debug log, JSON dump, state files) are not modelled;
  the energy estimate, which only feeds them, is computed and then dropped.
-/

namespace qps

/-- The `std::runtime_error`s thrown by the engine, one constructor per message;
`outOfRange` for the read of `t1_indices[0]` when `contract` is given no index name
(undefined in the source); `eigenAssert` for a violated size precondition of Eigen
(the program aborts in a debug build and is undefined otherwise); `badAlloc` for the
`std::bad_alloc` of Eigen's allocator. -/
inductive Error where
  | dimsIndicesMismatch
  | rankNot2
  | notColumn
  | alreadyExists (name : String)
  | notFound (name : String)
  | indexNotFound (idx : String)
  | dimensionMismatch (idx : String)
  | outOfRange
  | eigenAssert
  | badAlloc
  deriving DecidableEq, Repr

/-- `Eigen::MatrixXd`: a dense matrix of dynamic size. -/
structure MatrixXd (R : Type) where
  rows : Nat
  cols : Nat
  coeff : Nat → Nat → R

/-- `Eigen::VectorXd`: a dense column vector of dynamic size. -/
structure VectorXd (R : Type) where
  size : Nat
  coeff : Nat → R

/-- `Tensor::DataType = Eigen::Tensor<double, 2>`: a rank-2 array with its two extents. -/
structure DataType (R : Type) where
  dim0 : Nat
  dim1 : Nat
  coeff : Nat → Nat → R

section Data

variable {R : Type}

/-- `data.dimension(n)` for `n = 0, 1`. -/
def DataType.dimension (d : DataType R) (n : Nat) : Nat :=
  if n = 0 then d.dim0 else d.dim1

/-- The axis of a rank-2 array other than axis `p`. -/
def otherAxis (p : Nat) : Nat := if p = 0 then 1 else 0

/-- The entry of `d` whose axis `p` carries `k` and whose other axis carries `a`. -/
def DataType.entry (d : DataType R) (p k a : Nat) : R :=
  if p = 0 then d.coeff k a else d.coeff a k

/-- `DataType(d0, d1)`: an array of the given extents whose contents are whatever the
allocator left there (`uninit`). -/
def DataType.alloc [Zero R] (d0 d1 : Nat) (uninit : Nat → Nat → R) : DataType R :=
  { dim0 := d0, dim1 := d1, coeff := fun i j => if i < d0 ∧ j < d1 then uninit i j else 0 }

/-- `a.contract(b, {IndexPair(p1, p2)})` of Eigen for rank-2 operands: the free axis of `a`
comes first, the free axis of `b` second, and the paired axes are summed over.  Eigen
requires the two paired extents to agree; the sum runs over the extent of `a`. -/
def DataType.contract [CommRing R] (a b : DataType R) (p1 p2 : Nat) : DataType R :=
  { dim0 := a.dimension (otherAxis p1)
    dim1 := b.dimension (otherAxis p2)
    coeff := fun i j =>
      if i < a.dimension (otherAxis p1) ∧ j < b.dimension (otherAxis p2) then
        Finset.sum (Finset.range (a.dimension p1)) (fun k => a.entry p1 k i * b.entry p2 k j)
      else 0 }

/-- Dense product `a * b` of Eigen (defined when `a.cols = b.rows`). -/
def MatrixXd.mul [CommRing R] (a b : MatrixXd R) : MatrixXd R :=
  { rows := a.rows, cols := b.cols
    coeff := fun i j =>
      if i < a.rows ∧ j < b.cols then
        Finset.sum (Finset.range a.cols) (fun k => a.coeff i k * b.coeff k j)
      else 0 }

/-- `m.transpose()`. -/
def MatrixXd.transpose (a : MatrixXd R) : MatrixXd R :=
  { rows := a.cols, cols := a.rows, coeff := fun i j => a.coeff j i }

/-- `m.trace()`: the sum of the diagonal coefficients. -/
def MatrixXd.trace [CommRing R] (a : MatrixXd R) : R :=
  Finset.sum (Finset.range (min a.rows a.cols)) (fun i => a.coeff i i)

/-- The sum of the squares of all coefficients, of which `m.norm()` is the square root. -/
def MatrixXd.squaredNorm [CommRing R] (a : MatrixXd R) : R :=
  Finset.sum (Finset.range a.rows) (fun i =>
    Finset.sum (Finset.range a.cols) (fun j => a.coeff i j * a.coeff i j))

/-- `s * m` for a scalar `s`. -/
def MatrixXd.scale [CommRing R] (s : R) (a : MatrixXd R) : MatrixXd R :=
  { rows := a.rows, cols := a.cols, coeff := fun i j => s * a.coeff i j }

end Data

/-- `struct Tensor`: the data array, the index names and the dimension sizes. -/
structure Tensor (R : Type) where
  data : DataType R
  indices : List String
  dimensions : List Int

section TensorOps

variable {R : Type}

/-- The default constructor `Tensor() : data(0, 0) {}`. -/
def Tensor.empty [Zero R] : Tensor R :=
  { data := { dim0 := 0, dim1 := 0, coeff := fun _ _ => 0 }, indices := [], dimensions := [] }

/-- The two checks of the constructor `Tensor(dims, idx)`, in the order of the source. -/
def Tensor.checkShape (dims : List Int) (idx : List String) : Except Error Unit :=
  if dims.length ≠ idx.length then .error .dimsIndicesMismatch
  else if dims.length ≠ 2 then .error .rankNot2
  else .ok ()

/-- The size check of `DataType(d0, d1)` that every version of Eigen makes: the signed
extents are multiplied, the entry count is converted to `std::size_t` and handed to the
allocator, whose overflow check throws `std::bad_alloc` for the huge value that a negative
count becomes. -/
def DataType.checkAlloc (d0 d1 : Int) : Except Error Unit :=
  if d0 * d1 < 0 then .error .badAlloc else .ok ()

/-- Eigen's decision on the signed sizes of `data = DataType(d0, d1)`; its code is not part
of the repository.  `grants d0 d1` tells whether the statement completes; otherwise it
throws `std::bad_alloc`.  Sizes without a negative entry are granted (memory is
unbounded), and a negative entry count is refused (`DataType.checkAlloc`).  For a negative
size whose entry count is not negative the versions of Eigen differ: the array is kept
with its signed extents when the temporary is moved, and the size check of the copy
throws when the temporary is copied. -/
structure Allocator where
  grants : Int → Int → Bool
  grants_sizes : ∀ d0 d1 : Int, 0 ≤ d0 → 0 ≤ d1 → grants d0 d1 = true
  refuses_negative_count : ∀ d0 d1 : Int, d0 * d1 < 0 → grants d0 d1 = false

/-- What the constructor `Tensor(dims, idx)` leaves behind when it returns. -/
inductive Constructed (R : Type) where
  /-- A tensor whose data array has the extents `dims[0]`, `dims[1]`, both non-negative. -/
  | tensor (t : Tensor R)
  /-- A tensor whose data array carries the signed extents `d0`, `d1`, at least one of them
  negative (and the product not negative): Eigen stores the extents as they are given.
  Such an array has no position that can be addressed, and the model follows the object
  no further than its three members. -/
  | negativeExtent (d0 d1 : Int) (indices : List String) (dimensions : List Int)

/-- The member `indices` of a constructed tensor. -/
def Constructed.indices : Constructed R → List String
  | .tensor t => t.indices
  | .negativeExtent _ _ indices _ => indices

/-- The member `dimensions` of a constructed tensor. -/
def Constructed.dimensions : Constructed R → List Int
  | .tensor t => t.dimensions
  | .negativeExtent _ _ _ dimensions => dimensions

/-- The signed extent `data.dimension(0)` of a constructed tensor. -/
def Constructed.extent0 : Constructed R → Int
  | .tensor t => (t.data.dim0 : Int)
  | .negativeExtent d0 _ _ _ => d0

/-- The signed extent `data.dimension(1)` of a constructed tensor. -/
def Constructed.extent1 : Constructed R → Int
  | .tensor t => (t.data.dim1 : Int)
  | .negativeExtent _ d1 _ _ => d1

/-- The constructor `Tensor(dims, idx)`: the two checks, then `data = DataType(dims[0],
dims[1])` with the signed sizes, which Eigen's allocator `al` grants or refuses; `uninit`
stands for the contents of the freshly allocated array, which the source does not
initialise. -/
def Tensor.create [Zero R] (al : Allocator) (uninit : Nat → Nat → R) (dims : List Int)
    (idx : List String) : Except Error (Constructed R) :=
  match Tensor.checkShape dims idx with
  | .error e => .error e
  | .ok _ =>
    if al.grants (dims.getD 0 0) (dims.getD 1 0) = true then
      if 0 ≤ dims.getD 0 0 ∧ 0 ≤ dims.getD 1 0 then
        .ok (.tensor
          { data := DataType.alloc (dims.getD 0 0).toNat (dims.getD 1 0).toNat uninit
            indices := idx, dimensions := dims })
      else .ok (.negativeExtent (dims.getD 0 0) (dims.getD 1 0) idx dims)
    else .error .badAlloc

/-- The tensor that `from_matrix` returns once the constructor has accepted the shape:
extents `{rows, cols}` and every entry of `mat` copied. -/
def Tensor.matrixCopy [Zero R] (mat : MatrixXd R) (idx : List String) : Tensor R :=
  { data := { dim0 := mat.rows, dim1 := mat.cols
              coeff := fun i j => if i < mat.rows ∧ j < mat.cols then mat.coeff i j else 0 }
    indices := idx, dimensions := [(mat.rows : Int), (mat.cols : Int)] }

/-- `Tensor::from_matrix(mat, idx)`: construct with `{rows, cols}` and copy every entry.
The sizes are those of a matrix, so the allocation of the constructor is granted. -/
def Tensor.from_matrix [Zero R] (mat : MatrixXd R) (idx : List String) : Except Error (Tensor R) :=
  match Tensor.checkShape [(mat.rows : Int), (mat.cols : Int)] idx with
  | .error e => .error e
  | .ok _ => .ok (Tensor.matrixCopy mat idx)

/-- The tensor that `from_vector` returns once the constructor has accepted the shape:
extents `{size, 1}` and `vec` copied into column 0. -/
def Tensor.vectorCopy [Zero R] (vec : VectorXd R) (idx : List String) : Tensor R :=
  { data := { dim0 := vec.size, dim1 := 1
              coeff := fun i j => if i < vec.size ∧ j < 1 then vec.coeff i else 0 }
    indices := idx, dimensions := [(vec.size : Int), 1] }

/-- `Tensor::from_vector(vec, idx)`: construct with `{size, 1}` and copy into column 0.
The sizes are those of a vector, so the allocation of the constructor is granted. -/
def Tensor.from_vector [Zero R] (vec : VectorXd R) (idx : List String) : Except Error (Tensor R) :=
  match Tensor.checkShape [(vec.size : Int), 1] idx with
  | .error e => .error e
  | .ok _ => .ok (Tensor.vectorCopy vec idx)

/-- The default index names of `from_matrix`. -/
def Tensor.defaultMatrixIndices : List String := ["i", "j"]

/-- The default index names of `from_vector`. -/
def Tensor.defaultVectorIndices : List String := ["i", "col"]

/-- `Tensor::to_matrix()`: a dense copy with the extents of the data array. -/
def Tensor.to_matrix [Zero R] (t : Tensor R) : MatrixXd R :=
  { rows := t.data.dim0, cols := t.data.dim1
    coeff := fun i j => if i < t.data.dim0 ∧ j < t.data.dim1 then t.data.coeff i j else 0 }

/-- `Tensor::rank()`. -/
def Tensor.rank (t : Tensor R) : Nat := t.indices.length

/-- The Named Tensor invariant: two index names, and the dimension list is the shape of
the data array. -/
def Tensor.Valid (t : Tensor R) : Prop :=
  t.indices.length = 2 ∧ t.dimensions = [(t.data.dim0 : Int), (t.data.dim1 : Int)]

end TensorOps

/-- `class TensorNetwork`: the map `tensors_` from names to tensors. -/
structure TensorNetwork (R : Type) where
  tensors_ : String → Option (Tensor R)

section Network

variable {R : Type}

/-- A freshly constructed network. -/
def TensorNetwork.empty : TensorNetwork R := { tensors_ := fun _ => none }

/-- The map assignment `tensors_[name] = tensor`. -/
def TensorNetwork.assign (net : TensorNetwork R) (name : String) (tensor : Tensor R) :
    TensorNetwork R :=
  { tensors_ := fun k => if k = name then some tensor else net.tensors_ k }

/-- `TensorNetwork::add_tensor`. -/
def TensorNetwork.add_tensor (net : TensorNetwork R) (tensor : Tensor R) (name : String) :
    Except Error (TensorNetwork R) :=
  match net.tensors_ name with
  | some _ => .error (.alreadyExists name)
  | none => .ok (net.assign name tensor)

/-- `TensorNetwork::get_tensor`. -/
def TensorNetwork.get_tensor (net : TensorNetwork R) (name : String) : Except Error (Tensor R) :=
  match net.tensors_ name with
  | none => .error (.notFound name)
  | some t => .ok t

/-- First loop of `contract`: the position of every contracted name in both operands
(`std::find`, so the first occurrence), or the error for the first name missing from one. -/
def TensorNetwork.findPositions (t1 t2 : Tensor R) :
    List String → Except Error (List Nat × List Nat)
  | [] => .ok ([], [])
  | idx :: rest =>
    if t1.indices.indexOf idx = t1.indices.length ∨ t2.indices.indexOf idx = t2.indices.length then
      .error (.indexNotFound idx)
    else
      match TensorNetwork.findPositions t1 t2 rest with
      | .error e => .error e
      | .ok (p1, p2) => .ok (t1.indices.indexOf idx :: p1, t2.indices.indexOf idx :: p2)

/-- Second loop of `contract`: the dimension sizes at the located positions agree.  A
position past the end of `dimensions` (possible only when `dimensions` is shorter than
`indices`, which no constructor produces) reads as 0. -/
def TensorNetwork.checkDimensions (t1 t2 : Tensor R) :
    List String → List Nat → List Nat → Except Error Unit
  | idx :: rest, p1 :: r1, p2 :: r2 =>
    if t1.dimensions.getD p1 0 ≠ t2.dimensions.getD p2 0 then .error (.dimensionMismatch idx)
    else TensorNetwork.checkDimensions t1 t2 rest r1 r2
  | _, _, _ => .ok ()

/-- The axes of `t` that are not contracted, in their original order, each with its index
name and dimension size (one of the two last loops of `contract`). -/
def TensorNetwork.remaining (t : Tensor R) (contracted : List Nat) : List (String × Int) :=
  ((List.range t.indices.length).filter (fun i => decide (i ∉ contracted))).map
    (fun i => (t.indices.getD i "", t.dimensions.getD i 0))

/-- `TensorNetwork::contract`.  The network is read, never written.  Only the first
located pair of positions is handed to Eigen; the lazy contraction is evaluated by the
assignment `result.data = result_data`, after the constructor of `result` has run (its two
checks and its allocation for the sizes `new_dims`, which the assignment then replaces),
and Eigen then requires both positions to be axes of a rank-2 array with equal extents.
The sizes `new_dims` are dimension entries of the operands: for operands that satisfy
the Named Tensor invariant none is negative and every allocator grants them, so only the
refusal that all allocators share (`DataType.checkAlloc`) is applied. -/
def TensorNetwork.contract [CommRing R] (net : TensorNetwork R) (tensor1_name tensor2_name : String)
    (indices_to_contract : List String) : Except Error (Tensor R) :=
  match net.get_tensor tensor1_name with
  | .error e => .error e
  | .ok t1 =>
    match net.get_tensor tensor2_name with
    | .error e => .error e
    | .ok t2 =>
      match TensorNetwork.findPositions t1 t2 indices_to_contract with
      | .error e => .error e
      | .ok (t1_indices, t2_indices) =>
        match TensorNetwork.checkDimensions t1 t2 indices_to_contract t1_indices t2_indices with
        | .error e => .error e
        | .ok _ =>
          match t1_indices, t2_indices with
          | p1 :: _, p2 :: _ =>
            let result_data := t1.data.contract t2.data p1 p2
            let left := TensorNetwork.remaining t1 t1_indices
            let right := TensorNetwork.remaining t2 t2_indices
            let new_indices := (left ++ right).map Prod.fst
            let new_dims := (left ++ right).map Prod.snd
            match Tensor.checkShape new_dims new_indices with
            | .error e => .error e
            | .ok _ =>
              match DataType.checkAlloc (new_dims.getD 0 0) (new_dims.getD 1 0) with
              | .error e => .error e
              | .ok _ =>
                if p1 < 2 ∧ p2 < 2 ∧ t1.data.dimension p1 = t2.data.dimension p2 then
                  .ok { data := result_data, indices := new_indices, dimensions := new_dims }
                else .error .eigenAssert
          | _, _ => .error .outOfRange

end Network

/-- The numerical routines of Eigen and libm that the solvers call and whose code is not
part of the repository: `std::sqrt` (inside `MatrixBase::norm`), the dense real matrix
exponential `M.exp()`, and `expImagReal s H`, the real part of the complex matrix
exponential `(-i * s * H).exp()`.  Both exponentials return a matrix of the size of
their argument. -/
structure MatrixFunctions (R : Type) where
  sqrt : R → R
  exp : MatrixXd R → MatrixXd R
  expImagReal : R → MatrixXd R → MatrixXd R
  exp_rows : ∀ m, (exp m).rows = m.rows
  exp_cols : ∀ m, (exp m).cols = m.cols
  expImagReal_rows : ∀ s m, (expImagReal s m).rows = m.rows
  expImagReal_cols : ∀ s m, (expImagReal s m).cols = m.cols

section Solvers

variable {R : Type} [Field R]

/-- The product `a * b` together with Eigen's assertion that the inner sizes agree. -/
def MatrixXd.mulChecked (a b : MatrixXd R) : Except Error (MatrixXd R) :=
  if a.cols ≠ b.rows then .error .eigenAssert else .ok (a.mul b)

/-- The energy term `(state_mat.transpose() * H * state_mat).trace()` of the sweeps. -/
def localEnergy (state_mat H : MatrixXd R) : Except Error R :=
  match state_mat.transpose.mulChecked H with
  | .error e => .error e
  | .ok m =>
    match m.mulChecked state_mat with
    | .error e => .error e
    | .ok m2 => .ok m2.trace

/-- A `for` loop over the values in `is`, threading the loop state and stopping at the
first exception. -/
def forEach {S : Type} (body : Nat → S → Except Error S) : List Nat → S → Except Error S
  | [], s => .ok s
  | i :: rest, s =>
    match body i s with
    | .error e => .error e
    | .ok s2 => forEach body rest s2

/-- `class TimeEvolutionSolver`: the constructor arguments and the owned network. -/
structure TimeEvolutionSolver (R : Type) where
  time_step_ : R
  num_steps_ : Int
  local_operators_ : List (Tensor R)
  network_ : TensorNetwork R

/-- The constructor `TimeEvolutionSolver(time_step, num_steps, local_operators)`. -/
def TimeEvolutionSolver.new (time_step : R) (num_steps : Int) (local_operators : List (Tensor R)) :
    TimeEvolutionSolver R :=
  { time_step_ := time_step, num_steps_ := num_steps, local_operators_ := local_operators
    network_ := TensorNetwork.empty }

/-- `TimeEvolutionSolver::initialize_state`. -/
def TimeEvolutionSolver.initialize_state (s : TimeEvolutionSolver R) (initial_state : Tensor R) :
    Except Error (TimeEvolutionSolver R) :=
  match s.network_.add_tensor initial_state "psi_0" with
  | .error e => .error e
  | .ok net => .ok { s with network_ := net }

/-- Body of the precomputation loop: the propagator of site `i` is stored as `exp_op_<i>`
with index names `site_<i>` and `site_<(i+1) % n_sites>`. -/
def TimeEvolutionSolver.addPropagator (fns : MatrixFunctions R) (local_operators : List (Tensor R))
    (dt : R) (i : Nat) (net : TensorNetwork R) : Except Error (TensorNetwork R) :=
  let H := (local_operators.getD i Tensor.empty).to_matrix
  if H.rows ≠ H.cols then .error .eigenAssert
  else
    match Tensor.from_matrix (fns.expImagReal (dt / 2) H)
        ["site_" ++ toString i, "site_" ++ toString ((i + 1) % local_operators.length)] with
    | .error e => .error e
    | .ok exp_tensor => net.add_tensor exp_tensor ("exp_op_" ++ toString i)

/-- Body shared by the forward and the backward sweep: contract the current state with the
propagator of site `i` over `site_<i>`, register the result as `next_state`, add the energy
term.  The loop state is (current state name, energy, network). -/
def TimeEvolutionSolver.sweepSite (local_operators : List (Tensor R)) (i : Nat)
    (next_state : String) (st : String × R × TensorNetwork R) :
    Except Error (String × R × TensorNetwork R) :=
  match st.2.2.contract st.1 ("exp_op_" ++ toString i) ["site_" ++ toString i] with
  | .error e => .error e
  | .ok result =>
    match st.2.2.add_tensor result next_state with
    | .error e => .error e
    | .ok net =>
      match localEnergy result.to_matrix (local_operators.getD i Tensor.empty).to_matrix with
      | .error e => .error e
      | .ok e => .ok (next_state, st.2.1 + e, net)

/-- Forward sweep of step `step`: sites `0 .. n_sites - 1`, results named
`psi_<step>_<i+1>`. -/
def TimeEvolutionSolver.forwardSweep (local_operators : List (Tensor R)) (step : Nat)
    (st : String × R × TensorNetwork R) : Except Error (String × R × TensorNetwork R) :=
  forEach (fun i => TimeEvolutionSolver.sweepSite local_operators i
      ("psi_" ++ toString step ++ "_" ++ toString (i + 1)))
    (List.range local_operators.length) st

/-- Backward sweep of step `step`: sites `n_sites - 1 .. 0`, results named
`psi_<step>_<i>`, and `psi_<step+1>` for site 0. -/
def TimeEvolutionSolver.backwardSweep (local_operators : List (Tensor R)) (step : Nat)
    (st : String × R × TensorNetwork R) : Except Error (String × R × TensorNetwork R) :=
  forEach (fun i => TimeEvolutionSolver.sweepSite local_operators i
      (if i = 0 then "psi_" ++ toString (step + 1)
       else "psi_" ++ toString step ++ "_" ++ toString i))
    (List.range local_operators.length).reverse st

/-- One iteration of the main Trotter loop.  The loop state is (previous state name,
network); the energy starts at 0 in every step and only feeds the log. -/
def TimeEvolutionSolver.trotterStep (local_operators : List (Tensor R)) (step : Nat)
    (st : String × TensorNetwork R) : Except Error (String × TensorNetwork R) :=
  match TimeEvolutionSolver.forwardSweep local_operators step (st.1, 0, st.2) with
  | .error e => .error e
  | .ok fwd =>
    match TimeEvolutionSolver.backwardSweep local_operators step fwd with
    | .error e => .error e
    | .ok bwd =>
      match bwd.2.2.get_tensor bwd.1 with
      | .error e => .error e
      | .ok _ => .ok (bwd.1, bwd.2.2)

/-- `TimeEvolutionSolver::build_trotter_decomposition`. -/
def TimeEvolutionSolver.build_trotter_decomposition (fns : MatrixFunctions R)
    (s : TimeEvolutionSolver R) : Except Error (TimeEvolutionSolver R) :=
  let dt := s.time_step_ / (s.num_steps_ : R)
  match forEach (TimeEvolutionSolver.addPropagator fns s.local_operators_ dt)
      (List.range s.local_operators_.length) s.network_ with
  | .error e => .error e
  | .ok net0 =>
    match forEach (TimeEvolutionSolver.trotterStep s.local_operators_)
        (List.range s.num_steps_.toNat) ("psi_0", net0) with
    | .error e => .error e
    | .ok last =>
      match last.2.get_tensor last.1 with
      | .error e => .error e
      | .ok t =>
        match last.2.add_tensor t "psi_final" with
        | .error e => .error e
        | .ok net => .ok { s with network_ := net }

/-- `TimeEvolutionSolver::build_network`; the parameter vector is ignored by the source. -/
def TimeEvolutionSolver.build_network (fns : MatrixFunctions R) (s : TimeEvolutionSolver R)
    (_params : List R) : Except Error (TimeEvolutionSolver R) :=
  s.build_trotter_decomposition fns

/-- `TimeEvolutionSolver::compute_quantity_of_interest`: the Frobenius norm of `psi_final`. -/
def TimeEvolutionSolver.compute_quantity_of_interest (fns : MatrixFunctions R)
    (s : TimeEvolutionSolver R) : Except Error R :=
  match s.network_.get_tensor "psi_final" with
  | .error e => .error e
  | .ok final_state => .ok (fns.sqrt final_state.to_matrix.squaredNorm)

/-- `class ThermalSolver`: the constructor arguments and the owned network. -/
structure ThermalSolver (R : Type) where
  beta_ : R
  num_steps_ : Int
  local_operators_ : List (Tensor R)
  network_ : TensorNetwork R

/-- The constructor `ThermalSolver(beta, num_steps, local_operators)`. -/
def ThermalSolver.new (beta : R) (num_steps : Int) (local_operators : List (Tensor R)) :
    ThermalSolver R :=
  { beta_ := beta, num_steps_ := num_steps, local_operators_ := local_operators
    network_ := TensorNetwork.empty }

/-- `ThermalSolver::initialize_state`. -/
def ThermalSolver.initialize_state (s : ThermalSolver R) (initial_state : Tensor R) :
    Except Error (ThermalSolver R) :=
  match s.network_.add_tensor initial_state "rho_0" with
  | .error e => .error e
  | .ok net => .ok { s with network_ := net }

/-- Body of the inner loop of `build_imaginary_time_evolution` for site `i` of step `step`.
The loop state is (energy, network). -/
def ThermalSolver.siteStep (fns : MatrixFunctions R) (local_operators : List (Tensor R))
    (dbeta : R) (step i : Nat) (st : R × TensorNetwork R) : Except Error (R × TensorNetwork R) :=
  let H := (local_operators.getD i Tensor.empty).to_matrix
  if H.rows ≠ H.cols then .error .eigenAssert
  else
    match Tensor.from_matrix (fns.exp (MatrixXd.scale (-dbeta) H))
        ["site_" ++ toString i, "site_" ++ toString (i + 1)] with
    | .error e => .error e
    | .ok exp_tensor =>
      match st.2.add_tensor exp_tensor ("exp_op_" ++ toString i) with
      | .error e => .error e
      | .ok net1 =>
        let current_state := if step = 0 then "rho_0" else "rho_" ++ toString step
        let next_state := "rho_" ++ toString (step + 1)
        match net1.contract current_state ("exp_op_" ++ toString i) ["site_" ++ toString i] with
        | .error e => .error e
        | .ok result =>
          match net1.add_tensor result next_state with
          | .error e => .error e
          | .ok net2 =>
            match localEnergy result.to_matrix H with
            | .error e => .error e
            | .ok e => .ok (st.1 + e, net2)

/-- One iteration of the outer loop: the sweep over the sites, then the lookup of
`rho_<step+1>` whose trace is logged. -/
def ThermalSolver.imaginaryTimeStep (fns : MatrixFunctions R) (local_operators : List (Tensor R))
    (dbeta : R) (step : Nat) (net : TensorNetwork R) : Except Error (TensorNetwork R) :=
  match forEach (ThermalSolver.siteStep fns local_operators dbeta step)
      (List.range local_operators.length) (0, net) with
  | .error e => .error e
  | .ok st =>
    match st.2.get_tensor ("rho_" ++ toString (step + 1)) with
    | .error e => .error e
    | .ok _ => .ok st.2

/-- `ThermalSolver::build_imaginary_time_evolution`. -/
def ThermalSolver.build_imaginary_time_evolution (fns : MatrixFunctions R)
    (s : ThermalSolver R) : Except Error (ThermalSolver R) :=
  let dbeta := s.beta_ / (s.num_steps_ : R)
  match forEach (ThermalSolver.imaginaryTimeStep fns s.local_operators_ dbeta)
      (List.range s.num_steps_.toNat) s.network_ with
  | .error e => .error e
  | .ok net => .ok { s with network_ := net }

/-- `ThermalSolver::build_network`; the parameter vector is ignored by the source. -/
def ThermalSolver.build_network (fns : MatrixFunctions R) (s : ThermalSolver R)
    (_params : List R) : Except Error (ThermalSolver R) :=
  s.build_imaginary_time_evolution fns

/-- `ThermalSolver::compute_quantity_of_interest`: the trace of `rho_final`. -/
def ThermalSolver.compute_quantity_of_interest (s : ThermalSolver R) : Except Error R :=
  match s.network_.get_tensor "rho_final" with
  | .error e => .error e
  | .ok final_state => .ok final_state.to_matrix.trace

/-- `class ExpectationValueSolver`: the observable and the owned network. -/
structure ExpectationValueSolver (R : Type) where
  observable_ : Tensor R
  network_ : TensorNetwork R

/-- The constructor `ExpectationValueSolver(observable)`. -/
def ExpectationValueSolver.new (observable : Tensor R) : ExpectationValueSolver R :=
  { observable_ := observable, network_ := TensorNetwork.empty }

/-- `ExpectationValueSolver::initialize_state`. -/
def ExpectationValueSolver.initialize_state (s : ExpectationValueSolver R)
    (initial_state : Tensor R) : Except Error (ExpectationValueSolver R) :=
  match s.network_.add_tensor initial_state "psi" with
  | .error e => .error e
  | .ok net => .ok { s with network_ := net }

/-- `ExpectationValueSolver::build_observable_network`. -/
def ExpectationValueSolver.build_observable_network (s : ExpectationValueSolver R) :
    Except Error (ExpectationValueSolver R) :=
  match s.network_.add_tensor s.observable_ "observable" with
  | .error e => .error e
  | .ok net1 =>
    match net1.contract "psi" "observable" ["site"] with
    | .error e => .error e
    | .ok result1 =>
      match net1.add_tensor result1 "O_psi" with
      | .error e => .error e
      | .ok net2 =>
        match net2.contract "psi" "O_psi" ["site"] with
        | .error e => .error e
        | .ok result2 =>
          match net2.add_tensor result2 "expectation" with
          | .error e => .error e
          | .ok net3 => .ok { s with network_ := net3 }

/-- `ExpectationValueSolver::build_network`; the parameter vector is ignored by the source. -/
def ExpectationValueSolver.build_network (s : ExpectationValueSolver R) (_params : List R) :
    Except Error (ExpectationValueSolver R) :=
  s.build_observable_network

/-- `ExpectationValueSolver::compute_quantity_of_interest`: the entry `data(0, 0)` of
`expectation` (Eigen asserts that the entry exists). -/
def ExpectationValueSolver.compute_quantity_of_interest (s : ExpectationValueSolver R) :
    Except Error R :=
  match s.network_.get_tensor "expectation" with
  | .error e => .error e
  | .ok result =>
    if 0 < result.data.dim0 ∧ 0 < result.data.dim1 then .ok (result.data.coeff 0 0)
    else .error .eigenAssert

end Solvers

/-! ### The tests and the driver of the repository -/

section Tests

variable {R : Type}

/-- The 2 x 2 matrix filled by Eigen's comma initialiser `m << a, b, c, d`. -/
def matrix2 [Zero R] (a b c d : R) : MatrixXd R :=
  { rows := 2, cols := 2
    coeff := fun i j =>
      match i, j with
      | 0, 0 => a
      | 0, 1 => b
      | 1, 0 => c
      | 1, 1 => d
      | _, _ => 0 }

/-- The vector filled by `v << a, b`. -/
def vector2 [Zero R] (a b : R) : VectorXd R :=
  { size := 2
    coeff := fun i =>
      match i with
      | 0 => a
      | 1 => b
      | _ => 0 }

/-- A tensor of `FourTensorContraction`: `Tensor T({2, 2}, idx)` followed by the four
assignments `T.data(0,0) = a; T.data(0,1) = b; T.data(1,0) = c; T.data(1,1) = d`. -/
def testTensor [Zero R] (a b c d : R) (idx : List String) : Tensor R :=
  { data := { dim0 := 2, dim1 := 2, coeff := (matrix2 a b c d).coeff }
    indices := idx, dimensions := [2, 2] }

/-- The calls of `TEST(TensorNetworkTest, FourTensorContraction)` on the network, for
arbitrary tensors `A`, `B`, `C`, `D`; the value is `final_result`. -/
def fourTensorContraction [CommRing R] (A B C D : Tensor R) : Except Error (Tensor R) :=
  match TensorNetwork.empty.add_tensor A "A" with
  | .error e => .error e
  | .ok n1 =>
  match n1.add_tensor B "B" with
  | .error e => .error e
  | .ok n2 =>
  match n2.add_tensor C "C" with
  | .error e => .error e
  | .ok n3 =>
  match n3.add_tensor D "D" with
  | .error e => .error e
  | .ok n4 =>
  match n4.contract "A" "B" ["j"] with
  | .error e => .error e
  | .ok result1 =>
  match n4.add_tensor result1 "AB" with
  | .error e => .error e
  | .ok n5 =>
  match n5.contract "C" "D" ["l"] with
  | .error e => .error e
  | .ok result2 =>
  match n5.add_tensor result2 "CD" with
  | .error e => .error e
  | .ok n6 =>
  match n6.contract "AB" "CD" ["k"] with
  | .error e => .error e
  | .ok result3 =>
  match n6.add_tensor result3 "ABCD" with
  | .error e => .error e
  | .ok n7 => n7.contract "ABCD" "i" ["i"]

/-- The three solver calls in the order of the protocol, for the Expectation Value
Solver: construct, `initialize_state`, `build_network({})`, `compute_quantity_of_interest`. -/
def ExpectationValueSolver.run [Field R] (observable initial_state : Tensor R) : Except Error R :=
  match (ExpectationValueSolver.new observable).initialize_state initial_state with
  | .error e => .error e
  | .ok s1 =>
    match s1.build_network [] with
    | .error e => .error e
    | .ok s2 => s2.compute_quantity_of_interest

/-- The same for the Time Evolution Solver. -/
def TimeEvolutionSolver.run [Field R] (fns : MatrixFunctions R) (time_step : R) (num_steps : Int)
    (local_operators : List (Tensor R)) (initial_state : Tensor R) : Except Error R :=
  match (TimeEvolutionSolver.new time_step num_steps local_operators).initialize_state
      initial_state with
  | .error e => .error e
  | .ok s1 =>
    match s1.build_network fns [] with
    | .error e => .error e
    | .ok s2 => s2.compute_quantity_of_interest fns

/-- The same for the Thermal Solver. -/
def ThermalSolver.run [Field R] (fns : MatrixFunctions R) (beta : R) (num_steps : Int)
    (local_operators : List (Tensor R)) (initial_state : Tensor R) : Except Error R :=
  match (ThermalSolver.new beta num_steps local_operators).initialize_state initial_state with
  | .error e => .error e
  | .ok s1 =>
    match s1.build_network fns [] with
    | .error e => .error e
    | .ok s2 => s2.compute_quantity_of_interest

/-- `TEST(ExpectationValue, Basic)` for an arbitrary observable matrix and state vector:
both tensors carry the default index names. -/
def expectationValueTest [Field R] (O : MatrixXd R) (psi : VectorXd R) : Except Error R :=
  match Tensor.from_matrix O Tensor.defaultMatrixIndices with
  | .error e => .error e
  | .ok observable =>
    match Tensor.from_vector psi Tensor.defaultVectorIndices with
    | .error e => .error e
    | .ok state => ExpectationValueSolver.run observable state

/-- `TEST(TimeEvolution, Basic)` for an arbitrary Hamiltonian matrix and state vector:
`TimeEvolutionSolver(1.0, 10, {from_matrix(H)})` initialised with `from_vector(psi0)`. -/
def timeEvolutionTest [Field R] (fns : MatrixFunctions R) (H : MatrixXd R) (psi0 : VectorXd R) :
    Except Error R :=
  match Tensor.from_matrix H Tensor.defaultMatrixIndices with
  | .error e => .error e
  | .ok H_tensor =>
    match Tensor.from_vector psi0 Tensor.defaultVectorIndices with
    | .error e => .error e
    | .ok state => TimeEvolutionSolver.run fns 1 10 [H_tensor] state

/-- `TEST(ThermalState, Basic)` for an arbitrary Hamiltonian and initial matrix:
`ThermalSolver(1.0, 10, {from_matrix(H)})` initialised with `from_matrix(rho0)`. -/
def thermalStateTest [Field R] (fns : MatrixFunctions R) (H rho0 : MatrixXd R) : Except Error R :=
  match Tensor.from_matrix H Tensor.defaultMatrixIndices with
  | .error e => .error e
  | .ok H_tensor =>
    match Tensor.from_matrix rho0 Tensor.defaultMatrixIndices with
    | .error e => .error e
    | .ok state => ThermalSolver.run fns 1 10 [H_tensor] state

/-- The driver `main` with its total time and step count left open (the source fixes 1.0
and 10): Hamiltonian `diag(1, -1)` and density matrix `|0><0|`, both tensors with index
names `site_0`, `site_0`. -/
def timeEvolutionDriver [Field R] (fns : MatrixFunctions R) (time_step : R) (num_steps : Int) :
    Except Error R :=
  match Tensor.from_matrix (matrix2 1 0 0 (-1)) ["site_0", "site_0"] with
  | .error e => .error e
  | .ok H_tensor =>
    match Tensor.from_matrix (matrix2 (1 : R) 0 0 0) ["site_0", "site_0"] with
    | .error e => .error e
    | .ok rho0_tensor => TimeEvolutionSolver.run fns time_step num_steps [H_tensor] rho0_tensor

end Tests

/-! ### Concrete inputs -/

/-- Tensor `A` of `FourTensorContraction`. -/
def tensorA : Tensor ℚ := testTensor 1 2 3 4 ["i", "j"]

/-- Tensor `B` of `FourTensorContraction`. -/
def tensorB : Tensor ℚ := testTensor 5 6 7 8 ["j", "k"]

/-- The network of `FourTensorContraction` after `A` and `B` have been added. -/
def networkAB : TensorNetwork ℚ :=
  (TensorNetwork.empty.assign "A" tensorA).assign "B" tensorB

/-- Tensor `C` of `FourTensorContraction`. -/
def tensorC : Tensor ℚ := testTensor 9 10 11 12 ["k", "l"]

/-- Tensor `D` of `FourTensorContraction`. -/
def tensorD : Tensor ℚ := testTensor 13 14 15 16 ["l", "i"]

/-- The observable `diag(1, -1)` with both index names `site`. -/
def observableZ : Tensor ℚ := testTensor 1 0 0 (-1) ["site", "site"]

/-- The column state `(1, 1)` (the state `|0> + |1>`, not normalised) with index names
`site`, `col`. -/
def statePlus : Tensor ℚ :=
  { data := { dim0 := 2, dim1 := 1, coeff := fun i j => if i < 2 ∧ j < 1 then 1 else 0 }
    indices := ["site", "col"], dimensions := [2, 1] }

/-- The number that a list of decimal digit characters denotes. -/
def digitsValue (l : List Char) : Nat :=
  l.foldl (fun acc c => 10 * acc + (c.toNat - 48)) 0

/-- The `n x n` identity matrix. -/
def MatrixXd.identity {R : Type} [Zero R] [One R] (n : Nat) : MatrixXd R :=
  { rows := n, cols := n, coeff := fun i j => if i < n ∧ j < n ∧ i = j then 1 else 0 }

/-- A rational stand-in for the matrix functions, on which the solvers can be run: each
routine is cut off after its first-order term around the identity (`exp M` as `1 + M`, the
real part of `exp(-i s H)` as `1`, `sqrt x` as `(1 + x) / 2`).  It is the concrete instance
at which theorems about every `MatrixFunctions` are applied to a concrete run. -/
def firstOrderFunctions : MatrixFunctions ℚ :=
  { sqrt := fun x => (1 + x) / 2
    exp := fun m =>
      { rows := m.rows, cols := m.cols
        coeff := fun i j => (MatrixXd.identity m.rows).coeff i j + m.coeff i j }
    expImagReal := fun _ m =>
      { rows := m.rows, cols := m.cols, coeff := (MatrixXd.identity m.rows).coeff }
    exp_rows := fun _ => rfl
    exp_cols := fun _ => rfl
    expImagReal_rows := fun _ _ => rfl
    expImagReal_cols := fun _ _ => rfl }

/-- The Hamiltonian `diag(1, -1)`, index names `site_0`, `site_0`, as in the driver. -/
def hamiltonianZ : Tensor ℚ := testTensor 1 0 0 (-1) ["site_0", "site_0"]

/-- The 2 x 2 identity as an initial state, index names `site_0`, `site_0`. -/
def identityState : Tensor ℚ := testTensor 1 0 0 1 ["site_0", "site_0"]

section SingleSite

variable {R : Type}

/-- The tensor that `addPropagator` registers as `exp_op_0` when the solver has a single
site: the propagator of that site with index names `site_0`, `site_0`. -/
def TimeEvolutionSolver.sitePropagator [Field R] (fns : MatrixFunctions R) (dt : R)
    (H : Tensor R) : Tensor R :=
  Tensor.matrixCopy (fns.expImagReal (dt / 2) H.to_matrix) ["site_0", "site_0"]

/-- What `contract(state, "exp_op_0", {"site_0"})` returns when both operands carry the
index names `site_0`, `site_0`: the first axes are paired, the second axes remain. -/
def TimeEvolutionSolver.sweepContract [CommRing R] (P S : Tensor R) : Tensor R :=
  { data := S.data.contract P.data 0 0
    indices := [S.indices.getD 1 "", P.indices.getD 1 ""]
    dimensions := [S.dimensions.getD 1 0, P.dimensions.getD 1 0] }

/-- A `d x d` tensor with index names `site_0`, `site_0`. -/
def TimeEvolutionSolver.SiteTensor (d : Nat) (S : Tensor R) : Prop :=
  S.indices = ["site_0", "site_0"] ∧ S.dimensions = [(d : Int), (d : Int)] ∧
    S.data.dim0 = d ∧ S.data.dim1 = d

/-- The state of the main Trotter loop of a single-site solver before step `k`: the
current state is `psi_<k>` and holds the initial state after `2 k` sweep contractions,
the propagator is registered, and the names of the later steps are free. -/
def TimeEvolutionSolver.SingleSiteInv [CommRing R] (P X : Tensor R) (k : Nat)
    (st : String × TensorNetwork R) : Prop :=
  st.1 = "psi_" ++ toString k ∧
  st.2.tensors_ "exp_op_0" = some P ∧
  st.2.tensors_ ("psi_" ++ toString k) =
    some ((TimeEvolutionSolver.sweepContract P)^[2 * k] X) ∧
  (∀ j, k ≤ j → st.2.tensors_ ("psi_" ++ toString j ++ "_" ++ toString 1) = none) ∧
  (∀ j, k < j → st.2.tensors_ ("psi_" ++ toString j) = none) ∧
  st.2.tensors_ "psi_final" = none

end SingleSite

/-- The matrix functions in exact real arithmetic: `sqrt` is the real square root, `exp`
the real matrix exponential and `expImagReal s H` the real part of the complex matrix
exponential of `-i * s * H` (the exponentials of Mathlib, read entry by entry on the
`rows x rows` block). -/
def MatrixFunctions.Exact (fns : MatrixFunctions ℝ) : Prop :=
  (∀ x, fns.sqrt x = Real.sqrt x) ∧
  (∀ (m : MatrixXd ℝ) (i j : Nat) (hi : i < m.rows) (hj : j < m.rows),
    (fns.exp m).coeff i j =
      NormedSpace.exp ℝ (Matrix.of fun a b : Fin m.rows => m.coeff a b) ⟨i, hi⟩ ⟨j, hj⟩) ∧
  (∀ (s : ℝ) (m : MatrixXd ℝ) (i j : Nat) (hi : i < m.rows) (hj : j < m.rows),
    (fns.expImagReal s m).coeff i j =
      (NormedSpace.exp ℂ ((-(Complex.I * (s : ℂ))) •
        Matrix.of fun a b : Fin m.rows => (m.coeff a b : ℂ)) ⟨i, hi⟩ ⟨j, hj⟩).re)

section Calls

variable {R : Type}

/-- A call of one of the three public member functions of `TensorNetwork`. -/
inductive Call (R : Type) where
  | add_tensor (tensor : Tensor R) (name : String)
  | get_tensor (name : String)
  | contract (tensor1_name tensor2_name : String) (indices_to_contract : List String)

/-- `TensorNetwork::add_tensor` as an operation on the object: the outcome of the call
and the object after it.  The `throw` comes before the only assignment to `tensors_`. -/
def TensorNetwork.call_add_tensor (net : TensorNetwork R) (tensor : Tensor R) (name : String) :
    Except Error Unit × TensorNetwork R :=
  match net.tensors_ name with
  | some _ => (.error (.alreadyExists name), net)
  | none => (.ok (), net.assign name tensor)

/-- `TensorNetwork::get_tensor` as an operation on the object.  The member function is
`const`: `find` reads `tensors_`, and the object is handed on as it is. -/
def TensorNetwork.call_get_tensor (net : TensorNetwork R) (name : String) :
    Except Error (Tensor R) × TensorNetwork R :=
  match net.tensors_ name with
  | none => (.error (.notFound name), net)
  | some t => (.ok t, net)

/-- `TensorNetwork::contract` as an operation on the object: the statements of the body in
their order, each handing the object on to the next; a `throw` ends the call with the
object as the statements before it left it.  The two lookups are calls on the object;
the loops, the Eigen contraction and the constructor of `result` work on the local
variables `t1_indices`, `t2_indices`, `result_data`, `new_indices`, `new_dims` and
`result`, and `result` is returned by value. -/
def TensorNetwork.call_contract [CommRing R] (net : TensorNetwork R)
    (tensor1_name tensor2_name : String) (indices_to_contract : List String) :
    Except Error (Tensor R) × TensorNetwork R :=
  match net.call_get_tensor tensor1_name with
  | (.error e, net1) => (.error e, net1)
  | (.ok t1, net1) =>
    match net1.call_get_tensor tensor2_name with
    | (.error e, net2) => (.error e, net2)
    | (.ok t2, net2) =>
      match TensorNetwork.findPositions t1 t2 indices_to_contract with
      | .error e => (.error e, net2)
      | .ok (t1_indices, t2_indices) =>
        match TensorNetwork.checkDimensions t1 t2 indices_to_contract t1_indices t2_indices with
        | .error e => (.error e, net2)
        | .ok _ =>
          match t1_indices, t2_indices with
          | p1 :: _, p2 :: _ =>
            let result_data := t1.data.contract t2.data p1 p2
            let left := TensorNetwork.remaining t1 t1_indices
            let right := TensorNetwork.remaining t2 t2_indices
            let new_indices := (left ++ right).map Prod.fst
            let new_dims := (left ++ right).map Prod.snd
            match Tensor.checkShape new_dims new_indices with
            | .error e => (.error e, net2)
            | .ok _ =>
              match DataType.checkAlloc (new_dims.getD 0 0) (new_dims.getD 1 0) with
              | .error e => (.error e, net2)
              | .ok _ =>
                if p1 < 2 ∧ p2 < 2 ∧ t1.data.dimension p1 = t2.data.dimension p2 then
                  (.ok { data := result_data, indices := new_indices, dimensions := new_dims },
                    net2)
                else (.error .eigenAssert, net2)
          | _, _ => (.error .outOfRange, net2)

/-- The object after a call, whether the call returned or threw: the second component of
the call as an operation on the object. -/
def TensorNetwork.after [CommRing R] (net : TensorNetwork R) : Call R → TensorNetwork R
  | .add_tensor tensor name => (net.call_add_tensor tensor name).2
  | .get_tensor name => (net.call_get_tensor name).2
  | .contract tensor1_name tensor2_name indices_to_contract =>
    (net.call_contract tensor1_name tensor2_name indices_to_contract).2

/-- The network after a sequence of calls, failed calls included. -/
def TensorNetwork.afterAll [CommRing R] (net : TensorNetwork R) (calls : List (Call R)) :
    TensorNetwork R :=
  calls.foldl TensorNetwork.after net

/-- The history of successful insertions of a sequence of calls, oldest first: the name
and the tensor of every `add_tensor` call that did not throw. -/
def TensorNetwork.insertions [CommRing R] (net : TensorNetwork R) :
    List (Call R) → List (String × Tensor R)
  | [] => []
  | .add_tensor tensor name :: rest =>
    match net.add_tensor tensor name with
    | .ok net2 => (name, tensor) :: TensorNetwork.insertions net2 rest
    | .error _ => TensorNetwork.insertions net rest
  | .get_tensor _ :: rest => TensorNetwork.insertions net rest
  | .contract _ _ _ :: rest => TensorNetwork.insertions net rest

end Calls

/-- The leading `d x d` block of a dense matrix read as a matrix of linear algebra, in
which products, powers and transposes have their usual meaning. -/
def MatrixXd.toMatrix {R : Type} (d : Nat) (a : MatrixXd R) : Matrix (Fin d) (Fin d) R :=
  fun i j => a.coeff i.val j.val

/-- An `n x n` tensor with index names `x`, `y`: the shape of the four tensors of
`FourTensorContraction`. -/
def Tensor.SquareNamed {R : Type} (n : Nat) (x y : String) (t : Tensor R) : Prop :=
  t.indices = [x, y] ∧ t.dimensions = [(n : Int), (n : Int)] ∧
    t.data.dim0 = n ∧ t.data.dim1 = n

/-- The network of `FourTensorContraction` after `A`, `B`, `C` and `D` have been added. -/
def networkABCD : TensorNetwork ℚ :=
  (networkAB.assign "C" tensorC).assign "D" tensorD

end qps

/-! ## Theorems -/

namespace qps

section ContractLemmas

variable {R : Type}

theorem indexOf_lt_two_of_mem {s : String} {l : List String} (hl : l.length = 2) (hs : s ∈ l) :
    l.indexOf s < 2 := by
  have := List.indexOf_lt_length.mpr hs
  omega

theorem remaining_single (t : Tensor R) (p : Nat) (hl : t.indices.length = 2) (hp : p < 2) :
    TensorNetwork.remaining t [p] =
      [(t.indices.getD (otherAxis p) "", t.dimensions.getD (otherAxis p) 0)] := by
  unfold TensorNetwork.remaining otherAxis
  rw [hl]
  interval_cases p <;> simp [List.range_succ]

theorem checkAlloc_natCast (a b : Nat) : DataType.checkAlloc (a : Int) (b : Int) = .ok () := by
  unfold DataType.checkAlloc
  rw [if_neg (not_lt.mpr (mul_nonneg (Int.natCast_nonneg a) (Int.natCast_nonneg b)))]

theorem Valid.dimensions_getD {t : Tensor R} (hv : t.Valid) (p : Nat) (hp : p < 2) :
    t.dimensions.getD p 0 = (t.data.dimension p : Int) := by
  rw [hv.2]
  unfold DataType.dimension
  interval_cases p <;> simp

/-- The tensor that a contraction over one shared name returns when both operands are
valid, both carry the name and the two sizes agree. -/
theorem contract_single_ok [CommRing R] (net : TensorNetwork R) (n1 n2 s : String)
    (t1 t2 : Tensor R) (h1 : net.tensors_ n1 = some t1) (h2 : net.tensors_ n2 = some t2)
    (hv1 : t1.Valid) (hv2 : t2.Valid) (hs1 : s ∈ t1.indices) (hs2 : s ∈ t2.indices)
    (hd : t1.dimensions.getD (t1.indices.indexOf s) 0 =
      t2.dimensions.getD (t2.indices.indexOf s) 0) :
    net.contract n1 n2 [s] = .ok
      { data := t1.data.contract t2.data (t1.indices.indexOf s) (t2.indices.indexOf s)
        indices := [t1.indices.getD (otherAxis (t1.indices.indexOf s)) "",
                    t2.indices.getD (otherAxis (t2.indices.indexOf s)) ""]
        dimensions := [t1.dimensions.getD (otherAxis (t1.indices.indexOf s)) 0,
                       t2.dimensions.getD (otherAxis (t2.indices.indexOf s)) 0] } := by
  have hp1 := indexOf_lt_two_of_mem hv1.1 hs1
  have hp2 := indexOf_lt_two_of_mem hv2.1 hs2
  have hne1 : t1.indices.indexOf s ≠ t1.indices.length := by rw [hv1.1]; omega
  have hne2 : t2.indices.indexOf s ≠ t2.indices.length := by rw [hv2.1]; omega
  have hdata : t1.data.dimension (t1.indices.indexOf s) =
      t2.data.dimension (t2.indices.indexOf s) := by
    rw [Valid.dimensions_getD hv1 _ hp1, Valid.dimensions_getD hv2 _ hp2] at hd
    exact_mod_cast hd
  have ho1 : otherAxis (t1.indices.indexOf s) < 2 := by unfold otherAxis; split <;> omega
  have ho2 : otherAxis (t2.indices.indexOf s) < 2 := by unfold otherAxis; split <;> omega
  have hal : DataType.checkAlloc (t1.dimensions.getD (otherAxis (t1.indices.indexOf s)) 0)
      (t2.dimensions.getD (otherAxis (t2.indices.indexOf s)) 0) = .ok () := by
    rw [Valid.dimensions_getD hv1 _ ho1, Valid.dimensions_getD hv2 _ ho2]
    exact checkAlloc_natCast _ _
  simp only [TensorNetwork.contract, TensorNetwork.get_tensor, h1, h2, TensorNetwork.findPositions,
    hne1, hne2, or_self, if_false, TensorNetwork.checkDimensions, hd, ne_eq, not_true_eq_false,
    remaining_single t1 _ hv1.1 hp1, remaining_single t2 _ hv2.1 hp2, List.singleton_append,
    List.map_cons, List.map_nil, List.getD_cons_zero, List.getD_cons_succ, hal]
  simp [Tensor.checkShape, hp1, hp2, hdata]

/-- A contraction whose first operand is absent throws `not found` for its name. -/
theorem contract_first_absent [CommRing R] (net : TensorNetwork R) (n1 n2 : String)
    (l : List String) (h1 : net.tensors_ n1 = none) :
    net.contract n1 n2 l = .error (.notFound n1) := by
  simp [TensorNetwork.contract, TensorNetwork.get_tensor, h1]

/-- A contraction whose second operand is absent throws `not found` for its name. -/
theorem contract_second_absent [CommRing R] (net : TensorNetwork R) (n1 n2 : String)
    (l : List String) (t1 : Tensor R) (h1 : net.tensors_ n1 = some t1)
    (h2 : net.tensors_ n2 = none) :
    net.contract n1 n2 l = .error (.notFound n2) := by
  simp [TensorNetwork.contract, TensorNetwork.get_tensor, h1, h2]

/-- A contraction over a name that one operand does not carry throws `index not found`. -/
theorem contract_index_missing [CommRing R] (net : TensorNetwork R) (n1 n2 s : String)
    (rest : List String) (t1 t2 : Tensor R) (h1 : net.tensors_ n1 = some t1)
    (h2 : net.tensors_ n2 = some t2) (hs : s ∉ t1.indices ∨ s ∉ t2.indices) :
    net.contract n1 n2 (s :: rest) = .error (.indexNotFound s) := by
  have hcond : t1.indices.indexOf s = t1.indices.length ∨
      t2.indices.indexOf s = t2.indices.length := by
    rcases hs with hs | hs
    · exact Or.inl (List.indexOf_eq_length.mpr hs)
    · exact Or.inr (List.indexOf_eq_length.mpr hs)
  simp [TensorNetwork.contract, TensorNetwork.get_tensor, h1, h2, TensorNetwork.findPositions,
    hcond]

end ContractLemmas

section ContractClaims

variable {R : Type} [CommRing R]

/-- C1: in a network holding valid rank-2 tensors `t1` under `name1` and `t2` under `name2`,
for a name `s` carried by both, at first positions `p1` and `p2` whose sizes are both `m`,
`contract(name1, name2, [s])` returns a tensor `r` whose shape is (free extent of `t1`, free
extent of `t2`) and whose entry `r(a, b)` is the sum over `k < m` of
`t1(axis p1 = k, other = a) * t2(axis p2 = k, other = b)`; for index lists `[x, s]` and
`[s, y]` with `x, y ≠ s` its matrix is `to_matrix(t1) * to_matrix(t2)`. -/
theorem contract_entries (net : TensorNetwork R) (name1 name2 s : String)
    (t1 t2 : Tensor R) (m : Nat)
    (h1 : net.tensors_ name1 = some t1) (h2 : net.tensors_ name2 = some t2)
    (hv1 : t1.Valid) (hv2 : t2.Valid) (hs1 : s ∈ t1.indices) (hs2 : s ∈ t2.indices)
    (hm1 : t1.dimensions.getD (t1.indices.indexOf s) 0 = (m : Int))
    (hm2 : t2.dimensions.getD (t2.indices.indexOf s) 0 = (m : Int)) :
    ∃ r : Tensor R, net.contract name1 name2 [s] = .ok r ∧
      r.data.dim0 = t1.data.dimension (otherAxis (t1.indices.indexOf s)) ∧
      r.data.dim1 = t2.data.dimension (otherAxis (t2.indices.indexOf s)) ∧
      (∀ a b : Nat, a < r.data.dim0 → b < r.data.dim1 →
        r.data.coeff a b = Finset.sum (Finset.range m) (fun k =>
          t1.data.entry (t1.indices.indexOf s) k a * t2.data.entry (t2.indices.indexOf s) k b)) ∧
      (∀ x y : String, t1.indices = [x, s] → t2.indices = [s, y] → x ≠ s → y ≠ s →
        r.to_matrix = t1.to_matrix.mul t2.to_matrix) := by
  have hp1 := indexOf_lt_two_of_mem hv1.1 hs1
  have hp2 := indexOf_lt_two_of_mem hv2.1 hs2
  have hm1' : t1.data.dimension (t1.indices.indexOf s) = m := by
    rw [Valid.dimensions_getD hv1 _ hp1] at hm1; exact_mod_cast hm1
  have hm2' : t2.data.dimension (t2.indices.indexOf s) = m := by
    rw [Valid.dimensions_getD hv2 _ hp2] at hm2; exact_mod_cast hm2
  refine ⟨_, contract_single_ok net name1 name2 s t1 t2 h1 h2 hv1 hv2 hs1 hs2 (hm1.trans hm2.symm),
    rfl, rfl, ?_, ?_⟩
  · intro a b ha hb
    simp only [DataType.contract] at ha hb ⊢
    rw [if_pos ⟨ha, hb⟩, hm1']
  · intro x y hx hy hxs hys
    have e1 : t1.indices.indexOf s = 1 := by
      rw [hx]; simp [List.indexOf_cons, hxs]
    have e2 : t2.indices.indexOf s = 0 := by
      rw [hy]; simp [List.indexOf_cons]
    rw [e1] at hm1'
    rw [e2] at hm2'
    simp only [DataType.dimension, one_ne_zero, if_false, if_true] at hm1' hm2'
    simp only [Tensor.to_matrix, MatrixXd.mul, DataType.contract, e1, e2, otherAxis,
      DataType.dimension, DataType.entry, one_ne_zero, if_false, if_true, MatrixXd.mk.injEq,
      true_and]
    funext i j
    by_cases hij : i < t1.data.dim0 ∧ j < t2.data.dim1
    · simp only [hij, and_self, if_true]
      apply Finset.sum_congr rfl
      intro k hk
      have hk1 : k < t1.data.dim1 := Finset.mem_range.mp hk
      have hk2 : k < t2.data.dim0 := by omega
      simp [hk1, hk2, hij.1, hij.2]
    · simp [hij]

/-- C2: under the preconditions of C1 the returned tensor's index list is the leftover
name of `t1` followed by the leftover name of `t2`, and its dimension list is the pair of
the corresponding sizes in the same order. -/
theorem contract_metadata (net : TensorNetwork R) (name1 name2 s : String)
    (t1 t2 : Tensor R)
    (h1 : net.tensors_ name1 = some t1) (h2 : net.tensors_ name2 = some t2)
    (hv1 : t1.Valid) (hv2 : t2.Valid) (hs1 : s ∈ t1.indices) (hs2 : s ∈ t2.indices)
    (hd : t1.dimensions.getD (t1.indices.indexOf s) 0 =
      t2.dimensions.getD (t2.indices.indexOf s) 0) :
    ∃ r : Tensor R, net.contract name1 name2 [s] = .ok r ∧
      r.indices = [t1.indices.getD (otherAxis (t1.indices.indexOf s)) "",
                   t2.indices.getD (otherAxis (t2.indices.indexOf s)) ""] ∧
      r.dimensions = [t1.dimensions.getD (otherAxis (t1.indices.indexOf s)) 0,
                      t2.dimensions.getD (otherAxis (t2.indices.indexOf s)) 0] ∧
      (otherAxis (t1.indices.indexOf s) < 2 ∧
        otherAxis (t1.indices.indexOf s) ≠ t1.indices.indexOf s) ∧
      (otherAxis (t2.indices.indexOf s) < 2 ∧
        otherAxis (t2.indices.indexOf s) ≠ t2.indices.indexOf s) := by
  refine ⟨_, contract_single_ok net name1 name2 s t1 t2 h1 h2 hv1 hv2 hs1 hs2 hd,
    rfl, rfl, ?_, ?_⟩ <;>
  · unfold otherAxis
    constructor <;> split <;> omega

/-- C3: the outcome of `contract(name1, name2, [s])` by cases: (i) `not found` when an
operand is absent (the first absent name is reported); otherwise (ii) `index not found`
when `s` is missing from an operand; otherwise (iii) `dimension mismatch` when the sizes at
the located positions differ; otherwise (iv), for operands satisfying the Named Tensor
invariant, a tensor is returned.  In (i)-(iii) the result is the error, so no tensor. -/
theorem contract_outcome (net : TensorNetwork R) (name1 name2 s : String) :
    (net.tensors_ name1 = none → net.contract name1 name2 [s] = .error (.notFound name1)) ∧
    (∀ t1, net.tensors_ name1 = some t1 → net.tensors_ name2 = none →
      net.contract name1 name2 [s] = .error (.notFound name2)) ∧
    (∀ t1 t2, net.tensors_ name1 = some t1 → net.tensors_ name2 = some t2 →
      ((s ∉ t1.indices ∨ s ∉ t2.indices) →
        net.contract name1 name2 [s] = .error (.indexNotFound s)) ∧
      (s ∈ t1.indices → s ∈ t2.indices →
        (t1.dimensions.getD (t1.indices.indexOf s) 0 ≠
            t2.dimensions.getD (t2.indices.indexOf s) 0 →
          net.contract name1 name2 [s] = .error (.dimensionMismatch s)) ∧
        (t1.dimensions.getD (t1.indices.indexOf s) 0 =
            t2.dimensions.getD (t2.indices.indexOf s) 0 → t1.Valid → t2.Valid →
          ∃ r : Tensor R, net.contract name1 name2 [s] = .ok r))) := by
  refine ⟨fun h1 => contract_first_absent net name1 name2 [s] h1,
    fun t1 h1 h2 => contract_second_absent net name1 name2 [s] t1 h1 h2,
    fun t1 t2 h1 h2 => ⟨fun hs => contract_index_missing net name1 name2 s [] t1 t2 h1 h2 hs,
      fun hs1 hs2 => ⟨fun hne => ?_, fun hd hv1 hv2 =>
        ⟨_, contract_single_ok net name1 name2 s t1 t2 h1 h2 hv1 hv2 hs1 hs2 hd⟩⟩⟩⟩
  have hne1 : t1.indices.indexOf s ≠ t1.indices.length :=
    fun h => (List.indexOf_eq_length.mp h) hs1
  have hne2 : t2.indices.indexOf s ≠ t2.indices.length :=
    fun h => (List.indexOf_eq_length.mp h) hs2
  simp only [TensorNetwork.contract, TensorNetwork.get_tensor, h1, h2,
    TensorNetwork.findPositions, hne1, hne2, or_self, if_false, TensorNetwork.checkDimensions,
    ne_eq, hne, not_false_eq_true, if_true]

end ContractClaims


/-- Witness of C1: tensors `A` and `B` of the test, contracted over `j`. -/
theorem contract_entries_witness :
    ∃ r : Tensor ℚ, networkAB.contract "A" "B" ["j"] = .ok r ∧
      r.data.dim0 = tensorA.data.dimension (otherAxis (tensorA.indices.indexOf "j")) ∧
      r.data.dim1 = tensorB.data.dimension (otherAxis (tensorB.indices.indexOf "j")) ∧
      (∀ a b : Nat, a < r.data.dim0 → b < r.data.dim1 →
        r.data.coeff a b = Finset.sum (Finset.range 2) (fun k =>
          tensorA.data.entry (tensorA.indices.indexOf "j") k a *
            tensorB.data.entry (tensorB.indices.indexOf "j") k b)) ∧
      (∀ x y : String, tensorA.indices = [x, "j"] → tensorB.indices = ["j", y] → x ≠ "j" →
        y ≠ "j" → r.to_matrix = tensorA.to_matrix.mul tensorB.to_matrix) :=
  contract_entries networkAB "A" "B" "j" tensorA tensorB 2 rfl rfl ⟨rfl, rfl⟩ ⟨rfl, rfl⟩
    (by decide) (by decide) (by decide) (by decide)

/-- Witness of C2: tensors `A` and `B` of the test, contracted over `j`. -/
theorem contract_metadata_witness :
    ∃ r : Tensor ℚ, networkAB.contract "A" "B" ["j"] = .ok r ∧
      r.indices = ["i", "k"] ∧ r.dimensions = [2, 2] := by
  obtain ⟨r, hr, hi, hd, _⟩ := contract_metadata networkAB "A" "B" "j" tensorA tensorB rfl rfl
    ⟨rfl, rfl⟩ ⟨rfl, rfl⟩ (by decide) (by decide) (by decide)
  exact ⟨r, hr, hi.trans (by decide), hd.trans (by decide)⟩

/-- Witness of C3, case (iv): tensors `A` and `B` of the test, contracted over `j`. -/
theorem contract_outcome_witness :
    ∃ r : Tensor ℚ, networkAB.contract "A" "B" ["j"] = .ok r :=
  ((contract_outcome networkAB "A" "B" "j").2.2 tensorA tensorB rfl rfl).2
    (by decide) (by decide) |>.2 (by decide) ⟨rfl, rfl⟩ ⟨rfl, rfl⟩

section NetworkLemmas

variable {R : Type}

@[simp] theorem empty_tensors (k : String) : (TensorNetwork.empty : TensorNetwork R).tensors_ k = none :=
  rfl

@[simp] theorem assign_tensors (net : TensorNetwork R) (name k : String) (t : Tensor R) :
    (net.assign name t).tensors_ k = if k = name then some t else net.tensors_ k :=
  rfl

theorem add_tensor_eq_ok {net : TensorNetwork R} {name : String} (t : Tensor R)
    (h : net.tensors_ name = none) : net.add_tensor t name = .ok (net.assign name t) := by
  simp [TensorNetwork.add_tensor, h]

theorem add_tensor_eq_error {net : TensorNetwork R} {name : String} (t : Tensor R) {old : Tensor R}
    (h : net.tensors_ name = some old) : net.add_tensor t name = .error (.alreadyExists name) := by
  simp [TensorNetwork.add_tensor, h]

/-- A successful `add_tensor` is the map assignment, and the name was free. -/
theorem add_tensor_ok_iff {net net2 : TensorNetwork R} {name : String} {t : Tensor R} :
    net.add_tensor t name = .ok net2 ↔ net.tensors_ name = none ∧ net2 = net.assign name t := by
  unfold TensorNetwork.add_tensor
  cases h : net.tensors_ name with
  | none => simp [eq_comm]
  | some old => simp

theorem get_tensor_eq_ok {net : TensorNetwork R} {name : String} {t : Tensor R}
    (h : net.tensors_ name = some t) : net.get_tensor name = .ok t := by
  simp [TensorNetwork.get_tensor, h]

theorem get_tensor_eq_error {net : TensorNetwork R} {name : String}
    (h : net.tensors_ name = none) : net.get_tensor name = .error (.notFound name) := by
  simp [TensorNetwork.get_tensor, h]

/-- The lookup as an operation on the object returns what `get_tensor` returns and hands
the object on. -/
theorem call_get_tensor_eq (net : TensorNetwork R) (name : String) :
    net.call_get_tensor name = (net.get_tensor name, net) := by
  unfold TensorNetwork.call_get_tensor TensorNetwork.get_tensor
  cases net.tensors_ name <;> rfl

/-- The insertion as an operation on the object: the object after it is the network that
`add_tensor` returns, or the object as it was when `add_tensor` throws. -/
theorem call_add_tensor_eq (net : TensorNetwork R) (t : Tensor R) (name : String) :
    net.call_add_tensor t name =
      match net.add_tensor t name with
      | .ok net2 => (.ok (), net2)
      | .error e => (.error e, net) := by
  unfold TensorNetwork.call_add_tensor TensorNetwork.add_tensor
  cases net.tensors_ name <;> rfl

end NetworkLemmas

section ExpectationValue

variable {R : Type} [Field R]

/-- C5: for a state `psi` with index names `[site, c]`, `c ≠ site`, and dimensions `[d, 1]`
and an observable `O` with index names `[site, site]` and dimensions `[d, d]` (data shapes
equal to the dimensions), `initialize_state(psi)`, `build_network`,
`compute_quantity_of_interest` complete and return the sum over `r, s < d` of
`psi(r, 0) * O(r, s) * psi(s, 0)`. -/
theorem expectation_value (d : Nat) (c : String) (psi O : Tensor R) (hc : c ≠ "site")
    (hpi : psi.indices = ["site", c]) (hpd : psi.dimensions = [(d : Int), 1])
    (hps : psi.data.dim0 = d ∧ psi.data.dim1 = 1)
    (hoi : O.indices = ["site", "site"]) (hod : O.dimensions = [(d : Int), (d : Int)])
    (hos : O.data.dim0 = d ∧ O.data.dim1 = d) :
    ExpectationValueSolver.run O psi =
      .ok (Finset.sum (Finset.range d) (fun r => Finset.sum (Finset.range d) (fun s =>
        psi.data.coeff r 0 * O.data.coeff r s * psi.data.coeff s 0))) := by
  have hvP : psi.Valid := ⟨by rw [hpi]; rfl, by rw [hpd, hps.1, hps.2]; rfl⟩
  have hvO : O.Valid := ⟨by rw [hoi]; rfl, by rw [hod, hos.1, hos.2]⟩
  have hiP : psi.indices.indexOf "site" = 0 := by rw [hpi]; simp [List.indexOf_cons]
  have hiO : O.indices.indexOf "site" = 0 := by rw [hoi]; simp [List.indexOf_cons]
  -- first contraction: psi with the observable
  have hc1 := contract_single_ok
    (((TensorNetwork.empty : TensorNetwork R).assign "psi" psi).assign "observable" O)
    "psi" "observable" "site" psi O (by simp) (by simp) hvP hvO
    (by rw [hpi]; simp) (by rw [hoi]; simp) (by rw [hiP, hiO, hpd, hod]; rfl)
  rw [hiP, hiO] at hc1
  simp only [otherAxis, if_true, hpi, hoi, hpd, hod, List.getD_cons_succ, List.getD_cons_zero]
    at hc1
  -- second contraction: psi with the intermediate
  have hi2 : List.indexOf "site" [c, "site"] = 1 := by simp [List.indexOf_cons, hc]
  have hc2 := contract_single_ok
    ((((TensorNetwork.empty : TensorNetwork R).assign "psi" psi).assign "observable" O).assign
      "O_psi" { data := psi.data.contract O.data 0 0, indices := [c, "site"],
                dimensions := [1, (d : Int)] })
    "psi" "O_psi" "site" psi
    { data := psi.data.contract O.data 0 0, indices := [c, "site"], dimensions := [1, (d : Int)] }
    (by simp) (by simp) hvP
    ⟨rfl, by simp [DataType.contract, DataType.dimension, otherAxis, hps.2, hos.2]⟩
    (by rw [hpi]; simp) (by simp)
    (by rw [hiP, hpd]; simp only [hi2]; rfl)
  have hi0 : List.indexOf "site" ["site", c] = 0 := by simp [List.indexOf_cons]
  simp only [hi0, hi2, otherAxis, if_true, one_ne_zero, if_false, hpi, hpd,
    List.getD_cons_succ, List.getD_cons_zero] at hc2
  simp only [ExpectationValueSolver.run, ExpectationValueSolver.new,
    ExpectationValueSolver.initialize_state, ExpectationValueSolver.build_network,
    ExpectationValueSolver.build_observable_network,
    ExpectationValueSolver.compute_quantity_of_interest]
  rw [add_tensor_eq_ok psi (by simp)]
  simp only []
  rw [add_tensor_eq_ok O (by simp)]
  simp only [hc1]
  rw [add_tensor_eq_ok _ (by simp)]
  simp only [hc2]
  rw [add_tensor_eq_ok _ (by simp)]
  simp only []
  simp only [TensorNetwork.get_tensor, assign_tensors, if_true]
  simp only [DataType.contract, DataType.dimension, otherAxis, if_true, one_ne_zero, if_false,
    hps.1, hps.2, hos.1, hos.2, DataType.entry, zero_lt_one, and_self]
  rw [Finset.sum_comm]
  apply congrArg
  apply Finset.sum_congr rfl
  intro r hr
  have hr' : r < d := Finset.mem_range.mp hr
  simp only [hr', and_self, if_true]
  rw [Finset.mul_sum]
  apply Finset.sum_congr rfl
  intro s _
  ring

end ExpectationValue

/-- Witness of C5: the observable `diag(1, -1)` in the state `(1, 1)` has value
`1 * 1 * 1 + 1 * (-1) * 1 = 0`. -/
theorem expectation_value_witness :
    ExpectationValueSolver.run observableZ statePlus = .ok 0 :=
  (expectation_value 2 "col" statePlus observableZ (by decide) rfl rfl ⟨rfl, rfl⟩ rfl rfl
    ⟨rfl, rfl⟩).trans (by
      simp [Finset.sum_range_succ, statePlus, observableZ, testTensor, matrix2])

section TestFailures

variable {R : Type}

/-- A contraction whose second operand is absent returns no tensor. -/
theorem contract_absent_not_ok [CommRing R] (net : TensorNetwork R) (n1 n2 : String)
    (l : List String) (h2 : net.tensors_ n2 = none) (r : Tensor R) :
    net.contract n1 n2 l ≠ .ok r := by
  cases h1 : net.tensors_ n1 with
  | none => simp [TensorNetwork.contract, TensorNetwork.get_tensor, h1]
  | some t1 => simp [TensorNetwork.contract, TensorNetwork.get_tensor, h1, h2]

/-- The call sequence of `FourTensorContraction` returns no tensor, whatever the four
tensors are: no tensor is ever registered under the name `i`. -/
theorem fourTensorContraction_not_ok [CommRing R] (A B C D r : Tensor R) :
    fourTensorContraction A B C D ≠ .ok r := by
  unfold fourTensorContraction
  intro h
  split at h
  · exact absurd h (by simp)
  rename_i n1 h1
  split at h
  · exact absurd h (by simp)
  rename_i n2 h2
  split at h
  · exact absurd h (by simp)
  rename_i n3 h3
  split at h
  · exact absurd h (by simp)
  rename_i n4 h4
  split at h
  · exact absurd h (by simp)
  rename_i r1 _
  split at h
  · exact absurd h (by simp)
  rename_i n5 h5
  split at h
  · exact absurd h (by simp)
  rename_i r2 _
  split at h
  · exact absurd h (by simp)
  rename_i n6 h6
  split at h
  · exact absurd h (by simp)
  rename_i r3 _
  split at h
  · exact absurd h (by simp)
  rename_i n7 h7
  rw [add_tensor_ok_iff] at h1 h2 h3 h4 h5 h6 h7
  refine contract_absent_not_ok n7 "ABCD" "i" ["i"] ?_ r h
  rw [h7.2, h6.2, h5.2, h4.2, h3.2, h2.2, h1.2]
  simp

/-- C4 (evaluation at the input of the test): with the four matrices of
`TEST(TensorNetworkTest, FourTensorContraction)` the call sequence of the test ends in
the exception `tensor with name 'i' not found`, thrown by the last call
`contract("ABCD", "i", {"i"})`; no trace is returned. -/
theorem fourTensorContraction_test :
    fourTensorContraction tensorA tensorB tensorC tensorD = .error (.notFound "i") := by
  rfl

/-- C6 (evaluation on every input of the test's shape): with the default index names
`i, j` and `i, col` the first contraction over `site` throws `index 'site' not found`,
for every observable matrix and every state vector. -/
theorem expectationValueTest_fails [Field R] (O : MatrixXd R) (psi : VectorXd R) :
    expectationValueTest O psi = .error (.indexNotFound "site") := by
  rfl

/-- C8 (evaluation on every input of the test's shape): for every 2 x 2 Hamiltonian and
every state vector, `TEST(TimeEvolution, Basic)` throws `index 'site_0' not found` in the
first contraction of the first step, for any implementation of the matrix functions. -/
theorem timeEvolutionTest_fails [Field R] (fns : MatrixFunctions R) (a b c d : R)
    (psi0 : VectorXd R) :
    timeEvolutionTest fns (matrix2 a b c d) psi0 = .error (.indexNotFound "site_0") := by
  with_unfolding_all rfl

/-- C10 (evaluation on every input of the test's shape): for every 2 x 2 Hamiltonian and
every initial matrix, `TEST(ThermalState, Basic)` throws `index 'site_0' not found` in
the first contraction, for any implementation of the matrix functions. -/
theorem thermalStateTest_fails [Field R] (fns : MatrixFunctions R) (a b c d : R)
    (rho0 : MatrixXd R) :
    thermalStateTest fns (matrix2 a b c d) rho0 = .error (.indexNotFound "site_0") := by
  with_unfolding_all rfl

end TestFailures

section Names


theorem digitChar_isDigit (k : Nat) (hk : k < 10) : (Nat.digitChar k).isDigit = true := by
  interval_cases k <;> decide

theorem digitChar_value (k : Nat) (hk : k < 10) : (Nat.digitChar k).toNat - 48 = k := by
  interval_cases k <;> decide

theorem toDigitsCore_spec (fuel : Nat) : ∀ (n : Nat) (ds : List Char), n < fuel →
    ∃ pre : List Char, Nat.toDigitsCore 10 fuel n ds = pre ++ ds ∧ digitsValue pre = n ∧
      ∀ c ∈ pre, c.isDigit = true := by
  induction fuel with
  | zero => intro n ds h; omega
  | succ fuel ih =>
    intro n ds h
    unfold Nat.toDigitsCore
    by_cases h0 : n / 10 = 0
    · refine ⟨[Nat.digitChar (n % 10)], by simp [h0], ?_, ?_⟩
      · simp only [digitsValue, List.foldl, digitChar_value _ (Nat.mod_lt n (by norm_num))]
        omega
      · intro c hc
        rw [List.mem_singleton] at hc
        rw [hc]
        exact digitChar_isDigit _ (Nat.mod_lt n (by norm_num))
    · obtain ⟨pre, hpre, hval, hdig⟩ := ih (n / 10) (Nat.digitChar (n % 10) :: ds) (by omega)
      refine ⟨pre ++ [Nat.digitChar (n % 10)], by simp [h0, hpre], ?_, ?_⟩
      · unfold digitsValue at hval ⊢
        rw [List.foldl_append, hval]
        simp only [List.foldl, digitChar_value _ (Nat.mod_lt n (by norm_num))]
        omega
      · intro c hc
        rw [List.mem_append, List.mem_singleton] at hc
        rcases hc with hc | hc
        · exact hdig c hc
        · rw [hc]
          exact digitChar_isDigit _ (Nat.mod_lt n (by norm_num))

/-- `std::to_string` of a natural number: decimal digits only, denoting the number. -/
theorem toString_nat_spec (n : Nat) :
    digitsValue (toString n).data = n ∧ ∀ c ∈ (toString n).data, c.isDigit = true := by
  obtain ⟨pre, hpre, hval, hdig⟩ := toDigitsCore_spec (n + 1) n [] (by omega)
  have hdata : (toString n).data = pre := by
    show (Nat.toDigits 10 n).asString.data = pre
    unfold Nat.toDigits
    rw [hpre]
    simp [List.asString]
  rw [hdata]
  exact ⟨hval, hdig⟩

theorem toString_nat_injective {a b : Nat} (h : toString a = toString b) : a = b := by
  rw [← (toString_nat_spec a).1, ← (toString_nat_spec b).1, h]

theorem rho_step_ne_final (n : Nat) : "rho_" ++ toString n ≠ "rho_final" := by
  intro h
  have hd := congrArg String.data h
  rw [String.data_append] at hd
  have hf : (toString n).data = "final".data := List.append_cancel_left hd
  have := (toString_nat_spec n).2 'f' (by rw [hf]; decide)
  exact absurd this (by decide)

theorem exp_op_ne_rho_final (x : String) : "exp_op_" ++ x ≠ "rho_final" := by
  intro h
  have := congrArg String.data h
  simp at this

end Names

section Thermal

variable {R : Type}

/-- A property of the loop state that every successful iteration preserves holds after
the loop. -/
theorem forEach_invariant {S : Type} (P : S → Prop) (body : Nat → S → Except Error S)
    (hbody : ∀ i s s2, P s → body i s = .ok s2 → P s2) :
    ∀ (l : List Nat) (s s2 : S), P s → forEach body l s = .ok s2 → P s2 := by
  intro l
  induction l with
  | nil =>
    intro s s2 hs h
    simp only [forEach, Except.ok.injEq] at h
    exact h ▸ hs
  | cons i rest ih =>
    intro s s2 hs h
    simp only [forEach] at h
    split at h
    · exact absurd h (by simp)
    · rename_i s1 h1
      exact ih s1 s2 (hbody i s s1 hs h1) h

theorem siteStep_rho_final [Field R] (fns : MatrixFunctions R) (ops : List (Tensor R)) (dbeta : R)
    (step i : Nat) (st st2 : R × TensorNetwork R)
    (hI : st.2.tensors_ "rho_final" = none)
    (h : ThermalSolver.siteStep fns ops dbeta step i st = .ok st2) :
    st2.2.tensors_ "rho_final" = none := by
  unfold ThermalSolver.siteStep at h
  simp only [] at h
  split at h
  · exact absurd h (by simp)
  split at h
  · exact absurd h (by simp)
  split at h
  · exact absurd h (by simp)
  rename_i net1 h1
  split at h
  · exact absurd h (by simp)
  split at h
  · exact absurd h (by simp)
  rename_i net2 h2
  split at h
  · exact absurd h (by simp)
  simp only [Except.ok.injEq] at h
  rw [add_tensor_ok_iff] at h1 h2
  rw [← h, h2.2, h1.2]
  simp only [assign_tensors, hI]
  rw [if_neg (rho_step_ne_final (step + 1)).symm, if_neg (exp_op_ne_rho_final _).symm]

theorem imaginaryTimeStep_rho_final [Field R] (fns : MatrixFunctions R) (ops : List (Tensor R))
    (dbeta : R) (step : Nat) (net net2 : TensorNetwork R)
    (hI : net.tensors_ "rho_final" = none)
    (h : ThermalSolver.imaginaryTimeStep fns ops dbeta step net = .ok net2) :
    net2.tensors_ "rho_final" = none := by
  unfold ThermalSolver.imaginaryTimeStep at h
  split at h
  · exact absurd h (by simp)
  rename_i st hst
  split at h
  · exact absurd h (by simp)
  simp only [Except.ok.injEq] at h
  rw [← h]
  exact forEach_invariant (fun s : R × TensorNetwork R => s.2.tensors_ "rho_final" = none) _
    (fun i s s2 hs hb => siteStep_rho_final fns ops dbeta step i s s2 hs hb) _ (0, net) st hI hst

/-- C9 (the code on every run): whenever `initialize_state` and `build_network` of a
Thermal Solver complete, the network holds no tensor named `rho_final`, because
`build_imaginary_time_evolution` never registers one; `compute_quantity_of_interest` then
throws `tensor with name 'rho_final' not found` instead of returning a trace. -/
theorem thermal_final_tensor_absent [Field R] (fns : MatrixFunctions R) (beta : R)
    (num_steps : Int) (local_operators : List (Tensor R)) (initial_state : Tensor R)
    (params : List R) (s1 s2 : ThermalSolver R)
    (h1 : (ThermalSolver.new beta num_steps local_operators).initialize_state initial_state
      = .ok s1)
    (h2 : s1.build_network fns params = .ok s2) :
    s2.network_.tensors_ "rho_final" = none ∧
      s2.compute_quantity_of_interest = .error (.notFound "rho_final") := by
  have hI1 : s1.network_.tensors_ "rho_final" = none := by
    unfold ThermalSolver.initialize_state ThermalSolver.new at h1
    simp only [] at h1
    split at h1
    · exact absurd h1 (by simp)
    rename_i net hnet
    simp only [Except.ok.injEq] at h1
    rw [add_tensor_ok_iff] at hnet
    rw [← h1, hnet.2]
    simp
  have hI2 : s2.network_.tensors_ "rho_final" = none := by
    unfold ThermalSolver.build_network ThermalSolver.build_imaginary_time_evolution at h2
    simp only [] at h2
    split at h2
    · exact absurd h2 (by simp)
    rename_i net hnet
    simp only [Except.ok.injEq] at h2
    rw [← h2]
    exact forEach_invariant (fun n : TensorNetwork R => n.tensors_ "rho_final" = none) _
      (fun i n n2 hn hb => imaginaryTimeStep_rho_final fns s1.local_operators_ _ i n n2 hn hb)
      _ s1.network_ net hI1 hnet
  exact ⟨hI2, by simp [ThermalSolver.compute_quantity_of_interest, TensorNetwork.get_tensor, hI2]⟩

end Thermal

/-- Witness of C9: one imaginary-time step of the Hamiltonian `diag(1, -1)` from the
identity completes, and `compute_quantity_of_interest` then fails. -/
theorem thermal_final_tensor_absent_witness :
    ∃ s1 s2 : ThermalSolver ℚ,
      (ThermalSolver.new 1 1 [hamiltonianZ]).initialize_state identityState = .ok s1 ∧
      s1.build_network firstOrderFunctions [] = .ok s2 ∧
      s2.network_.tensors_ "rho_final" = none ∧
      s2.compute_quantity_of_interest = .error (.notFound "rho_final") := by
  have h1 : ∃ s1, (ThermalSolver.new 1 1 [hamiltonianZ]).initialize_state identityState
      = .ok s1 := ⟨_, rfl⟩
  obtain ⟨s1, h1⟩ := h1
  have h2 : ∃ s2, s1.build_network firstOrderFunctions [] = .ok s2 := by
    simp only [ThermalSolver.initialize_state, ThermalSolver.new,
      add_tensor_eq_ok identityState (empty_tensors "rho_0"), Except.ok.injEq] at h1
    subst h1
    exact ⟨_, by with_unfolding_all rfl⟩
  obtain ⟨s2, h2⟩ := h2
  exact ⟨s1, s2, h1, h2,
    thermal_final_tensor_absent firstOrderFunctions 1 1 [hamiltonianZ] identityState [] s1 s2
      h1 h2⟩

section StateNames

theorem toString_nat_no_char (n : Nat) (ch : Char) (hch : ch.isDigit = false) :
    ch ∉ (toString n).data := by
  intro hmem
  have := (toString_nat_spec n).2 ch hmem
  rw [hch] at this
  exact absurd this (by decide)

/-- A sweep name `psi_<a>_<b>` is never a step name `psi_<c>`. -/
theorem psi_mid_ne_psi_step (a b c : Nat) :
    "psi_" ++ toString a ++ "_" ++ toString b ≠ "psi_" ++ toString c := by
  intro h
  have hd := congrArg String.data h
  simp only [String.data_append, List.append_assoc] at hd
  have hd2 := List.append_cancel_left hd
  have hmem : '_' ∈ (toString c).data := by
    rw [← hd2]
    exact List.mem_append_right _ (List.mem_append_left _ (by decide))
  exact toString_nat_no_char c '_' (by decide) hmem

/-- Sweep names `psi_<a>_<b>` determine both numbers. -/
theorem psi_mid_injective {a b c d : Nat}
    (h : "psi_" ++ toString a ++ "_" ++ toString b = "psi_" ++ toString c ++ "_" ++ toString d) :
    a = c ∧ b = d := by
  have hd := congrArg String.data h
  simp only [String.data_append, List.append_assoc] at hd
  have hd2 := List.append_cancel_left hd
  have hsplit : (toString a).data ++ '_' :: (toString b).data =
      (toString c).data ++ '_' :: (toString d).data := hd2
  rw [List.append_cons_inj_of_not_mem (toString_nat_no_char a '_' (by decide))
    (toString_nat_no_char b '_' (by decide))] at hsplit
  refine ⟨?_, ?_⟩
  · rw [← (toString_nat_spec a).1, ← (toString_nat_spec c).1, hsplit.1]
  · rw [← (toString_nat_spec b).1, ← (toString_nat_spec d).1, hsplit.2.2]

/-- Step names `psi_<a>` determine the number. -/
theorem psi_step_injective {a b : Nat} (h : "psi_" ++ toString a = "psi_" ++ toString b) :
    a = b := by
  have hd := congrArg String.data h
  simp only [String.data_append] at hd
  have hd2 := List.append_cancel_left hd
  rw [← (toString_nat_spec a).1, ← (toString_nat_spec b).1, hd2]

theorem psi_ne_exp_op (x y : String) : "psi_" ++ x ≠ "exp_op_" ++ y := by
  intro h
  have := congrArg String.data h
  simp at this

theorem psi_mid_ne_exp_op (a b : Nat) (y : String) :
    "psi_" ++ toString a ++ "_" ++ toString b ≠ "exp_op_" ++ y := by
  intro h
  have := congrArg String.data h
  simp at this

theorem psi_step_ne_final (a : Nat) : "psi_" ++ toString a ≠ "psi_final" := by
  intro h
  have hd := congrArg String.data h
  rw [String.data_append] at hd
  have hf : (toString a).data = "final".data := List.append_cancel_left hd
  exact toString_nat_no_char a 'f' (by decide) (by rw [hf]; decide)

theorem psi_mid_ne_final (a b : Nat) :
    "psi_" ++ toString a ++ "_" ++ toString b ≠ "psi_final" := by
  intro h
  have hd := congrArg String.data h
  simp only [String.data_append, List.append_assoc] at hd
  have hf : (toString a).data ++ ("_".data ++ (toString b).data) = "final".data :=
    List.append_cancel_left hd
  have hmem : '_' ∈ "final".data := by
    rw [← hf]
    exact List.mem_append_right _ (List.mem_append_left _ (by decide))
  exact absurd hmem (by decide)

theorem exp_op_ne_psi_final (x : String) : "exp_op_" ++ x ≠ "psi_final" := by
  intro h
  have := congrArg String.data h
  simp at this

end StateNames

section SingleSite

variable {R : Type}

open TimeEvolutionSolver

theorem forEach_append {S : Type} (body : Nat → S → Except Error S) (l1 l2 : List Nat) (s : S) :
    forEach body (l1 ++ l2) s =
      match forEach body l1 s with
      | .error e => .error e
      | .ok s2 => forEach body l2 s2 := by
  induction l1 generalizing s with
  | nil => rfl
  | cons i rest ih =>
    simp only [List.cons_append, forEach]
    cases body i s with
    | error e => rfl
    | ok s2 => exact ih s2

/-- A loop over `0 .. n - 1` whose every iteration succeeds and takes the invariant at `k`
to the invariant at `k + 1` succeeds and ends in the invariant at `n`. -/
theorem forEach_range {S : Type} (Inv : Nat → S → Prop) (body : Nat → S → Except Error S)
    (n : Nat) (hstep : ∀ k s, k < n → Inv k s → ∃ s2, body k s = .ok s2 ∧ Inv (k + 1) s2)
    (s : S) (h0 : Inv 0 s) :
    ∃ s2, forEach body (List.range n) s = .ok s2 ∧ Inv n s2 := by
  induction n with
  | zero => exact ⟨s, rfl, h0⟩
  | succ n ih =>
    obtain ⟨s1, h1, hI1⟩ := ih (fun k s hk hI => hstep k s (by omega) hI)
    obtain ⟨s2, h2, hI2⟩ := hstep n s1 (by omega) hI1
    refine ⟨s2, ?_, hI2⟩
    rw [List.range_succ, forEach_append, h1]
    simp only [forEach, h2]

theorem localEnergy_ok [Field R] (A H : MatrixXd R) (h1 : A.rows = H.rows)
    (h2 : H.cols = A.rows) : ∃ e, localEnergy A H = .ok e := by
  refine ⟨((A.transpose.mul H).mul A).trace, ?_⟩
  simp [localEnergy, MatrixXd.mulChecked, MatrixXd.transpose, MatrixXd.mul, h1, h2]

theorem TimeEvolutionSolver.SiteTensor.valid {d : Nat} {S : Tensor R} (h : SiteTensor d S) : S.Valid :=
  ⟨by rw [h.1]; rfl, by rw [h.2.1, h.2.2.1, h.2.2.2]⟩

theorem sweepContract_siteTensor [CommRing R] {d : Nat} {P S : Tensor R} (hP : SiteTensor d P)
    (hS : SiteTensor d S) : SiteTensor d (sweepContract P S) := by
  refine ⟨?_, ?_, ?_, ?_⟩
  · simp [sweepContract, hP.1, hS.1]
  · simp [sweepContract, hP.2.1, hS.2.1]
  · simp [sweepContract, DataType.contract, DataType.dimension, otherAxis, hS.2.2.2]
  · simp [sweepContract, DataType.contract, DataType.dimension, otherAxis, hP.2.2.2]

theorem iterate_sweepContract_siteTensor [CommRing R] {d : Nat} {P X : Tensor R}
    (hP : SiteTensor d P) (hX : SiteTensor d X) (n : Nat) :
    SiteTensor d ((sweepContract P)^[n] X) := by
  induction n with
  | zero => exact hX
  | succ n ih =>
    rw [Function.iterate_succ_apply']
    exact sweepContract_siteTensor hP ih

/-- The contraction of a sweep, for operands with index names `site_0`, `site_0`. -/
theorem contract_site [CommRing R] {d : Nat} (net : TensorNetwork R) (name : String)
    (P S : Tensor R) (hP : SiteTensor d P) (hS : SiteTensor d S)
    (h1 : net.tensors_ name = some S) (h2 : net.tensors_ "exp_op_0" = some P) :
    net.contract name "exp_op_0" ["site_0"] = .ok (sweepContract P S) := by
  have hiS : S.indices.indexOf "site_0" = 0 := by rw [hS.1]; simp [List.indexOf_cons]
  have hiP : P.indices.indexOf "site_0" = 0 := by rw [hP.1]; simp [List.indexOf_cons]
  have h := contract_single_ok net name "exp_op_0" "site_0" S P h1 h2 hS.valid hP.valid
    (by rw [hS.1]; simp) (by rw [hP.1]; simp) (by rw [hiS, hiP, hS.2.1, hP.2.1])
  rw [h, hiS, hiP]
  rfl

/-- One sweep contraction of a single-site solver succeeds when the target name is free. -/
theorem sweepSite_single [Field R] {d : Nat} (Hop P S : Tensor R) (next name : String) (e : R)
    (net : TensorNetwork R) (hH : Hop.data.dim0 = d ∧ Hop.data.dim1 = d)
    (hP : SiteTensor d P) (hS : SiteTensor d S)
    (h1 : net.tensors_ name = some S) (h2 : net.tensors_ "exp_op_0" = some P)
    (hfresh : net.tensors_ next = none) :
    ∃ e2, sweepSite [Hop] 0 next (name, e, net) =
      .ok (next, e2, net.assign next (sweepContract P S)) := by
  have hE : "exp_op_" ++ toString 0 = "exp_op_0" := rfl
  have hs : "site_" ++ toString 0 = "site_0" := rfl
  have hR := sweepContract_siteTensor hP hS
  obtain ⟨e1, he1⟩ := localEnergy_ok (sweepContract P S).to_matrix Hop.to_matrix
    (by simp [Tensor.to_matrix, hR.2.2.1, hH.1]) (by simp [Tensor.to_matrix, hR.2.2.1, hH.2])
  refine ⟨e + e1, ?_⟩
  simp only [sweepSite, hE, hs, contract_site net name P S hP hS h1 h2,
    add_tensor_eq_ok _ hfresh, List.getD_cons_zero, he1]

end SingleSite

section SingleSiteRun

variable {R : Type} [Field R]

open TimeEvolutionSolver

/-- One step of the main Trotter loop of a single-site solver succeeds and re-establishes
the loop invariant. -/
theorem trotterStep_single {d : Nat} (Hop P X : Tensor R) (k : Nat)
    (st : String × TensorNetwork R) (hH : Hop.data.dim0 = d ∧ Hop.data.dim1 = d)
    (hP : SiteTensor d P) (hX : SiteTensor d X) (hI : SingleSiteInv P X k st) :
    ∃ st2, trotterStep [Hop] k st = .ok st2 ∧ SingleSiteInv P X (k + 1) st2 := by
  obtain ⟨name, net⟩ := st
  obtain ⟨hname, hexp, hcur, hmid, hstep, hfin⟩ := hI
  simp only at hname hexp hcur hmid hstep hfin
  subst hname
  have hS := iterate_sweepContract_siteTensor hP hX (2 * k)
  -- forward sweep
  obtain ⟨e1, h1⟩ := sweepSite_single Hop P _ ("psi_" ++ toString k ++ "_" ++ toString 1)
    ("psi_" ++ toString k) 0 net hH hP hS hcur hexp (hmid k le_rfl)
  have hfwd : forwardSweep [Hop] k ("psi_" ++ toString k, 0, net) =
      .ok ("psi_" ++ toString k ++ "_" ++ toString 1, e1,
        net.assign ("psi_" ++ toString k ++ "_" ++ toString 1)
          (sweepContract P ((sweepContract P)^[2 * k] X))) := by
    show forEach _ [0] _ = _
    simp only [forEach]
    rw [h1]
  -- backward sweep
  have hS1 := sweepContract_siteTensor hP hS
  obtain ⟨e2, h2⟩ := sweepSite_single Hop P _ ("psi_" ++ toString (k + 1))
    ("psi_" ++ toString k ++ "_" ++ toString 1) e1
    (net.assign ("psi_" ++ toString k ++ "_" ++ toString 1)
      (sweepContract P ((sweepContract P)^[2 * k] X))) hH hP hS1
    (by simp)
    (by rw [assign_tensors,
          if_neg (show "exp_op_0" ≠ _ from (psi_mid_ne_exp_op k 1 "0").symm)]
        exact hexp)
    (by rw [assign_tensors, if_neg (psi_mid_ne_psi_step k 1 (k + 1)).symm]
        exact hstep (k + 1) (by omega))
  have hbwd : backwardSweep [Hop] k ("psi_" ++ toString k ++ "_" ++ toString 1, e1,
        net.assign ("psi_" ++ toString k ++ "_" ++ toString 1)
          (sweepContract P ((sweepContract P)^[2 * k] X))) =
      .ok ("psi_" ++ toString (k + 1), e2,
        (net.assign ("psi_" ++ toString k ++ "_" ++ toString 1)
          (sweepContract P ((sweepContract P)^[2 * k] X))).assign ("psi_" ++ toString (k + 1))
          (sweepContract P (sweepContract P ((sweepContract P)^[2 * k] X)))) := by
    show forEach _ [0] _ = _
    simp only [forEach, if_true]
    rw [h2]
  refine ⟨("psi_" ++ toString (k + 1),
    (net.assign ("psi_" ++ toString k ++ "_" ++ toString 1)
      (sweepContract P ((sweepContract P)^[2 * k] X))).assign ("psi_" ++ toString (k + 1))
      (sweepContract P (sweepContract P ((sweepContract P)^[2 * k] X)))), ?_, ?_⟩
  · simp only [trotterStep, hfwd, hbwd]
    rw [get_tensor_eq_ok (assign_tensors _ _ _ _ |>.trans (if_pos rfl))]
  · refine ⟨rfl, ?_, ?_, ?_, ?_, ?_⟩
    · simp only [assign_tensors]
      rw [if_neg (show "exp_op_0" ≠ _ from (psi_ne_exp_op _ "0").symm),
        if_neg (show "exp_op_0" ≠ _ from (psi_mid_ne_exp_op k 1 "0").symm)]
      exact hexp
    · simp only [assign_tensors, if_true]
      rw [show 2 * (k + 1) = (2 * k + 1) + 1 by ring, Function.iterate_succ_apply',
        Function.iterate_succ_apply']
    · intro j hj
      simp only [assign_tensors]
      rw [if_neg (psi_mid_ne_psi_step j 1 (k + 1)),
        if_neg (fun h => absurd (psi_mid_injective h).1 (by omega))]
      exact hmid j (by omega)
    · intro j hj
      simp only [assign_tensors]
      rw [if_neg (fun h => absurd (psi_step_injective h) (by omega)),
        if_neg (psi_mid_ne_psi_step k 1 j).symm]
      exact hstep j (by omega)
    · simp only [assign_tensors]
      rw [if_neg (psi_step_ne_final (k + 1)).symm, if_neg (psi_mid_ne_final k 1).symm]
      exact hfin

/-- A single-site Time Evolution Solver whose Hamiltonian and initial state are `d x d`
and whose state carries the index names `site_0`, `site_0` runs to completion for every
step count; the norm it returns is that of the initial state after two sweep
contractions with the propagator for each step. -/
theorem timeEvolution_single_site {d : Nat} (fns : MatrixFunctions R) (time : R) (num_steps : Int)
    (Hop X : Tensor R) (hH : Hop.data.dim0 = d ∧ Hop.data.dim1 = d) (hX : SiteTensor d X) :
    TimeEvolutionSolver.run fns time num_steps [Hop] X =
      .ok (fns.sqrt ((sweepContract
        (sitePropagator fns (time / (num_steps : R)) Hop))^[2 * num_steps.toNat] X).to_matrix.squaredNorm) := by
  have hP : SiteTensor d (sitePropagator fns (time / (num_steps : R)) Hop) := by
    refine ⟨rfl, ?_, ?_, ?_⟩
    · simp [sitePropagator, Tensor.matrixCopy, fns.expImagReal_rows, fns.expImagReal_cols,
        Tensor.to_matrix, hH.1, hH.2]
    · simp [sitePropagator, Tensor.matrixCopy, fns.expImagReal_rows, Tensor.to_matrix, hH.1]
    · simp [sitePropagator, Tensor.matrixCopy, fns.expImagReal_cols, Tensor.to_matrix, hH.2]
  have hprop : forEach (addPropagator fns [Hop] (time / (num_steps : R))) (List.range 1)
      ((TensorNetwork.empty : TensorNetwork R).assign "psi_0" X) =
      .ok (((TensorNetwork.empty : TensorNetwork R).assign "psi_0" X).assign "exp_op_0"
        (sitePropagator fns (time / (num_steps : R)) Hop)) := by
    have hE : "exp_op_" ++ toString 0 = "exp_op_0" := rfl
    have hs : "site_" ++ toString 0 = "site_0" := rfl
    have hs2 : "site_" ++ toString ((0 + 1) % [Hop].length) = "site_0" := by
      simp only [List.length_cons, List.length_nil, zero_add, Nat.mod_self]
      rfl
    show forEach _ [0] _ = _
    simp only [forEach, addPropagator, List.getD_cons_zero, hE, hs, hs2, Tensor.from_matrix,
      Tensor.checkShape, List.length_cons, List.length_nil, ne_eq, not_true_eq_false, if_false]
    rw [if_neg (by simp [Tensor.to_matrix, hH.1, hH.2])]
    rw [add_tensor_eq_ok _ (by simp)]
    rfl
  obtain ⟨last, hloop, hlast⟩ := forEach_range
    (SingleSiteInv (sitePropagator fns (time / (num_steps : R)) Hop) X) (trotterStep [Hop]) num_steps.toNat
    (fun k s _ hI => trotterStep_single Hop _ X k s hH hP hX hI)
    ("psi_0", ((TensorNetwork.empty : TensorNetwork R).assign "psi_0" X).assign "exp_op_0"
      (sitePropagator fns (time / (num_steps : R)) Hop))
    (by
      have h0 : "psi_" ++ toString 0 = "psi_0" := rfl
      refine ⟨rfl, by simp, by simp [h0], ?_, ?_, by simp⟩
      · intro j _
        simp only [assign_tensors, empty_tensors]
        rw [if_neg (show _ ≠ "exp_op_0" from psi_mid_ne_exp_op j 1 "0"), ← h0,
          if_neg (psi_mid_ne_psi_step j 1 0)]
      · intro j hj
        simp only [assign_tensors, empty_tensors]
        rw [if_neg (show _ ≠ "exp_op_0" from psi_ne_exp_op _ "0"), ← h0,
          if_neg (fun h => absurd (psi_step_injective h) (by omega))])
  obtain ⟨lname, lnet⟩ := last
  obtain ⟨hname, _, hcur, _, _, hfin⟩ := hlast
  simp only at hname hcur hfin
  subst hname
  simp only [TimeEvolutionSolver.run, TimeEvolutionSolver.new,
    TimeEvolutionSolver.initialize_state, add_tensor_eq_ok X (empty_tensors "psi_0"),
    TimeEvolutionSolver.build_network, TimeEvolutionSolver.build_trotter_decomposition,
    List.length_cons, List.length_nil, zero_add, hprop, hloop,
    get_tensor_eq_ok hcur, add_tensor_eq_ok _ hfin,
    TimeEvolutionSolver.compute_quantity_of_interest]
  simp only [TensorNetwork.get_tensor, assign_tensors, if_true]

end SingleSiteRun

section Driver

variable {R : Type} [Field R]

open TimeEvolutionSolver

/-- One sweep contraction with a propagator `c * 1` of a state `v * |0><0|` gives the
state `(c * v) * |0><0|`. -/
theorem sweepContract_scalar (P S : Tensor R) (c v : R)
    (hPd : P.data.dim0 = 2 ∧ P.data.dim1 = 2)
    (hPc : ∀ i j, i < 2 → j < 2 → P.data.coeff i j = if i = j then c else 0)
    (hSd : S.data.dim0 = 2 ∧ S.data.dim1 = 2)
    (hSc : ∀ a b, S.data.coeff a b = if a = 0 ∧ b = 0 then v else 0) (a b : Nat) :
    (sweepContract P S).data.coeff a b = if a = 0 ∧ b = 0 then c * v else 0 := by
  have h1 : (sweepContract P S).data.coeff a b =
      if a < 2 ∧ b < 2 then
        S.data.coeff 0 a * P.data.coeff 0 b + S.data.coeff 1 a * P.data.coeff 1 b
      else 0 := by
    simp [sweepContract, DataType.contract, DataType.dimension, otherAxis, DataType.entry,
      hPd.2, hSd.1, hSd.2, Finset.sum_range_succ]
  rw [h1]
  by_cases hab : a < 2 ∧ b < 2
  · rw [if_pos hab, hPc 0 b (by norm_num) hab.2, hPc 1 b (by norm_num) hab.2, hSc, hSc]
    obtain ⟨ha, hb⟩ := hab
    interval_cases a <;> interval_cases b <;> simp [mul_comm]
  · rw [if_neg hab]
    have : ¬ (a = 0 ∧ b = 0) := fun h => hab ⟨by omega, by omega⟩
    rw [if_neg this]

theorem iterate_sweepContract_scalar (P X : Tensor R) (c : R) (hP : SiteTensor 2 P)
    (hX : SiteTensor 2 X)
    (hPc : ∀ i j, i < 2 → j < 2 → P.data.coeff i j = if i = j then c else 0)
    (hXc : ∀ a b, X.data.coeff a b = if a = 0 ∧ b = 0 then 1 else 0) (n : Nat) (a b : Nat) :
    ((sweepContract P)^[n] X).data.coeff a b = if a = 0 ∧ b = 0 then c ^ n else 0 := by
  induction n generalizing a b with
  | zero => simpa using hXc a b
  | succ n ih =>
    have hS := iterate_sweepContract_siteTensor hP hX n
    rw [Function.iterate_succ_apply',
      sweepContract_scalar P _ c (c ^ n) ⟨hP.2.2.1, hP.2.2.2⟩ hPc ⟨hS.2.2.1, hS.2.2.2⟩ ih a b,
      pow_succ, mul_comm]

/-- Copying a 2 x 2 matrix into a tensor and back returns the matrix. -/
theorem to_matrix_matrixCopy_matrix2 (p q r s : R) (idx : List String) :
    (Tensor.matrixCopy (matrix2 p q r s) idx).to_matrix = matrix2 p q r s := by
  simp only [Tensor.to_matrix, Tensor.matrixCopy, matrix2, MatrixXd.mk.injEq, true_and]
  funext i j
  rcases i with _ | _ | i <;> rcases j with _ | _ | j <;> simp

/-- The driver for every total time and step count, in terms of the propagator: when the
real part of `exp(-i (dt/2) diag(1, -1))` is `c * 1`, the run completes and returns
`sqrt(c ^ (2 N) * c ^ (2 N))`, where `N` is the step count (0 for a negative one). -/
theorem timeEvolutionDriver_closed_form (fns : MatrixFunctions R) (time c : R)
    (num_steps : Int)
    (hE : ∀ i j, i < 2 → j < 2 →
      (fns.expImagReal (time / (num_steps : R) / 2) (matrix2 1 0 0 (-1))).coeff i j =
        if i = j then c else 0) :
    timeEvolutionDriver fns time num_steps =
      .ok (fns.sqrt (c ^ (2 * num_steps.toNat) * c ^ (2 * num_steps.toNat))) := by
  have hrows := fns.expImagReal_rows (time / (num_steps : R) / 2) (matrix2 1 0 0 (-1))
  have hcols := fns.expImagReal_cols (time / (num_steps : R) / 2) (matrix2 1 0 0 (-1))
  have hr2 : (matrix2 (1 : R) 0 0 (-1)).rows = 2 := rfl
  have hc2 : (matrix2 (1 : R) 0 0 (-1)).cols = 2 := rfl
  rw [hr2] at hrows
  rw [hc2] at hcols
  have hX : SiteTensor 2 (Tensor.matrixCopy (matrix2 (1 : R) 0 0 0) ["site_0", "site_0"]) :=
    ⟨rfl, rfl, rfl, rfl⟩
  have hPeq : sitePropagator fns (time / (num_steps : R))
      (Tensor.matrixCopy (matrix2 (1 : R) 0 0 (-1)) ["site_0", "site_0"]) =
      Tensor.matrixCopy (fns.expImagReal (time / (num_steps : R) / 2) (matrix2 1 0 0 (-1)))
        ["site_0", "site_0"] := by
    simp only [sitePropagator, to_matrix_matrixCopy_matrix2]
  have hP : SiteTensor 2 (sitePropagator fns (time / (num_steps : R))
      (Tensor.matrixCopy (matrix2 (1 : R) 0 0 (-1)) ["site_0", "site_0"])) := by
    rw [hPeq]
    refine ⟨rfl, ?_, ?_, ?_⟩
    · simp only [Tensor.matrixCopy, hrows, hcols]
    · simp only [Tensor.matrixCopy, hrows]
    · simp only [Tensor.matrixCopy, hcols]
  have hcoeff := iterate_sweepContract_scalar _ _ c hP hX
    (by
      intro i j hi hj
      rw [hPeq]
      simp only [Tensor.matrixCopy, hrows, hcols, hi, hj, and_self, if_true]
      exact hE i j hi hj)
    (by
      intro a b
      rcases a with _ | _ | a <;> rcases b with _ | _ | b <;>
        simp [matrix2, Tensor.matrixCopy])
    (2 * num_steps.toNat)
  have hS := iterate_sweepContract_siteTensor hP hX (2 * num_steps.toNat)
  have hrun := timeEvolution_single_site (d := 2) fns time num_steps
    (Tensor.matrixCopy (matrix2 (1 : R) 0 0 (-1)) ["site_0", "site_0"])
    (Tensor.matrixCopy (matrix2 (1 : R) 0 0 0) ["site_0", "site_0"]) ⟨rfl, rfl⟩ hX
  have hdrv : timeEvolutionDriver fns time num_steps =
      TimeEvolutionSolver.run fns time num_steps
        [Tensor.matrixCopy (matrix2 (1 : R) 0 0 (-1)) ["site_0", "site_0"]]
        (Tensor.matrixCopy (matrix2 (1 : R) 0 0 0) ["site_0", "site_0"]) := rfl
  rw [hdrv, hrun]
  congr 2
  simp only [MatrixXd.squaredNorm, Tensor.to_matrix, hS.2.2.1, hS.2.2.2, hcoeff,
    Finset.sum_range_succ, Finset.sum_range_zero]
  simp

end Driver

section ExactArithmetic

/-- Exact matrix functions exist. -/
theorem exists_exact_matrixFunctions : ∃ fns : MatrixFunctions ℝ, fns.Exact :=
  ⟨{ sqrt := Real.sqrt
     exp := fun m =>
       { rows := m.rows, cols := m.cols
         coeff := fun i j =>
           if h : i < m.rows ∧ j < m.rows then
             NormedSpace.exp ℝ (Matrix.of fun a b : Fin m.rows => m.coeff a b) ⟨i, h.1⟩ ⟨j, h.2⟩
           else 0 }
     expImagReal := fun s m =>
       { rows := m.rows, cols := m.cols
         coeff := fun i j =>
           if h : i < m.rows ∧ j < m.rows then
             (NormedSpace.exp ℂ ((-(Complex.I * (s : ℂ))) •
               Matrix.of fun a b : Fin m.rows => (m.coeff a b : ℂ)) ⟨i, h.1⟩ ⟨j, h.2⟩).re
           else 0 }
     exp_rows := fun _ => rfl
     exp_cols := fun _ => rfl
     expImagReal_rows := fun _ _ => rfl
     expImagReal_cols := fun _ _ => rfl },
   fun _ => rfl,
   fun m i j hi hj => by simp only [hi, hj, and_self, dif_pos],
   fun s m i j hi hj => by simp only [hi, hj, and_self, dif_pos]⟩

/-- The real part of `exp(-i s diag(1, -1))` is `cos s` times the identity. -/
theorem re_exp_diag (s : ℝ) (i j : Fin 2) :
    (NormedSpace.exp ℂ ((-(Complex.I * (s : ℂ))) • Matrix.diagonal ![(1 : ℂ), -1]) i j).re =
      if i = j then Real.cos s else 0 := by
  rw [← Matrix.diagonal_smul, Matrix.exp_diagonal, Pi.exp_def]
  fin_cases i <;> fin_cases j <;>
    simp [← Complex.exp_eq_exp_ℂ, Complex.exp_re]

/-- The propagator of the driver in exact arithmetic. -/
theorem exact_propagator (fns : MatrixFunctions ℝ) (h : fns.Exact) (s : ℝ) (i j : Nat)
    (hi : i < 2) (hj : j < 2) :
    (fns.expImagReal s (matrix2 1 0 0 (-1))).coeff i j = if i = j then Real.cos s else 0 := by
  have hm : (Matrix.of fun a b : Fin (matrix2 (1 : ℝ) 0 0 (-1)).rows =>
      ((matrix2 (1 : ℝ) 0 0 (-1)).coeff a b : ℂ)) = Matrix.diagonal ![(1 : ℂ), -1] := by
    ext a b
    fin_cases a <;> fin_cases b <;> simp [matrix2]
  rw [h.2.2 s (matrix2 1 0 0 (-1)) i j hi hj, hm]
  have := re_exp_diag s ⟨i, hi⟩ ⟨j, hj⟩
  simpa [Fin.ext_iff] using this

/-- The driver in exact arithmetic: for every total time and every step count `N` the run
completes and returns `|cos(dt / 2)| ^ (2 N)` with `dt = time / N`. -/
theorem timeEvolutionDriver_exact (fns : MatrixFunctions ℝ) (h : fns.Exact) (time : ℝ)
    (num_steps : Int) :
    timeEvolutionDriver fns time num_steps =
      .ok (|Real.cos (time / (num_steps : ℝ) / 2)| ^ (2 * num_steps.toNat)) := by
  rw [timeEvolutionDriver_closed_form fns time (Real.cos (time / (num_steps : ℝ) / 2)) num_steps
    (fun i j hi hj => exact_propagator fns h _ i j hi hj), h.1, ← sq, Real.sqrt_sq_eq_abs,
    abs_pow]

/-- C7 (evaluation at the parameters of the driver, total time 1.0 and 10 steps, in exact
arithmetic): the run completes, but the returned norm is `cos(1/20) ^ 20`, which is
below `0.999`; it is not within `1e-10` of 1. -/
theorem timeEvolutionDriver_norm_not_one (fns : MatrixFunctions ℝ) (h : fns.Exact) :
    ∃ v : ℝ, timeEvolutionDriver fns 1 10 = .ok v ∧ v = Real.cos (1 / 20) ^ 20 ∧
      v < 999 / 1000 ∧ ¬ |v - 1| ≤ 1 / 10 ^ 10 := by
  have hb := Real.cos_bound (x := 1 / 20) (by rw [abs_of_pos] <;> norm_num)
  rw [abs_le] at hb
  have habs : |(1 / 20 : ℝ)| = 1 / 20 := abs_of_pos (by norm_num)
  rw [habs] at hb
  have hlo : (0 : ℝ) ≤ Real.cos (1 / 20) := by linarith [hb.1]
  have hhi : Real.cos (1 / 20) < 999 / 1000 := by
    have := hb.2
    norm_num at this ⊢
    linarith
  have hle1 : Real.cos (1 / 20) ≤ 1 := Real.cos_le_one _
  have hpow : Real.cos (1 / 20) ^ 20 ≤ Real.cos (1 / 20) := by
    calc Real.cos (1 / 20) ^ 20 ≤ Real.cos (1 / 20) ^ 1 :=
          pow_le_pow_of_le_one hlo hle1 (by norm_num)
      _ = Real.cos (1 / 20) := pow_one _
  have hrun := timeEvolutionDriver_exact fns h 1 10
  have harg : (1 : ℝ) / ((10 : Int) : ℝ) / 2 = 1 / 20 := by norm_num
  have h20 : 2 * (10 : Int).toNat = 20 := by decide
  rw [harg, abs_of_nonneg hlo, h20] at hrun
  refine ⟨_, hrun, rfl, by linarith, ?_⟩
  rw [abs_le]
  intro hcon
  have := hcon.1
  norm_num at this
  linarith

/-- Witness of C7: the driver's parameters with exact matrix functions. -/
theorem timeEvolutionDriver_norm_not_one_witness :
    ∃ fns : MatrixFunctions ℝ, fns.Exact ∧
      ∃ v : ℝ, timeEvolutionDriver fns 1 10 = .ok v ∧ v = Real.cos (1 / 20) ^ 20 ∧
        v < 999 / 1000 ∧ ¬ |v - 1| ≤ 1 / 10 ^ 10 := by
  obtain ⟨fns, h⟩ := exists_exact_matrixFunctions
  exact ⟨fns, h, timeEvolutionDriver_norm_not_one fns h⟩

end ExactArithmetic

section CallTheorems

variable {R : Type} [CommRing R]

/-- The body of `contract`, statement by statement, hands the object on unchanged on every
path (the normal return and each `throw`), and its outcome is that of `contract`. -/
theorem call_contract_eq (net : TensorNetwork R) (n1 n2 : String) (l : List String) :
    net.call_contract n1 n2 l = (net.contract n1 n2 l, net) := by
  unfold TensorNetwork.call_contract TensorNetwork.contract
  rw [call_get_tensor_eq]
  cases net.get_tensor n1 with
  | error e => rfl
  | ok t1 =>
    simp only []
    rw [call_get_tensor_eq]
    cases net.get_tensor n2 with
    | error e => rfl
    | ok t2 =>
      simp only []
      cases TensorNetwork.findPositions t1 t2 l with
      | error e => rfl
      | ok ps =>
        obtain ⟨ps1, ps2⟩ := ps
        simp only []
        cases TensorNetwork.checkDimensions t1 t2 l ps1 ps2 with
        | error e => rfl
        | ok u =>
          simp only []
          cases ps1 with
          | nil => rfl
          | cons p1 rest1 =>
            cases ps2 with
            | nil => rfl
            | cons p2 rest2 =>
              simp only []
              split
              · rfl
              · split
                · rfl
                · split <;> rfl

theorem after_get_tensor (net : TensorNetwork R) (name : String) :
    net.after (.get_tensor name) = net := by
  simp only [TensorNetwork.after, call_get_tensor_eq]

theorem after_contract (net : TensorNetwork R) (n1 n2 : String) (l : List String) :
    net.after (.contract n1 n2 l) = net := by
  simp only [TensorNetwork.after, call_contract_eq]

theorem after_add_tensor_absent (net : TensorNetwork R) (t : Tensor R) (name : String)
    (h : net.tensors_ name = none) : net.after (.add_tensor t name) = net.assign name t := by
  simp only [TensorNetwork.after, call_add_tensor_eq, add_tensor_eq_ok t h]

theorem after_add_tensor_present (net : TensorNetwork R) (t old : Tensor R) (name : String)
    (h : net.tensors_ name = some old) : net.after (.add_tensor t name) = net := by
  simp only [TensorNetwork.after, call_add_tensor_eq, add_tensor_eq_error t h]

/-- A binding survives every call. -/
theorem after_keeps (net : TensorNetwork R) (c : Call R) (name : String) (t : Tensor R)
    (h : net.tensors_ name = some t) : (net.after c).tensors_ name = some t := by
  cases c with
  | get_tensor n => rw [after_get_tensor]; exact h
  | contract n1 n2 l => rw [after_contract]; exact h
  | add_tensor t2 n =>
    cases hn : net.tensors_ n with
    | some old => rw [after_add_tensor_present net t2 old n hn]; exact h
    | none =>
      rw [after_add_tensor_absent net t2 n hn, assign_tensors]
      have hne : name ≠ n := by
        intro heq
        rw [heq, hn] at h
        exact absurd h (by simp)
      rw [if_neg hne]
      exact h

/-- A binding survives every sequence of calls. -/
theorem afterAll_keeps (calls : List (Call R)) : ∀ (net : TensorNetwork R) (name : String)
    (t : Tensor R), net.tensors_ name = some t → (net.afterAll calls).tensors_ name = some t := by
  induction calls with
  | nil => intro net name t h; exact h
  | cons c rest ih =>
    intro net name t h
    exact ih (net.after c) name t (after_keeps net c name t h)

theorem afterAll_cons (net : TensorNetwork R) (c : Call R) (rest : List (Call R)) :
    net.afterAll (c :: rest) = (net.after c).afterAll rest := rfl

theorem afterAll_append (net : TensorNetwork R) (l1 l2 : List (Call R)) :
    net.afterAll (l1 ++ l2) = (net.afterAll l1).afterAll l2 := by
  simp [TensorNetwork.afterAll, List.foldl_append]

theorem insertions_cons (net : TensorNetwork R) (c : Call R) (rest : List (Call R)) :
    net.insertions (c :: rest) =
      (match c with
        | .add_tensor t name =>
          match net.add_tensor t name with
          | .ok _ => [(name, t)]
          | .error _ => []
        | _ => []) ++ (net.after c).insertions rest := by
  cases c with
  | get_tensor n => simp [TensorNetwork.insertions, after_get_tensor]
  | contract n1 n2 l => simp [TensorNetwork.insertions, after_contract]
  | add_tensor t n =>
    cases hn : net.tensors_ n with
    | some old =>
      simp [TensorNetwork.insertions, add_tensor_eq_error t hn,
        after_add_tensor_present net t old n hn]
    | none =>
      simp [TensorNetwork.insertions, add_tensor_eq_ok t hn, after_add_tensor_absent net t n hn]

/-- Every recorded insertion went to a name that was free at the start, is still bound to
its tensor at the end, and no name is recorded twice; conversely every binding at the end
was there at the start or is a recorded insertion. -/
theorem insertions_spec (calls : List (Call R)) : ∀ (net : TensorNetwork R),
    (∀ name t, (name, t) ∈ net.insertions calls →
      net.tensors_ name = none ∧ (net.afterAll calls).tensors_ name = some t) ∧
    ((net.insertions calls).map Prod.fst).Nodup ∧
    (∀ name t, (net.afterAll calls).tensors_ name = some t →
      net.tensors_ name = some t ∨ (name, t) ∈ net.insertions calls) := by
  induction calls with
  | nil =>
    intro net
    refine ⟨?_, ?_, ?_⟩
    · intro name t h
      simp [TensorNetwork.insertions] at h
    · simp [TensorNetwork.insertions]
    · intro name t h
      exact Or.inl h
  | cons c rest ih =>
    intro net
    obtain ⟨ih1, ih2, ih3⟩ := ih (net.after c)
    cases c with
    | get_tensor n =>
      simp only [insertions_cons, afterAll_cons, after_get_tensor, List.nil_append] at ih1 ih2 ih3 ⊢
      exact ⟨ih1, ih2, ih3⟩
    | contract n1 n2 l =>
      simp only [insertions_cons, afterAll_cons, after_contract, List.nil_append] at ih1 ih2 ih3 ⊢
      exact ⟨ih1, ih2, ih3⟩
    | add_tensor t2 n =>
      cases hn : net.tensors_ n with
      | some old =>
        simp only [insertions_cons, afterAll_cons, after_add_tensor_present net t2 old n hn,
          add_tensor_eq_error t2 hn, List.nil_append] at ih1 ih2 ih3 ⊢
        exact ⟨ih1, ih2, ih3⟩
      | none =>
        simp only [insertions_cons, afterAll_cons, after_add_tensor_absent net t2 n hn,
          add_tensor_eq_ok t2 hn, List.singleton_append] at ih1 ih2 ih3 ⊢
        refine ⟨?_, ?_, ?_⟩
        · intro name t h
          rw [List.mem_cons] at h
          rcases h with h | h
          · obtain ⟨rfl, rfl⟩ := Prod.mk.inj h
            exact ⟨hn, afterAll_keeps rest _ _ _ (by simp)⟩
          · obtain ⟨h1, h2⟩ := ih1 name t h
            rw [assign_tensors] at h1
            by_cases hne : name = n
            · rw [if_pos hne] at h1
              exact absurd h1 (by simp)
            · rw [if_neg hne] at h1
              exact ⟨h1, h2⟩
        · rw [List.map_cons, List.nodup_cons]
          refine ⟨?_, ih2⟩
          intro hmem
          rw [List.mem_map] at hmem
          obtain ⟨⟨name, t⟩, hmem, heq⟩ := hmem
          simp only at heq
          subst heq
          have := (ih1 name t hmem).1
          simp at this
        · intro name t h
          rcases ih3 name t h with h' | h'
          · rw [assign_tensors] at h'
            by_cases hne : name = n
            · rw [if_pos hne, Option.some.injEq] at h'
              right
              rw [hne, ← h']
              exact List.mem_cons_self _ _
            · rw [if_neg hne] at h'
              exact Or.inl h'
          · exact Or.inr (List.mem_cons_of_mem _ h')

/-- C11: `add_tensor(t, name)` fails if and only if `name` is already present; the error is
`already exists`, and after the failed call every name (the given one included) is bound
exactly as before.  After a successful call `name` is bound to `t` and every other name
is bound as before. -/
theorem add_tensor_atomic (net : TensorNetwork R) (t : Tensor R) (name : String) :
    ((∃ e, net.add_tensor t name = .error e) ↔ ∃ old, net.tensors_ name = some old) ∧
    (∀ e, net.add_tensor t name = .error e →
      e = .alreadyExists name ∧ net.after (.add_tensor t name) = net ∧
      ∀ k, (net.after (.add_tensor t name)).tensors_ k = net.tensors_ k) ∧
    (∀ net2, net.add_tensor t name = .ok net2 →
      net.after (.add_tensor t name) = net2 ∧ net2.tensors_ name = some t ∧
      ∀ k, k ≠ name → net2.tensors_ k = net.tensors_ k) := by
  cases hn : net.tensors_ name with
  | some old =>
    have herr := add_tensor_eq_error t hn
    refine ⟨⟨fun _ => ⟨old, rfl⟩, fun _ => ⟨_, herr⟩⟩, ?_, ?_⟩
    · intro e he
      rw [herr, Except.error.injEq] at he
      rw [after_add_tensor_present net t old name hn]
      exact ⟨he.symm, rfl, fun _ => rfl⟩
    · intro net2 h
      rw [herr] at h
      exact absurd h (by simp)
  | none =>
    have hok := add_tensor_eq_ok t hn
    refine ⟨⟨?_, ?_⟩, ?_, ?_⟩
    · rintro ⟨e, he⟩
      rw [hok] at he
      exact absurd he (by simp)
    · rintro ⟨old, ho⟩
      exact absurd ho (by simp)
    · intro e he
      rw [hok] at he
      exact absurd he (by simp)
    · intro net2 h
      rw [hok, Except.ok.injEq] at h
      subst h
      refine ⟨after_add_tensor_absent net t name hn, by simp, ?_⟩
      intro k hk
      rw [assign_tensors, if_neg hk]

/-- C12: in the network reached from the empty network by any sequence of `add_tensor`,
`get_tensor` and `contract` calls, `get_tensor(name)` fails if and only if no `add_tensor`
under `name` has succeeded; otherwise it returns the tensor of the successful insertion,
of which there is exactly one per name; and whatever calls follow, the name stays bound to
that tensor. -/
theorem lookup_agrees_with_history (calls : List (Call R)) (name : String) :
    ((∃ e, ((TensorNetwork.empty : TensorNetwork R).afterAll calls).get_tensor name = .error e) ↔
      ∀ t, (name, t) ∉ (TensorNetwork.empty : TensorNetwork R).insertions calls) ∧
    (∀ t, (name, t) ∈ (TensorNetwork.empty : TensorNetwork R).insertions calls →
      ((TensorNetwork.empty : TensorNetwork R).afterAll calls).get_tensor name = .ok t) ∧
    (((TensorNetwork.empty : TensorNetwork R).insertions calls).map Prod.fst).Nodup ∧
    (∀ (t : Tensor R) (more : List (Call R)),
      ((TensorNetwork.empty : TensorNetwork R).afterAll calls).get_tensor name = .ok t →
      ((TensorNetwork.empty : TensorNetwork R).afterAll (calls ++ more)).get_tensor name
        = .ok t) := by
  obtain ⟨h1, h2, h3⟩ := insertions_spec calls (TensorNetwork.empty : TensorNetwork R)
  refine ⟨⟨?_, ?_⟩, ?_, h2, ?_⟩
  · rintro ⟨e, he⟩ t hmem
    rw [get_tensor_eq_ok (h1 name t hmem).2] at he
    exact absurd he (by simp)
  · intro hno
    cases hl : ((TensorNetwork.empty : TensorNetwork R).afterAll calls).tensors_ name with
    | none => exact ⟨_, get_tensor_eq_error hl⟩
    | some t =>
      rcases h3 name t hl with h | h
      · simp at h
      · exact absurd h (hno t)
  · intro t hmem
    exact get_tensor_eq_ok (h1 name t hmem).2
  · intro t more hget
    have hl : ((TensorNetwork.empty : TensorNetwork R).afterAll calls).tensors_ name = some t := by
      cases hl : ((TensorNetwork.empty : TensorNetwork R).afterAll calls).tensors_ name with
      | none => rw [get_tensor_eq_error hl] at hget; exact absurd hget (by simp)
      | some t2 =>
        rw [get_tensor_eq_ok hl, Except.ok.injEq] at hget
        rw [hget]
    rw [afterAll_append]
    exact get_tensor_eq_ok (afterAll_keeps more _ name t hl)

/-- C13: `contract` taken as an operation on the object (its body statement by statement,
each statement handing the object on): whether it returns a tensor or throws, the object
after the call is the object before it, so every name is bound to the same tensor (both
operands included) or is unbound as before and every lookup answers as before; the result
is returned to the caller and registered under no name.  The outcome is that of
`contract`. -/
theorem contract_leaves_network (net : TensorNetwork R) (name1 name2 : String)
    (indices_to_contract : List String) :
    (net.call_contract name1 name2 indices_to_contract).2 = net ∧
    (net.call_contract name1 name2 indices_to_contract).1 =
      net.contract name1 name2 indices_to_contract ∧
    net.after (.contract name1 name2 indices_to_contract) = net ∧
    (∀ k, (net.after (.contract name1 name2 indices_to_contract)).tensors_ k = net.tensors_ k) ∧
    (∀ k, (net.after (.contract name1 name2 indices_to_contract)).get_tensor k =
      net.get_tensor k) := by
  have hcall : net.call_contract name1 name2 indices_to_contract =
      (net.contract name1 name2 indices_to_contract, net) := by
    unfold TensorNetwork.call_contract TensorNetwork.contract
    rw [call_get_tensor_eq]
    cases net.get_tensor name1 with
    | error e => rfl
    | ok t1 =>
      simp only []
      rw [call_get_tensor_eq]
      cases net.get_tensor name2 with
      | error e => rfl
      | ok t2 =>
        simp only []
        cases TensorNetwork.findPositions t1 t2 indices_to_contract with
        | error e => rfl
        | ok ps =>
          obtain ⟨ps1, ps2⟩ := ps
          simp only []
          cases TensorNetwork.checkDimensions t1 t2 indices_to_contract ps1 ps2 with
          | error e => rfl
          | ok u =>
            simp only []
            cases ps1 with
            | nil => rfl
            | cons p1 rest1 =>
              cases ps2 with
              | nil => rfl
              | cons p2 rest2 =>
                simp only []
                split
                · rfl
                · split
                  · rfl
                  · split <;> rfl
  have hafter : net.after (.contract name1 name2 indices_to_contract) = net := by
    simp only [TensorNetwork.after, hcall]
  rw [hafter, hcall]
  exact ⟨rfl, rfl, rfl, fun _ => rfl, fun _ => rfl⟩

end CallTheorems

section ConstructorTheorems

variable {R : Type}

theorem checkShape_ok_iff (dims : List Int) (idx : List String) :
    Tensor.checkShape dims idx = .ok () ↔ dims.length = idx.length ∧ dims.length = 2 := by
  unfold Tensor.checkShape
  by_cases h1 : dims.length = idx.length
  · by_cases h2 : dims.length = 2
    · simp [h1, h2]
    · simp [h1, h2]
  · simp [h1]

end ConstructorTheorems

section InvariantTheorems

variable {R : Type}

theorem matrixCopy_valid [Zero R] (mat : MatrixXd R) (idx : List String) (h : idx.length = 2) :
    (Tensor.matrixCopy mat idx).Valid :=
  ⟨h, rfl⟩

theorem vectorCopy_valid [Zero R] (vec : VectorXd R) (idx : List String) (h : idx.length = 2) :
    (Tensor.vectorCopy vec idx).Valid :=
  ⟨h, rfl⟩

theorem from_matrix_ok_iff [Zero R] (mat : MatrixXd R) (idx : List String) (t : Tensor R) :
    Tensor.from_matrix mat idx = .ok t ↔ idx.length = 2 ∧ t = Tensor.matrixCopy mat idx := by
  unfold Tensor.from_matrix
  by_cases h : idx.length = 2
  · rw [(checkShape_ok_iff [(mat.rows : Int), (mat.cols : Int)] idx).mpr ⟨by simp [h], rfl⟩]
    simp [h, eq_comm]
  · have : Tensor.checkShape [(mat.rows : Int), (mat.cols : Int)] idx ≠ .ok () := by
      rw [Ne, checkShape_ok_iff]
      intro hc
      exact h hc.1.symm
    split
    · simp [h]
    · rename_i u hu
      exact absurd hu this

theorem from_vector_ok_iff [Zero R] (vec : VectorXd R) (idx : List String) (t : Tensor R) :
    Tensor.from_vector vec idx = .ok t ↔ idx.length = 2 ∧ t = Tensor.vectorCopy vec idx := by
  unfold Tensor.from_vector
  by_cases h : idx.length = 2
  · rw [(checkShape_ok_iff [(vec.size : Int), 1] idx).mpr ⟨by simp [h], rfl⟩]
    simp [h, eq_comm]
  · have : Tensor.checkShape [(vec.size : Int), 1] idx ≠ .ok () := by
      rw [Ne, checkShape_ok_iff]
      intro hc
      exact h hc.1.symm
    split
    · simp [h]
    · rename_i u hu
      exact absurd hu this

/-- The axes left over on one side when the contracted positions contain the axis `p`: none,
or the other axis alone. -/
theorem remaining_of_mem (t : Tensor R) (ps : List Nat) (p : Nat) (hl : t.indices.length = 2)
    (hp : p ∈ ps) (hp2 : p < 2) :
    TensorNetwork.remaining t ps = [] ∨
      TensorNetwork.remaining t ps =
        [(t.indices.getD (otherAxis p) "", t.dimensions.getD (otherAxis p) 0)] := by
  unfold TensorNetwork.remaining otherAxis
  rw [hl]
  have hr : List.range 2 = [0, 1] := rfl
  rw [hr]
  interval_cases p
  · by_cases h1 : 1 ∈ ps
    · left; simp [List.filter, hp, h1]
    · right; simp [List.filter, hp, h1]
  · by_cases h0 : 0 ∈ ps
    · left; simp [List.filter, hp, h0]
    · right; simp [List.filter, hp, h0]

/-- A successful contraction of two valid tensors, over any list of names, returns a valid
tensor. -/
theorem contract_valid [CommRing R] (net : TensorNetwork R) (n1 n2 : String) (l : List String)
    (t1 t2 r : Tensor R) (h1 : net.tensors_ n1 = some t1) (h2 : net.tensors_ n2 = some t2)
    (hv1 : t1.Valid) (hv2 : t2.Valid) (h : net.contract n1 n2 l = .ok r) : r.Valid := by
  simp only [TensorNetwork.contract, get_tensor_eq_ok h1, get_tensor_eq_ok h2] at h
  split at h
  · exact absurd h (by simp)
  rename_i ps1 ps2 _
  split at h
  · exact absurd h (by simp)
  split at h
  swap
  · exact absurd h (by simp)
  rename_i p1 rest1 p2 rest2 _ _
  split at h
  · exact absurd h (by simp)
  rename_i u hshape
  split at h
  · exact absurd h (by simp)
  split at h
  swap
  · exact absurd h (by simp)
  rename_i hcond
  obtain ⟨hp1, hp2, _⟩ := hcond
  rw [Except.ok.injEq] at h
  rw [checkShape_ok_iff] at hshape
  simp only [List.length_map, List.length_append, List.map_append] at hshape
  have hL := remaining_of_mem t1 (p1 :: rest1) p1 hv1.1 (List.mem_cons_self _ _) hp1
  have hR := remaining_of_mem t2 (p2 :: rest2) p2 hv2.1 (List.mem_cons_self _ _) hp2
  have ho1 : otherAxis p1 < 2 := by unfold otherAxis; split <;> omega
  have ho2 : otherAxis p2 < 2 := by unfold otherAxis; split <;> omega
  rcases hL with hL | hL <;> rcases hR with hR | hR
  · rw [hL, hR] at hshape; simp at hshape
  · rw [hL, hR] at hshape; simp at hshape
  · rw [hL, hR] at hshape; simp at hshape
  · rw [← h]
    refine ⟨by simp [hL, hR], ?_⟩
    simp only [hL, hR, List.map_append, List.map_cons, List.map_nil, List.singleton_append,
      DataType.contract]
    rw [Valid.dimensions_getD hv1 _ ho1, Valid.dimensions_getD hv2 _ ho2]

/-- C15: the Named Tensor invariant (two index names, two dimensions, data shape equal to
the dimensions) holds for every tensor returned by the constructor `Tensor(dims, idx)`,
whatever the sizes `dims` and whatever Eigen's allocator does with them (a negative size
that the constructor accepts is the signed extent of the data array), by `from_matrix`, by `from_vector`, and by a successful
`contract` whose two operands satisfy it. -/
theorem invariant_preserved [CommRing R] :
    (∀ (al : Allocator) (uninit : Nat → Nat → R) (dims : List Int) (idx : List String)
      (c : Constructed R), Tensor.create al uninit dims idx = .ok c →
      c.indices.length = 2 ∧ c.dimensions.length = 2 ∧
      c.dimensions = [c.extent0, c.extent1] ∧
      ∀ t, c = .tensor t → t.Valid ∧ t.dimensions.length = 2) ∧
    (∀ (mat : MatrixXd R) (idx : List String) (t : Tensor R),
      Tensor.from_matrix mat idx = .ok t → t.Valid ∧ t.dimensions.length = 2) ∧
    (∀ (vec : VectorXd R) (idx : List String) (t : Tensor R),
      Tensor.from_vector vec idx = .ok t → t.Valid ∧ t.dimensions.length = 2) ∧
    (∀ (net : TensorNetwork R) (name1 name2 : String) (indices_to_contract : List String)
      (t1 t2 r : Tensor R), net.tensors_ name1 = some t1 → net.tensors_ name2 = some t2 →
      t1.Valid → t2.Valid → net.contract name1 name2 indices_to_contract = .ok r →
      r.Valid ∧ r.dimensions.length = 2) := by
  have hlen : ∀ t : Tensor R, t.Valid → t.dimensions.length = 2 := by
    intro t hv
    rw [hv.2]
    rfl
  refine ⟨?_, ?_, ?_, ?_⟩
  · intro al uninit dims idx c hc
    simp only [Tensor.create] at hc
    split at hc
    · exact absurd hc (by simp)
    rename_i u hu
    rw [checkShape_ok_iff] at hu
    split at hc
    swap
    · exact absurd hc (by simp)
    obtain ⟨a, b, rfl⟩ := List.length_eq_two.mp hu.2
    simp only [List.getD_cons_zero, List.getD_cons_succ] at hc
    split at hc
    · rename_i hnn
      rw [Except.ok.injEq] at hc
      subst hc
      have hshape : ([a, b] : List Int) =
          [((DataType.alloc a.toNat b.toNat uninit).dim0 : Int),
            ((DataType.alloc a.toNat b.toNat uninit).dim1 : Int)] := by
        simp [DataType.alloc, Int.toNat_of_nonneg hnn.1, Int.toNat_of_nonneg hnn.2]
      refine ⟨hu.1.symm, rfl, hshape, ?_⟩
      intro t ht
      rw [Constructed.tensor.injEq] at ht
      subst ht
      exact ⟨⟨hu.1.symm, hshape⟩, rfl⟩
    · rw [Except.ok.injEq] at hc
      subst hc
      refine ⟨hu.1.symm, rfl, rfl, ?_⟩
      intro t ht
      exact absurd ht (by simp)
  · intro mat idx t ht
    rw [from_matrix_ok_iff] at ht
    have hv : t.Valid := ht.2 ▸ matrixCopy_valid mat idx ht.1
    exact ⟨hv, hlen t hv⟩
  · intro vec idx t ht
    rw [from_vector_ok_iff] at ht
    have hv : t.Valid := ht.2 ▸ vectorCopy_valid vec idx ht.1
    exact ⟨hv, hlen t hv⟩
  · intro net n1 n2 l t1 t2 r h1 h2 hv1 hv2 h
    have hv := contract_valid net n1 n2 l t1 t2 r h1 h2 hv1 hv2 h
    exact ⟨hv, hlen r hv⟩

/-- The contraction of the test tensors `A` and `B` over `j` returns a tensor that
satisfies the invariant. -/
theorem invariant_preserved_witness :
    ∃ r : Tensor ℚ, networkAB.contract "A" "B" ["j"] = .ok r ∧ r.Valid ∧
      r.dimensions.length = 2 :=
  ⟨_, rfl, invariant_preserved.2.2.2 networkAB "A" "B" ["j"] tensorA tensorB _ rfl rfl
    ⟨rfl, rfl⟩ ⟨rfl, rfl⟩ rfl⟩

end InvariantTheorems

section RoundTrip

variable {R : Type} [Zero R]

end RoundTrip

section BuildOrder

variable {R : Type}

theorem exp_op_injective {a b : Nat} (h : "exp_op_" ++ toString a = "exp_op_" ++ toString b) :
    a = b := by
  have hd := congrArg String.data h
  simp only [String.data_append] at hd
  have hd2 := List.append_cancel_left hd
  rw [← (toString_nat_spec a).1, ← (toString_nat_spec b).1, hd2]

/-- A loop over `0 .. n - 1` whose body either re-establishes an indexed invariant or
throws an exception with property `Q` ends in a state with the invariant or in such an
exception. -/
theorem forEach_range_cases {S : Type} (Inv : Nat → S → Prop) (Q : Error → Prop)
    (body : Nat → S → Except Error S) (n : Nat)
    (hstep : ∀ k s, k < n → Inv k s →
      (∃ s2, body k s = .ok s2 ∧ Inv (k + 1) s2) ∨ (∃ e, body k s = .error e ∧ Q e))
    (s : S) (h0 : Inv 0 s) :
    (∃ s2, forEach body (List.range n) s = .ok s2 ∧ Inv n s2) ∨
      (∃ e, forEach body (List.range n) s = .error e ∧ Q e) := by
  induction n with
  | zero => exact Or.inl ⟨s, rfl, h0⟩
  | succ n ih =>
    rcases ih (fun k s hk hI => hstep k s (by omega) hI) with ⟨s1, h1, hI1⟩ | ⟨e, he, hQ⟩
    · rcases hstep n s1 (by omega) hI1 with ⟨s2, h2, hI2⟩ | ⟨e, he, hQ⟩
      · refine Or.inl ⟨s2, ?_, hI2⟩
        rw [List.range_succ, forEach_append, h1]
        simp only [forEach, h2]
      · refine Or.inr ⟨e, ?_, hQ⟩
        rw [List.range_succ, forEach_append, h1]
        simp only [forEach, he]
    · refine Or.inr ⟨e, ?_, hQ⟩
      rw [List.range_succ, forEach_append, he]

/-- The precomputation step of site `i`: Eigen's assertion for a non-square operator,
otherwise the registration of the propagator. -/
theorem addPropagator_eq [Field R] (fns : MatrixFunctions R) (ops : List (Tensor R)) (dt : R)
    (i : Nat) (net : TensorNetwork R) :
    TimeEvolutionSolver.addPropagator fns ops dt i net =
      if (ops.getD i Tensor.empty).data.dim0 ≠ (ops.getD i Tensor.empty).data.dim1 then
        .error .eigenAssert
      else net.add_tensor
        (Tensor.matrixCopy (fns.expImagReal (dt / 2) (ops.getD i Tensor.empty).to_matrix)
          ["site_" ++ toString i, "site_" ++ toString ((i + 1) % ops.length)])
        ("exp_op_" ++ toString i) := by
  unfold TimeEvolutionSolver.addPropagator
  simp only [Tensor.to_matrix]
  split
  · rfl
  · rw [(from_matrix_ok_iff _ ["site_" ++ toString i, "site_" ++ toString ((i + 1) % ops.length)]
      _).mpr ⟨rfl, rfl⟩]

/-- The precomputation loop on a network without propagator names: it either stops at
Eigen's assertion on a non-square operator, or completes, and then every name that is
not a propagator name is bound as before. -/
theorem precompute_outcome [Field R] (fns : MatrixFunctions R) (ops : List (Tensor R)) (dt : R)
    (n : Nat) (net : TensorNetwork R)
    (hfree : ∀ j : Nat, net.tensors_ ("exp_op_" ++ toString j) = none) :
    (∃ net0, forEach (TimeEvolutionSolver.addPropagator fns ops dt) (List.range n) net
        = .ok net0 ∧
      ∀ name, (∀ j : Nat, name ≠ "exp_op_" ++ toString j) →
        net0.tensors_ name = net.tensors_ name) ∨
    (∃ e, forEach (TimeEvolutionSolver.addPropagator fns ops dt) (List.range n) net
        = .error e ∧
      (e = .eigenAssert ∧ ∃ i, i < n ∧
        (ops.getD i Tensor.empty).data.dim0 ≠ (ops.getD i Tensor.empty).data.dim1)) := by
  have h := forEach_range_cases
    (fun k (s : TensorNetwork R) =>
      (∀ name, (∀ j : Nat, name ≠ "exp_op_" ++ toString j) →
        s.tensors_ name = net.tensors_ name) ∧
      ∀ j : Nat, k ≤ j → s.tensors_ ("exp_op_" ++ toString j) = none)
    (fun e => e = .eigenAssert ∧ ∃ i, i < n ∧
        (ops.getD i Tensor.empty).data.dim0 ≠ (ops.getD i Tensor.empty).data.dim1)
    (TimeEvolutionSolver.addPropagator fns ops dt) n
    (by
      intro k s hk hI
      rw [addPropagator_eq]
      by_cases hsq : (ops.getD k Tensor.empty).data.dim0 ≠ (ops.getD k Tensor.empty).data.dim1
      · rw [if_pos hsq]
        exact Or.inr ⟨_, rfl, rfl, k, hk, hsq⟩
      · rw [if_neg hsq, add_tensor_eq_ok _ (hI.2 k le_rfl)]
        refine Or.inl ⟨_, rfl, ?_, ?_⟩
        · intro name hname
          rw [assign_tensors, if_neg (hname k)]
          exact hI.1 name hname
        · intro j hj
          rw [assign_tensors, if_neg (fun h => absurd (exp_op_injective h) (by omega))]
          exact hI.2 j (by omega))
    net ⟨fun _ _ => rfl, fun j _ => hfree j⟩
  rcases h with ⟨net0, h1, h2⟩ | ⟨e, h1, h2⟩
  · exact Or.inl ⟨net0, h1, h2.1⟩
  · exact Or.inr ⟨e, h1, h2⟩

end BuildOrder

section BuildOrder

variable {R : Type} [Field R]

/-- A Trotter step whose input state is not registered throws `not found` for it: in the
first contraction of the forward sweep, or, without sites, in the lookup that ends the
step. -/
theorem trotterStep_absent (ops : List (Tensor R)) (step : Nat) (name : String)
    (net : TensorNetwork R) (h : net.tensors_ name = none) :
    TimeEvolutionSolver.trotterStep ops step (name, net) = .error (.notFound name) := by
  cases ops with
  | nil =>
    simp only [TimeEvolutionSolver.trotterStep, TimeEvolutionSolver.forwardSweep,
      TimeEvolutionSolver.backwardSweep, List.length_nil, List.range_zero, List.reverse_nil,
      forEach, get_tensor_eq_error h]
  | cons H rest =>
    simp only [TimeEvolutionSolver.trotterStep, TimeEvolutionSolver.forwardSweep,
      List.length_cons, List.range_succ_eq_map, forEach, TimeEvolutionSolver.sweepSite,
      contract_first_absent net name _ _ h]

/-- The build of a Time Evolution Solver whose network lacks `psi_0` and holds no
propagator name fails: with `not found` for `psi_0`, or earlier with Eigen's assertion on a
non-square operator. -/
theorem timeEvolution_build_without_state (fns : MatrixFunctions R)
    (s : TimeEvolutionSolver R) (params : List R)
    (hfree : ∀ j : Nat, s.network_.tensors_ ("exp_op_" ++ toString j) = none)
    (hpsi : s.network_.tensors_ "psi_0" = none) :
    ∃ e, s.build_network fns params = .error e ∧ (e = .notFound "psi_0" ∨ e = .eigenAssert) := by
  unfold TimeEvolutionSolver.build_network TimeEvolutionSolver.build_trotter_decomposition
  simp only []
  rcases precompute_outcome fns s.local_operators_ (s.time_step_ / (s.num_steps_ : R))
    s.local_operators_.length s.network_ hfree with ⟨net0, h1, h2⟩ | ⟨e, h1, h2⟩
  · rw [h1]
    have h0 : net0.tensors_ "psi_0" = none := by
      rw [h2 "psi_0" (fun j => show "psi_0" ≠ _ from psi_ne_exp_op "0" (toString j))]
      exact hpsi
    cases s.num_steps_.toNat with
    | zero =>
      simp only [List.range_zero, forEach, get_tensor_eq_error h0]
      exact ⟨_, rfl, Or.inl rfl⟩
    | succ m =>
      simp only [List.range_succ_eq_map, forEach, trotterStep_absent _ 0 "psi_0" net0 h0]
      exact ⟨_, rfl, Or.inl rfl⟩
  · rw [h1]
    exact ⟨e, rfl, Or.inr h2.1⟩

/-- The build of a fresh Expectation Value Solver registers the observable and then
fails to find `psi`. -/
theorem expectation_build_fresh (observable : Tensor R) (params : List R) :
    (ExpectationValueSolver.new observable).build_network params = .error (.notFound "psi") := by
  simp only [ExpectationValueSolver.build_network, ExpectationValueSolver.build_observable_network,
    ExpectationValueSolver.new, add_tensor_eq_ok observable (empty_tensors "observable")]
  rw [contract_first_absent _ "psi" "observable" ["site"] (by simp)]

/-- The first step of the thermal build on an empty network fails. -/
theorem imaginaryTimeStep_fresh (fns : MatrixFunctions R) (ops : List (Tensor R)) (dbeta : R) :
    ∃ e, ThermalSolver.imaginaryTimeStep fns ops dbeta 0 TensorNetwork.empty = .error e ∧
      (e = .notFound "rho_0" ∨ e = .notFound "rho_1" ∨ e = .eigenAssert) := by
  cases ops with
  | nil =>
    refine ⟨.notFound "rho_1", ?_, Or.inr (Or.inl rfl)⟩
    simp only [ThermalSolver.imaginaryTimeStep, List.length_nil, List.range_zero, forEach]
    rw [get_tensor_eq_error (empty_tensors _)]
    rfl
  | cons H rest =>
    by_cases hsq : (H.to_matrix).rows ≠ (H.to_matrix).cols
    · refine ⟨.eigenAssert, ?_, Or.inr (Or.inr rfl)⟩
      simp only [ThermalSolver.imaginaryTimeStep, List.length_cons, List.range_succ_eq_map,
        forEach, ThermalSolver.siteStep, List.getD_cons_zero, if_pos hsq]
    · refine ⟨.notFound "rho_0", ?_, Or.inl rfl⟩
      simp only [ThermalSolver.imaginaryTimeStep, List.length_cons, List.range_succ_eq_map,
        forEach, ThermalSolver.siteStep, List.getD_cons_zero, if_neg hsq]
      rw [(from_matrix_ok_iff _ ["site_" ++ toString 0, "site_" ++ toString (0 + 1)] _).mpr
        ⟨rfl, rfl⟩]
      simp only [add_tensor_eq_ok _ (empty_tensors ("exp_op_" ++ toString 0)), if_true]
      rw [contract_first_absent _ "rho_0" _ _ (by
        rw [assign_tensors, if_neg (by decide), empty_tensors])]

end BuildOrder

section BuildOrder

variable {R : Type} [Field R]

/-- C17 (amended): `build_network` on a freshly constructed solver, before any
`initialize_state`.  No solver has a lifecycle check; the call fails only where the
algorithm looks up a state tensor that nobody registered.  The Time Evolution Solver fails
for every choice of constructor parameters (`not found` for `psi_0`, or earlier Eigen's
assertion on a non-square operator); the Expectation Value Solver fails with `not found`
for `psi`; the Thermal Solver fails when `num_steps >= 1`, but for `num_steps <= 0` its
loop is skipped and the call completes without error, leaving the solver unchanged. -/
theorem build_before_initialize :
    (∀ (fns : MatrixFunctions R) (time : R) (num_steps : Int) (ops : List (Tensor R))
        (params : List R),
      ∃ e, (TimeEvolutionSolver.new time num_steps ops).build_network fns params = .error e ∧
        (e = .notFound "psi_0" ∨ e = .eigenAssert)) ∧
    (∀ (observable : Tensor R) (params : List R),
      (ExpectationValueSolver.new observable).build_network params
        = .error (.notFound "psi")) ∧
    (∀ (fns : MatrixFunctions R) (beta : R) (num_steps : Int) (ops : List (Tensor R))
        (params : List R), 1 ≤ num_steps →
      ∃ e, (ThermalSolver.new beta num_steps ops).build_network fns params = .error e ∧
        (e = .notFound "rho_0" ∨ e = .notFound "rho_1" ∨ e = .eigenAssert)) ∧
    (∀ (fns : MatrixFunctions R) (beta : R) (num_steps : Int) (ops : List (Tensor R))
        (params : List R), num_steps ≤ 0 →
      (ThermalSolver.new beta num_steps ops).build_network fns params
        = .ok (ThermalSolver.new beta num_steps ops)) := by
  refine ⟨?_, ?_, ?_, ?_⟩
  · intro fns time num_steps ops params
    exact timeEvolution_build_without_state fns _ params (fun j => empty_tensors _)
      (empty_tensors _)
  · intro observable params
    exact expectation_build_fresh observable params
  · intro fns beta num_steps ops params hN
    obtain ⟨m, hm⟩ : ∃ m, num_steps.toNat = m + 1 := ⟨num_steps.toNat - 1, by omega⟩
    obtain ⟨e, he, hQ⟩ := imaginaryTimeStep_fresh fns ops (beta / (num_steps : R))
    refine ⟨e, ?_, hQ⟩
    simp only [ThermalSolver.build_network, ThermalSolver.build_imaginary_time_evolution,
      ThermalSolver.new, hm, List.range_succ_eq_map, forEach, he]
  · intro fns beta num_steps ops params hN
    have hm : num_steps.toNat = 0 := by omega
    simp only [ThermalSolver.build_network, ThermalSolver.build_imaginary_time_evolution,
      ThermalSolver.new, hm, List.range_zero, forEach]

/-- The Thermal Solver of the repository's Hamiltonian with one step, built before any
`initialize_state`: the call fails. -/
theorem build_before_initialize_witness :
    (1 : Int) ≤ 1 ∧
    ∃ e, (ThermalSolver.new (1 : ℚ) 1 [hamiltonianZ]).build_network firstOrderFunctions []
        = .error e ∧
      (e = .notFound "rho_0" ∨ e = .notFound "rho_1" ∨ e = .eigenAssert) :=
  ⟨by decide, build_before_initialize.2.2.1 firstOrderFunctions 1 1 [hamiltonianZ] []
    (by decide)⟩

/-- Counterexample to C17 as stated: a fresh Thermal Solver with `num_steps = 0` completes
`build_network` without error although no state was ever set. -/
theorem thermal_build_before_initialize_completes :
    (ThermalSolver.new (1 : ℚ) 0 [hamiltonianZ]).build_network firstOrderFunctions []
      = .ok (ThermalSolver.new 1 0 [hamiltonianZ]) ∧
    ¬ ∃ e, (ThermalSolver.new (1 : ℚ) 0 [hamiltonianZ]).build_network firstOrderFunctions []
      = .error e := by
  have h : (ThermalSolver.new (1 : ℚ) 0 [hamiltonianZ]).build_network firstOrderFunctions []
      = .ok (ThermalSolver.new 1 0 [hamiltonianZ]) := rfl
  refine ⟨h, ?_⟩
  rintro ⟨e, he⟩
  rw [h] at he
  exact absurd he (by simp)

end BuildOrder

section ZeroSteps

variable {R : Type} [Field R]

/-- A Time Evolution Solver whose step count is not positive and whose operators are all
square: after `initialize_state(X)`, `build_network` skips the main loop and registers the
initial state itself as `psi_final`. -/
theorem timeEvolution_zero_steps (fns : MatrixFunctions R) (time : R) (num_steps : Int)
    (ops : List (Tensor R)) (X : Tensor R) (params : List R) (hN : num_steps ≤ 0)
    (hsq : ∀ H ∈ ops, H.data.dim0 = H.data.dim1) :
    ∃ s1 s2 : TimeEvolutionSolver R,
      (TimeEvolutionSolver.new time num_steps ops).initialize_state X = .ok s1 ∧
      s1.build_network fns params = .ok s2 ∧
      s2.network_.tensors_ "psi_final" = some X ∧
      s2.network_.tensors_ "psi_0" = some X := by
  have hm : num_steps.toNat = 0 := by omega
  have hfree : ∀ j : Nat, ((TensorNetwork.empty : TensorNetwork R).assign "psi_0" X).tensors_
      ("exp_op_" ++ toString j) = none := by
    intro j
    rw [assign_tensors, if_neg (show _ ≠ "psi_0" from (psi_ne_exp_op "0" (toString j)).symm),
      empty_tensors]
  rcases precompute_outcome fns ops (time / (num_steps : R)) ops.length
    ((TensorNetwork.empty : TensorNetwork R).assign "psi_0" X) hfree with
    ⟨net0, h1, h2⟩ | ⟨e, _, _, i, hi, hne⟩
  · have h0 : net0.tensors_ "psi_0" = some X := by
      rw [h2 "psi_0" (fun j => show "psi_0" ≠ _ from psi_ne_exp_op "0" (toString j))]
      simp
    have hf : net0.tensors_ "psi_final" = none := by
      rw [h2 "psi_final" (fun j => (exp_op_ne_psi_final (toString j)).symm)]
      simp
    refine ⟨{ time_step_ := time, num_steps_ := num_steps, local_operators_ := ops
              network_ := (TensorNetwork.empty : TensorNetwork R).assign "psi_0" X },
      { time_step_ := time, num_steps_ := num_steps, local_operators_ := ops
        network_ := net0.assign "psi_final" X }, ?_, ?_, ?_, ?_⟩
    · simp only [TimeEvolutionSolver.initialize_state, TimeEvolutionSolver.new,
        add_tensor_eq_ok X (empty_tensors "psi_0")]
    · simp only [TimeEvolutionSolver.build_network,
        TimeEvolutionSolver.build_trotter_decomposition, h1, hm, List.range_zero, forEach,
        get_tensor_eq_ok h0, add_tensor_eq_ok X hf]
    · simp
    · simp only [assign_tensors]
      rw [if_neg (by decide)]
      exact h0
  · exfalso
    apply hne
    rw [List.getD_eq_getElem _ _ hi]
    exact hsq _ (List.getElem_mem _)

/-- C18 (amended): a Time Evolution Solver constructed with `num_steps = 0` (or any
non-positive count) and square operators: after `initialize_state(X)` and `build_network`,
the final tensor exists, it is the initial state `X` itself, and
`compute_quantity_of_interest` returns the Frobenius norm of `X`; no not-found error is
raised. -/
theorem zero_step_run (fns : MatrixFunctions R) (time : R) (num_steps : Int)
    (ops : List (Tensor R)) (X : Tensor R) (params : List R) (hN : num_steps ≤ 0)
    (hsq : ∀ H ∈ ops, H.data.dim0 = H.data.dim1) :
    ∃ s1 s2 : TimeEvolutionSolver R,
      (TimeEvolutionSolver.new time num_steps ops).initialize_state X = .ok s1 ∧
      s1.build_network fns params = .ok s2 ∧
      s2.network_.tensors_ "psi_final" = some X ∧
      s2.compute_quantity_of_interest fns = .ok (fns.sqrt X.to_matrix.squaredNorm) := by
  obtain ⟨s1, s2, h1, h2, h3, _⟩ := timeEvolution_zero_steps fns time num_steps ops X params hN hsq
  refine ⟨s1, s2, h1, h2, h3, ?_⟩
  simp only [TimeEvolutionSolver.compute_quantity_of_interest, get_tensor_eq_ok h3]

/-- The driver's Hamiltonian with zero steps on the identity state. -/
theorem zero_step_run_witness :
    (0 : Int) ≤ 0 ∧ (∀ H ∈ [hamiltonianZ], H.data.dim0 = H.data.dim1) ∧
    ∃ s1 s2 : TimeEvolutionSolver ℚ,
      (TimeEvolutionSolver.new 1 0 [hamiltonianZ]).initialize_state identityState = .ok s1 ∧
      s1.build_network firstOrderFunctions [] = .ok s2 ∧
      s2.network_.tensors_ "psi_final" = some identityState ∧
      s2.compute_quantity_of_interest firstOrderFunctions
        = .ok (firstOrderFunctions.sqrt identityState.to_matrix.squaredNorm) :=
  ⟨by decide, by simp [hamiltonianZ, testTensor],
    zero_step_run firstOrderFunctions 1 0 [hamiltonianZ] identityState [] (by decide)
      (by simp [hamiltonianZ, testTensor])⟩

/-- Counterexample to C18 as stated: the zero-step run of the driver's Hamiltonian on the
identity state returns a number, the norm of the initial state, instead of failing with
`not found`. -/
theorem zero_step_run_returns :
    TimeEvolutionSolver.run firstOrderFunctions 1 0 [hamiltonianZ] identityState
      = .ok (firstOrderFunctions.sqrt identityState.to_matrix.squaredNorm) ∧
    TimeEvolutionSolver.run firstOrderFunctions 1 0 [hamiltonianZ] identityState
      ≠ .error (.notFound "psi_final") := by
  have h : TimeEvolutionSolver.run firstOrderFunctions 1 0 [hamiltonianZ] identityState
      = .ok (firstOrderFunctions.sqrt identityState.to_matrix.squaredNorm) := by
    with_unfolding_all rfl
  refine ⟨h, ?_⟩
  rw [h]
  simp

end ZeroSteps

section FinalState

variable {R : Type}

theorem forEach_append_ok {S : Type} (body : Nat → S → Except Error S) (l1 l2 : List Nat)
    (s s2 : S) (h : forEach body (l1 ++ l2) s = .ok s2) :
    ∃ mid, forEach body l1 s = .ok mid ∧ forEach body l2 mid = .ok s2 := by
  rw [forEach_append] at h
  split at h
  · exact absurd h (by simp)
  · rename_i mid hmid
    exact ⟨mid, hmid, h⟩

theorem forEach_singleton {S : Type} (body : Nat → S → Except Error S) (i : Nat) (s : S) :
    forEach body [i] s = body i s := by
  simp only [forEach]
  cases body i s <;> rfl

/-- A successful sweep iteration: the contraction returned a tensor, the target name was
free, and the loop state continues with the target name and the extended network. -/
theorem sweepSite_ok [Field R] (ops : List (Tensor R)) (i : Nat) (next : String)
    (st st2 : String × R × TensorNetwork R)
    (h : TimeEvolutionSolver.sweepSite ops i next st = .ok st2) :
    ∃ (r : Tensor R) (e : R),
      st.2.2.contract st.1 ("exp_op_" ++ toString i) ["site_" ++ toString i] = .ok r ∧
      st.2.2.tensors_ next = none ∧
      st2 = (next, e, st.2.2.assign next r) := by
  unfold TimeEvolutionSolver.sweepSite at h
  split at h
  · exact absurd h (by simp)
  rename_i r hr
  split at h
  · exact absurd h (by simp)
  rename_i net hnet
  split at h
  · exact absurd h (by simp)
  rename_i e he
  simp only [Except.ok.injEq] at h
  obtain ⟨hfree, hnet2⟩ := add_tensor_ok_iff.mp hnet
  exact ⟨r, st.2.1 + e, hr, hfree, by rw [← h, hnet2]⟩

/-- A successful Trotter step: both sweeps succeeded and the step hands on the name and
the network that the backward sweep ended with. -/
theorem trotterStep_ok [Field R] (ops : List (Tensor R)) (step : Nat)
    (st st2 : String × TensorNetwork R)
    (h : TimeEvolutionSolver.trotterStep ops step st = .ok st2) :
    ∃ fwd bwd, TimeEvolutionSolver.forwardSweep ops step (st.1, 0, st.2) = .ok fwd ∧
      TimeEvolutionSolver.backwardSweep ops step fwd = .ok bwd ∧ st2 = (bwd.1, bwd.2.2) := by
  unfold TimeEvolutionSolver.trotterStep at h
  split at h
  · exact absurd h (by simp)
  rename_i fwd hfwd
  split at h
  · exact absurd h (by simp)
  rename_i bwd hbwd
  split at h
  · exact absurd h (by simp)
  simp only [Except.ok.injEq] at h
  exact ⟨fwd, bwd, hfwd, hbwd, h.symm⟩

/-- The last iteration of a successful backward sweep over at least one site is the
contraction with `exp_op_0` over `site_0`, registered as `psi_<step+1>`. -/
theorem backwardSweep_last [Field R] (ops : List (Tensor R)) (step : Nat)
    (fwd bwd : String × R × TensorNetwork R) (hops : ops ≠ [])
    (h : TimeEvolutionSolver.backwardSweep ops step fwd = .ok bwd) :
    ∃ st : String × R × TensorNetwork R,
      TimeEvolutionSolver.sweepSite ops 0 ("psi_" ++ toString (step + 1)) st = .ok bwd := by
  obtain ⟨n, hn⟩ : ∃ n, ops.length = n + 1 :=
    ⟨ops.length - 1, by have := List.length_pos.mpr hops; omega⟩
  unfold TimeEvolutionSolver.backwardSweep at h
  rw [hn, List.range_succ_eq_map, List.reverse_cons] at h
  obtain ⟨st, _, h2⟩ := forEach_append_ok _ _ _ _ _ h
  rw [forEach_singleton, if_pos rfl] at h2
  exact ⟨st, h2⟩

end FinalState

section FinalState

variable {R : Type} [Field R]

/-- C19: whenever `TimeEvolutionSolver::build_network` completes on a solver with at
least one local operator and `num_steps = N >= 1`, the tensor registered under `psi_final`
is the tensor registered under `psi_<N>`, and that tensor is what the last iteration of
the backward sweep of step `N - 1` (site 0) obtained from its contraction with `exp_op_0`
over `site_0` and registered as `psi_<N>`; nothing but `psi_final` is added afterwards. -/
theorem final_state_is_last_state (fns : MatrixFunctions R) (s s2 : TimeEvolutionSolver R)
    (params : List R) (hops : s.local_operators_ ≠ []) (hN : 1 ≤ s.num_steps_)
    (h : s.build_network fns params = .ok s2) :
    ∃ (r : Tensor R) (net : TensorNetwork R) (cur : String) (e e2 : R),
      net.contract cur "exp_op_0" ["site_0"] = .ok r ∧
      TimeEvolutionSolver.sweepSite s.local_operators_ 0
          ("psi_" ++ toString s.num_steps_.toNat) (cur, e, net)
        = .ok ("psi_" ++ toString s.num_steps_.toNat, e2,
            net.assign ("psi_" ++ toString s.num_steps_.toNat) r) ∧
      s2.network_ =
        (net.assign ("psi_" ++ toString s.num_steps_.toNat) r).assign "psi_final" r ∧
      s2.network_.tensors_ "psi_final" = some r ∧
      s2.network_.tensors_ ("psi_" ++ toString s.num_steps_.toNat) = some r := by
  obtain ⟨m, hm⟩ : ∃ m, s.num_steps_.toNat = m + 1 := ⟨s.num_steps_.toNat - 1, by omega⟩
  unfold TimeEvolutionSolver.build_network TimeEvolutionSolver.build_trotter_decomposition at h
  simp only [] at h
  split at h
  · exact absurd h (by simp)
  rename_i net0 hpre
  split at h
  · exact absurd h (by simp)
  rename_i last hloop
  split at h
  · exact absurd h (by simp)
  rename_i t hget
  split at h
  · exact absurd h (by simp)
  rename_i netF hadd
  simp only [Except.ok.injEq] at h
  rw [hm, List.range_succ] at hloop
  obtain ⟨mid, _, hstep⟩ := forEach_append_ok _ _ _ _ _ hloop
  rw [forEach_singleton] at hstep
  obtain ⟨fwd, bwd, _, hbwd, hlast⟩ := trotterStep_ok _ _ _ _ hstep
  obtain ⟨st, hsite⟩ := backwardSweep_last _ _ _ _ hops hbwd
  obtain ⟨r, e2, hr, hfree, hb⟩ := sweepSite_ok _ _ _ _ _ hsite
  obtain ⟨cur, e, net⟩ := st
  simp only at hr hfree hb
  subst hb
  simp only at hlast
  subst hlast
  simp only at hget hadd
  have hcur : (net.assign ("psi_" ++ toString (m + 1)) r).tensors_
      ("psi_" ++ toString (m + 1)) = some r := by simp
  rw [get_tensor_eq_ok hcur, Except.ok.injEq] at hget
  subst hget
  obtain ⟨_, hF⟩ := add_tensor_ok_iff.mp hadd
  subst hF
  rw [hm]
  refine ⟨r, net, cur, e, e2, hr, hsite, by rw [← h], ?_, ?_⟩
  · rw [← h]
    simp
  · rw [← h]
    rw [assign_tensors, if_neg (psi_step_ne_final (m + 1)), assign_tensors, if_pos rfl]

/-- The driver's Hamiltonian, one step, the identity as initial state: the build
completes, and `psi_final` is the tensor registered as `psi_1`. -/
theorem final_state_is_last_state_witness :
    ∃ s1 s2 : TimeEvolutionSolver ℚ,
      (TimeEvolutionSolver.new 1 1 [hamiltonianZ]).initialize_state identityState = .ok s1 ∧
      s1.local_operators_ ≠ [] ∧ 1 ≤ s1.num_steps_ ∧
      s1.build_network firstOrderFunctions [] = .ok s2 ∧
      ∃ r : Tensor ℚ, s2.network_.tensors_ "psi_final" = some r ∧
        s2.network_.tensors_ "psi_1" = some r := by
  have h2 : ∃ s2, TimeEvolutionSolver.build_network firstOrderFunctions
      { time_step_ := 1, num_steps_ := 1, local_operators_ := [hamiltonianZ]
        network_ := (TensorNetwork.empty : TensorNetwork ℚ).assign "psi_0" identityState } []
      = .ok s2 := ⟨_, by with_unfolding_all rfl⟩
  obtain ⟨s2, h2⟩ := h2
  obtain ⟨r, _, _, _, _, _, _, _, hf, hl⟩ :=
    final_state_is_last_state firstOrderFunctions
      { time_step_ := 1, num_steps_ := 1, local_operators_ := [hamiltonianZ]
        network_ := (TensorNetwork.empty : TensorNetwork ℚ).assign "psi_0" identityState }
      s2 [] (List.cons_ne_nil _ _) (le_refl 1) h2
  exact ⟨_, s2, rfl, List.cons_ne_nil _ _, le_refl 1, h2, r, hf, hl⟩

end FinalState

section ClosedForm

variable {R : Type}

open TimeEvolutionSolver

/-- One sweep contraction of `d x d` operands, as matrices: the state `S` becomes
`Sᵀ * E`. -/
theorem toMatrix_sweepContract [CommRing R] {d : Nat} {P S : Tensor R} (hP : SiteTensor d P)
    (hS : SiteTensor d S) :
    (sweepContract P S).to_matrix.toMatrix d =
      (S.to_matrix.toMatrix d).transpose * P.to_matrix.toMatrix d := by
  funext i j
  have hi := i.isLt
  have hj := j.isLt
  simp only [MatrixXd.toMatrix, Tensor.to_matrix, sweepContract, DataType.contract,
    DataType.dimension, otherAxis, DataType.entry, Matrix.mul_apply, Matrix.transpose_apply,
    hS.2.2.1, hS.2.2.2, hP.2.2.1, hP.2.2.2, if_true, hi, hj, and_self, if_pos,
    Nat.one_ne_zero, if_false]
  rw [Finset.sum_range]
  refine Finset.sum_congr rfl (fun k _ => ?_)
  simp [k.isLt]

/-- Two sweep contractions per step: after `k` steps the state is `(Eᵀ)^k * X * E^k`. -/
theorem toMatrix_iterate_sweepContract [CommRing R] {d : Nat} {P X : Tensor R}
    (hP : SiteTensor d P) (hX : SiteTensor d X) (k : Nat) :
    ((sweepContract P)^[2 * k] X).to_matrix.toMatrix d =
      (P.to_matrix.toMatrix d).transpose ^ k * X.to_matrix.toMatrix d *
        (P.to_matrix.toMatrix d) ^ k := by
  induction k with
  | zero => simp
  | succ k ih =>
    have hS := iterate_sweepContract_siteTensor hP hX (2 * k)
    rw [show 2 * (k + 1) = (2 * k + 1) + 1 by ring, Function.iterate_succ_apply',
      Function.iterate_succ_apply',
      toMatrix_sweepContract hP (sweepContract_siteTensor hP hS),
      toMatrix_sweepContract hP hS, ih, Matrix.transpose_mul, Matrix.transpose_transpose,
      pow_succ', pow_succ]
    simp only [Matrix.mul_assoc]

end ClosedForm

section ClosedForm

variable {R : Type} [Field R]

open TimeEvolutionSolver

theorem sitePropagator_siteTensor {d : Nat} (fns : MatrixFunctions R) (dt : R) (Hop : Tensor R)
    (hH : Hop.data.dim0 = d ∧ Hop.data.dim1 = d) : SiteTensor d (sitePropagator fns dt Hop) := by
  refine ⟨rfl, ?_, ?_, ?_⟩
  · simp [sitePropagator, Tensor.matrixCopy, fns.expImagReal_rows, fns.expImagReal_cols,
      Tensor.to_matrix, hH.1, hH.2]
  · simp [sitePropagator, Tensor.matrixCopy, fns.expImagReal_rows, Tensor.to_matrix, hH.1]
  · simp [sitePropagator, Tensor.matrixCopy, fns.expImagReal_cols, Tensor.to_matrix, hH.2]

/-- The build of a single-site Time Evolution Solver whose Hamiltonian and initial state
are `d x d`, the state with index names `site_0`, `site_0`: it completes for every step
count, `exp_op_0` holds the propagator, and `psi_final` holds the initial state after two
sweep contractions per step. -/
theorem build_single_site {d : Nat} (fns : MatrixFunctions R) (time : R) (num_steps : Int)
    (Hop X : Tensor R) (params : List R) (hH : Hop.data.dim0 = d ∧ Hop.data.dim1 = d)
    (hX : SiteTensor d X) :
    ∃ s1 s2 : TimeEvolutionSolver R,
      (TimeEvolutionSolver.new time num_steps [Hop]).initialize_state X = .ok s1 ∧
      s1.build_network fns params = .ok s2 ∧
      s2.network_.tensors_ "exp_op_0"
        = some (sitePropagator fns (time / (num_steps : R)) Hop) ∧
      s2.network_.tensors_ "psi_final"
        = some ((sweepContract (sitePropagator fns (time / (num_steps : R)) Hop))^[
            2 * num_steps.toNat] X) := by
  have hP := sitePropagator_siteTensor fns (time / (num_steps : R)) Hop hH
  have hprop : forEach (addPropagator fns [Hop] (time / (num_steps : R))) (List.range 1)
      ((TensorNetwork.empty : TensorNetwork R).assign "psi_0" X) =
      .ok (((TensorNetwork.empty : TensorNetwork R).assign "psi_0" X).assign "exp_op_0"
        (sitePropagator fns (time / (num_steps : R)) Hop)) := by
    have hE : "exp_op_" ++ toString 0 = "exp_op_0" := rfl
    have hs : "site_" ++ toString 0 = "site_0" := rfl
    have hs2 : "site_" ++ toString ((0 + 1) % [Hop].length) = "site_0" := by
      simp only [List.length_cons, List.length_nil, zero_add, Nat.mod_self]
      rfl
    show forEach _ [0] _ = _
    simp only [forEach, addPropagator, List.getD_cons_zero, hE, hs, hs2, Tensor.from_matrix,
      Tensor.checkShape, List.length_cons, List.length_nil, ne_eq, not_true_eq_false, if_false]
    rw [if_neg (by simp [Tensor.to_matrix, hH.1, hH.2])]
    rw [add_tensor_eq_ok _ (by simp)]
    rfl
  obtain ⟨last, hloop, hlast⟩ := forEach_range
    (SingleSiteInv (sitePropagator fns (time / (num_steps : R)) Hop) X) (trotterStep [Hop])
    num_steps.toNat
    (fun k s _ hI => trotterStep_single Hop _ X k s hH hP hX hI)
    ("psi_0", ((TensorNetwork.empty : TensorNetwork R).assign "psi_0" X).assign "exp_op_0"
      (sitePropagator fns (time / (num_steps : R)) Hop))
    (by
      have h0 : "psi_" ++ toString 0 = "psi_0" := rfl
      refine ⟨rfl, by simp, by simp [h0], ?_, ?_, by simp⟩
      · intro j _
        simp only [assign_tensors, empty_tensors]
        rw [if_neg (show _ ≠ "exp_op_0" from psi_mid_ne_exp_op j 1 "0"), ← h0,
          if_neg (psi_mid_ne_psi_step j 1 0)]
      · intro j hj
        simp only [assign_tensors, empty_tensors]
        rw [if_neg (show _ ≠ "exp_op_0" from psi_ne_exp_op _ "0"), ← h0,
          if_neg (fun h => absurd (psi_step_injective h) (by omega))])
  obtain ⟨lname, lnet⟩ := last
  obtain ⟨hname, hexp, hcur, _, _, hfin⟩ := hlast
  simp only at hname hexp hcur hfin
  subst hname
  refine ⟨{ time_step_ := time, num_steps_ := num_steps, local_operators_ := [Hop]
            network_ := (TensorNetwork.empty : TensorNetwork R).assign "psi_0" X },
    { time_step_ := time, num_steps_ := num_steps, local_operators_ := [Hop]
      network_ := lnet.assign "psi_final"
        ((sweepContract (sitePropagator fns (time / (num_steps : R)) Hop))^[
          2 * num_steps.toNat] X) }, ?_, ?_, ?_, ?_⟩
  · simp only [TimeEvolutionSolver.new, TimeEvolutionSolver.initialize_state,
      add_tensor_eq_ok X (empty_tensors "psi_0")]
  · simp only [TimeEvolutionSolver.build_network,
      TimeEvolutionSolver.build_trotter_decomposition,
      List.length_cons, List.length_nil, zero_add, hprop, hloop,
      get_tensor_eq_ok hcur, add_tensor_eq_ok _ hfin]
  · simp only [assign_tensors]
    rw [if_neg (by decide)]
    exact hexp
  · simp

/-- C20: for a Time Evolution Solver with exactly one local operator (`d x d`) and an
initial state `X` with index names `site_0`, `site_0` and dimensions `[d, d]`,
`initialize_state` and `build_network` complete without error for every step count `N`
(in particular `N >= 1`); with `E` the `d x d` matrix stored as `exp_op_0` (the real part
of the propagator of the operator for half the step `time / N`), the matrix of
`psi_final` is `d x d` and equals `(Eᵀ)^N * X * E^N`, because the contraction of any
`d x d` state `S` named `site_0`, `site_0` with `exp_op_0` over `site_0` returns
`Sᵀ * E`. -/
theorem single_site_closed_form {d : Nat} (fns : MatrixFunctions R) (time : R)
    (num_steps : Int) (Hop X : Tensor R) (params : List R)
    (hH : Hop.data.dim0 = d ∧ Hop.data.dim1 = d) (hX : SiteTensor d X) :
    ∃ (s1 s2 : TimeEvolutionSolver R) (P F : Tensor R),
      (TimeEvolutionSolver.new time num_steps [Hop]).initialize_state X = .ok s1 ∧
      s1.build_network fns params = .ok s2 ∧
      s2.network_.tensors_ "exp_op_0" = some P ∧
      P.to_matrix.toMatrix d =
        (fns.expImagReal (time / (num_steps : R) / 2) Hop.to_matrix).toMatrix d ∧
      P.to_matrix.rows = d ∧ P.to_matrix.cols = d ∧
      s2.network_.tensors_ "psi_final" = some F ∧
      F.to_matrix.rows = d ∧ F.to_matrix.cols = d ∧
      F.to_matrix.toMatrix d =
        (P.to_matrix.toMatrix d).transpose ^ num_steps.toNat * X.to_matrix.toMatrix d *
          (P.to_matrix.toMatrix d) ^ num_steps.toNat ∧
      ∀ (net : TensorNetwork R) (name : String) (S : Tensor R), SiteTensor d S →
        net.tensors_ name = some S → net.tensors_ "exp_op_0" = some P →
        ∃ r, net.contract name "exp_op_0" ["site_0"] = .ok r ∧
          r.to_matrix.toMatrix d =
            (S.to_matrix.toMatrix d).transpose * P.to_matrix.toMatrix d := by
  have hP := sitePropagator_siteTensor fns (time / (num_steps : R)) Hop hH
  obtain ⟨s1, s2, h1, h2, hE, hF⟩ := build_single_site fns time num_steps Hop X params hH hX
  have hFs := iterate_sweepContract_siteTensor hP hX (2 * num_steps.toNat)
  refine ⟨s1, s2, _, _, h1, h2, hE, ?_, ?_, ?_, hF, ?_, ?_,
    toMatrix_iterate_sweepContract hP hX num_steps.toNat, ?_⟩
  · funext i j
    have hr : (fns.expImagReal (time / (num_steps : R) / 2) Hop.to_matrix).rows = d := by
      rw [fns.expImagReal_rows]
      exact hH.1
    have hc : (fns.expImagReal (time / (num_steps : R) / 2) Hop.to_matrix).cols = d := by
      rw [fns.expImagReal_cols]
      exact hH.2
    simp only [MatrixXd.toMatrix, sitePropagator, Tensor.matrixCopy]
    generalize fns.expImagReal (time / (num_steps : R) / 2) Hop.to_matrix = M at hr hc
    simp [Tensor.to_matrix, hr, hc]
  · simp [Tensor.to_matrix, hP.2.2.1]
  · simp [Tensor.to_matrix, hP.2.2.2]
  · simp [Tensor.to_matrix, hFs.2.2.1]
  · simp [Tensor.to_matrix, hFs.2.2.2]
  · intro net name S hS hn he
    exact ⟨_, contract_site net name _ S hP hS hn he, toMatrix_sweepContract hP hS⟩

/-- The driver's Hamiltonian with three steps on the identity state. -/
theorem single_site_closed_form_witness :
    (hamiltonianZ.data.dim0 = 2 ∧ hamiltonianZ.data.dim1 = 2) ∧
    TimeEvolutionSolver.SiteTensor 2 identityState ∧
    ∃ (s1 s2 : TimeEvolutionSolver ℚ) (P F : Tensor ℚ),
      (TimeEvolutionSolver.new 1 3 [hamiltonianZ]).initialize_state identityState = .ok s1 ∧
      s1.build_network firstOrderFunctions [] = .ok s2 ∧
      s2.network_.tensors_ "exp_op_0" = some P ∧
      s2.network_.tensors_ "psi_final" = some F ∧
      F.to_matrix.toMatrix 2 =
        (P.to_matrix.toMatrix 2).transpose ^ 3 * identityState.to_matrix.toMatrix 2 *
          (P.to_matrix.toMatrix 2) ^ 3 := by
  refine ⟨⟨rfl, rfl⟩, ⟨rfl, rfl, rfl, rfl⟩, ?_⟩
  obtain ⟨s1, s2, P, F, h1, h2, hE, _, _, _, hF, _, _, hclosed, _⟩ :=
    single_site_closed_form firstOrderFunctions 1 3 hamiltonianZ identityState []
      ⟨rfl, rfl⟩ ⟨rfl, rfl, rfl, rfl⟩
  exact ⟨s1, s2, P, F, h1, h2, hE, hF, hclosed⟩

end ClosedForm

section MultiSite

variable {R : Type} [Field R]

/-- A sweep iteration whose target name is taken fails; if its contraction returns a
tensor, the failure is the `already exists` of the insertion. -/
theorem sweepSite_collides (ops : List (Tensor R)) (i : Nat) (next : String)
    (st : String × R × TensorNetwork R) (t : Tensor R) (h : st.2.2.tensors_ next = some t) :
    ∃ e, TimeEvolutionSolver.sweepSite ops i next st = .error e ∧
      ∀ r, st.2.2.contract st.1 ("exp_op_" ++ toString i) ["site_" ++ toString i] = .ok r →
        e = .alreadyExists next := by
  unfold TimeEvolutionSolver.sweepSite
  cases hc : st.2.2.contract st.1 ("exp_op_" ++ toString i) ["site_" ++ toString i] with
  | error e => exact ⟨e, rfl, fun r hr => absurd hr (by simp)⟩
  | ok r =>
    simp only [add_tensor_eq_error r h]
    exact ⟨_, rfl, fun _ _ => rfl⟩

/-- A completed forward sweep over `n` sites keeps every binding and has registered
`psi_<step>_<i+1>` for every site `i < n`. -/
theorem forwardSweep_registers (ops : List (Tensor R)) (step n : Nat)
    (st st2 : String × R × TensorNetwork R)
    (h : forEach (fun i => TimeEvolutionSolver.sweepSite ops i
        ("psi_" ++ toString step ++ "_" ++ toString (i + 1))) (List.range n) st = .ok st2) :
    (∀ k t, st.2.2.tensors_ k = some t → ∃ t2, st2.2.2.tensors_ k = some t2) ∧
    ∀ i, i < n →
      ∃ t, st2.2.2.tensors_ ("psi_" ++ toString step ++ "_" ++ toString (i + 1)) = some t := by
  induction n generalizing st2 with
  | zero =>
    simp only [List.range_zero, forEach, Except.ok.injEq] at h
    subst h
    exact ⟨fun k t hk => ⟨t, hk⟩, fun i hi => absurd hi (by omega)⟩
  | succ n ih =>
    rw [List.range_succ] at h
    obtain ⟨mid, hmid, hlast⟩ := forEach_append_ok _ _ _ _ _ h
    rw [forEach_singleton] at hlast
    obtain ⟨hkeep, hreg⟩ := ih mid hmid
    obtain ⟨r, e, _, hfree, hst2⟩ := sweepSite_ok _ _ _ _ _ hlast
    subst hst2
    have hstay : ∀ k t, mid.2.2.tensors_ k = some t →
        ∃ t2, (mid.2.2.assign ("psi_" ++ toString step ++ "_" ++ toString (n + 1)) r).tensors_ k
          = some t2 := by
      intro k t hk
      rw [assign_tensors]
      by_cases hkn : k = "psi_" ++ toString step ++ "_" ++ toString (n + 1)
      · exact ⟨r, by rw [if_pos hkn]⟩
      · exact ⟨t, by rw [if_neg hkn]; exact hk⟩
    refine ⟨?_, ?_⟩
    · intro k t hk
      obtain ⟨t1, h1⟩ := hkeep k t hk
      exact hstay k t1 h1
    · intro i hi
      by_cases hin : i = n
      · subst hin
        exact ⟨r, by simp⟩
      · obtain ⟨t1, h1⟩ := hreg i (by omega)
        exact hstay _ t1 h1

/-- With two or more sites, the backward sweep that follows a completed forward sweep
fails in its first iteration (site `n - 1`): its target name `psi_<step>_<n-1>` was
registered by the forward sweep. -/
theorem backwardSweep_first_collides (ops : List (Tensor R)) (step : Nat)
    (fwd : String × R × TensorNetwork R) (hops : 2 ≤ ops.length) (t : Tensor R)
    (hreg : fwd.2.2.tensors_ ("psi_" ++ toString step ++ "_" ++ toString (ops.length - 1))
      = some t) :
    ∃ e, TimeEvolutionSolver.backwardSweep ops step fwd = .error e ∧
      ∀ r, fwd.2.2.contract fwd.1 ("exp_op_" ++ toString (ops.length - 1))
          ["site_" ++ toString (ops.length - 1)] = .ok r →
        e = .alreadyExists ("psi_" ++ toString step ++ "_" ++ toString (ops.length - 1)) := by
  obtain ⟨n, hn⟩ : ∃ n, ops.length = n + 2 := ⟨ops.length - 2, by omega⟩
  have hn1 : ops.length - 1 = n + 1 := by omega
  rw [hn1] at hreg ⊢
  obtain ⟨e, he, hcause⟩ := sweepSite_collides ops (n + 1)
    ("psi_" ++ toString step ++ "_" ++ toString (n + 1)) fwd t hreg
  refine ⟨e, ?_, hcause⟩
  unfold TimeEvolutionSolver.backwardSweep
  rw [hn, List.range_succ, List.reverse_append, List.reverse_singleton, List.singleton_append]
  simp only [forEach, if_neg (Nat.succ_ne_zero n), he]

end MultiSite

section MultiSite

variable {R : Type} [Field R]

/-- C21: for every Time Evolution Solver (whatever its network holds, so for every initial
state) with `n >= 2` local operators and `num_steps >= 1`, `build_network` fails.  If the
precomputation and the forward sweep of step 0 complete, the forward sweep has registered
`psi_0_<n-1>`, and the first iteration of the backward sweep (site `n - 1`) either fails in
its contraction or, if the contraction returns a tensor, fails to insert it under
`psi_0_<n-1>` with `already exists`, which is then the error of `build_network`. -/
theorem multi_site_build_fails (fns : MatrixFunctions R) (s : TimeEvolutionSolver R)
    (params : List R) (hops : 2 ≤ s.local_operators_.length) (hN : 1 ≤ s.num_steps_) :
    (∃ e, s.build_network fns params = .error e) ∧
    ∀ (net0 : TensorNetwork R) (fwd : String × R × TensorNetwork R),
      forEach (TimeEvolutionSolver.addPropagator fns s.local_operators_
          (s.time_step_ / (s.num_steps_ : R))) (List.range s.local_operators_.length)
          s.network_ = .ok net0 →
      TimeEvolutionSolver.forwardSweep s.local_operators_ 0 ("psi_0", 0, net0) = .ok fwd →
      (∃ t, fwd.2.2.tensors_
          ("psi_" ++ toString 0 ++ "_" ++ toString (s.local_operators_.length - 1)) = some t) ∧
      ∀ r, fwd.2.2.contract fwd.1 ("exp_op_" ++ toString (s.local_operators_.length - 1))
          ["site_" ++ toString (s.local_operators_.length - 1)] = .ok r →
        s.build_network fns params = .error (.alreadyExists
          ("psi_" ++ toString 0 ++ "_" ++ toString (s.local_operators_.length - 1))) := by
  obtain ⟨m, hm⟩ : ∃ m, s.num_steps_.toNat = m + 1 := ⟨s.num_steps_.toNat - 1, by omega⟩
  have key : ∀ (net0 : TensorNetwork R) (fwd : String × R × TensorNetwork R),
      forEach (TimeEvolutionSolver.addPropagator fns s.local_operators_
          (s.time_step_ / (s.num_steps_ : R))) (List.range s.local_operators_.length)
          s.network_ = .ok net0 →
      TimeEvolutionSolver.forwardSweep s.local_operators_ 0 ("psi_0", 0, net0) = .ok fwd →
      ∃ e, s.build_network fns params = .error e ∧
        (∃ t, fwd.2.2.tensors_
          ("psi_" ++ toString 0 ++ "_" ++ toString (s.local_operators_.length - 1)) = some t) ∧
        ∀ r, fwd.2.2.contract fwd.1 ("exp_op_" ++ toString (s.local_operators_.length - 1))
            ["site_" ++ toString (s.local_operators_.length - 1)] = .ok r →
          e = .alreadyExists
            ("psi_" ++ toString 0 ++ "_" ++ toString (s.local_operators_.length - 1)) := by
    intro net0 fwd hpre hfwd
    obtain ⟨t, ht⟩ := (forwardSweep_registers s.local_operators_ 0 s.local_operators_.length
      _ fwd hfwd).2 (s.local_operators_.length - 2) (by omega)
    rw [show s.local_operators_.length - 2 + 1 = s.local_operators_.length - 1 by omega] at ht
    obtain ⟨e, he, hcause⟩ := backwardSweep_first_collides s.local_operators_ 0 fwd hops t ht
    refine ⟨e, ?_, ⟨t, ht⟩, hcause⟩
    simp only [TimeEvolutionSolver.build_network,
      TimeEvolutionSolver.build_trotter_decomposition, hpre, hm, List.range_succ_eq_map,
      forEach, TimeEvolutionSolver.trotterStep, hfwd, he]
  refine ⟨?_, ?_⟩
  · cases hpre : forEach (TimeEvolutionSolver.addPropagator fns s.local_operators_
        (s.time_step_ / (s.num_steps_ : R))) (List.range s.local_operators_.length)
        s.network_ with
    | error e =>
      exact ⟨e, by
        simp only [TimeEvolutionSolver.build_network,
          TimeEvolutionSolver.build_trotter_decomposition, hpre]⟩
    | ok net0 =>
      cases hfwd : TimeEvolutionSolver.forwardSweep s.local_operators_ 0 ("psi_0", 0, net0) with
      | error e =>
        exact ⟨e, by
          simp only [TimeEvolutionSolver.build_network,
            TimeEvolutionSolver.build_trotter_decomposition, hpre, hm, List.range_succ_eq_map,
            forEach, TimeEvolutionSolver.trotterStep, hfwd]⟩
      | ok fwd =>
        obtain ⟨e, he, _⟩ := key net0 fwd hpre hfwd
        exact ⟨e, he⟩
  · intro net0 fwd hpre hfwd
    obtain ⟨e, he, hreg, hcause⟩ := key net0 fwd hpre hfwd
    refine ⟨hreg, fun r hr => ?_⟩
    rw [he, hcause r hr]

/-- Two copies of the driver's Hamiltonian, one step, a state with index names `site_0`,
`site_1`: the build reaches the backward sweep and stops at the taken name `psi_0_1`. -/
theorem multi_site_build_fails_witness :
    (2 ≤ [hamiltonianZ, hamiltonianZ].length ∧ (1 : Int) ≤ 1) ∧
    (∃ e, TimeEvolutionSolver.build_network firstOrderFunctions
      { time_step_ := 1, num_steps_ := 1, local_operators_ := [hamiltonianZ, hamiltonianZ]
        network_ := (TensorNetwork.empty : TensorNetwork ℚ).assign "psi_0"
          (testTensor 1 0 0 1 ["site_0", "site_1"]) } [] = .error e) ∧
    TimeEvolutionSolver.build_network firstOrderFunctions
      { time_step_ := 1, num_steps_ := 1, local_operators_ := [hamiltonianZ, hamiltonianZ]
        network_ := (TensorNetwork.empty : TensorNetwork ℚ).assign "psi_0"
          (testTensor 1 0 0 1 ["site_0", "site_1"]) } []
      = .error (.alreadyExists "psi_0_1") :=
  ⟨⟨by decide, le_refl 1⟩,
    (multi_site_build_fails firstOrderFunctions
      { time_step_ := 1, num_steps_ := 1, local_operators_ := [hamiltonianZ, hamiltonianZ]
        network_ := (TensorNetwork.empty : TensorNetwork ℚ).assign "psi_0"
          (testTensor 1 0 0 1 ["site_0", "site_1"]) } [] (by decide) (le_refl 1)).1,
    by with_unfolding_all rfl⟩

end MultiSite

section FullContraction

variable {R : Type}

/-- When both axes of a rank-2 tensor are contracted, no axis is left over. -/
theorem remaining_pair (t : Tensor R) (p q : Nat) (hl : t.indices.length = 2) (hp : p < 2)
    (hq : q < 2) (hpq : p ≠ q) : TensorNetwork.remaining t [p, q] = [] := by
  unfold TensorNetwork.remaining
  rw [hl]
  have hr : List.range 2 = [0, 1] := rfl
  rw [hr]
  interval_cases p <;> interval_cases q <;> simp [List.filter] at hpq ⊢

theorem indexOf_ne_of_ne {a b : String} {l : List String} (ha : a ∈ l) (hb : b ∈ l)
    (hab : a ≠ b) : l.indexOf a ≠ l.indexOf b := by
  intro h
  exact hab ((List.indexOf_inj ha hb).mp h)

/-- C23: for every network holding invariant-satisfying tensors `t1` and `t2` and every two
distinct index names `a`, `b` that both occur in both index lists with matching dimension
sizes, `contract(name1, name2, [a, b])` fails: both axes of each operand are contracted, the
leftover index and dimension lists are empty, and the constructor of the result rejects
them with its rank error (`only rank-2 tensors`); no scalar is returned. -/
theorem full_contraction_rejected [CommRing R] (net : TensorNetwork R)
    (name1 name2 a b : String) (t1 t2 : Tensor R)
    (h1 : net.tensors_ name1 = some t1) (h2 : net.tensors_ name2 = some t2)
    (hv1 : t1.Valid) (hv2 : t2.Valid) (hab : a ≠ b)
    (ha1 : a ∈ t1.indices) (hb1 : b ∈ t1.indices) (ha2 : a ∈ t2.indices) (hb2 : b ∈ t2.indices)
    (hda : t1.dimensions.getD (t1.indices.indexOf a) 0 =
      t2.dimensions.getD (t2.indices.indexOf a) 0)
    (hdb : t1.dimensions.getD (t1.indices.indexOf b) 0 =
      t2.dimensions.getD (t2.indices.indexOf b) 0) :
    net.contract name1 name2 [a, b] = .error .rankNot2 ∧
      TensorNetwork.remaining t1 [t1.indices.indexOf a, t1.indices.indexOf b] = [] ∧
      TensorNetwork.remaining t2 [t2.indices.indexOf a, t2.indices.indexOf b] = [] := by
  have hpa1 := indexOf_lt_two_of_mem hv1.1 ha1
  have hpb1 := indexOf_lt_two_of_mem hv1.1 hb1
  have hpa2 := indexOf_lt_two_of_mem hv2.1 ha2
  have hpb2 := indexOf_lt_two_of_mem hv2.1 hb2
  have hr1 := remaining_pair t1 _ _ hv1.1 hpa1 hpb1 (indexOf_ne_of_ne ha1 hb1 hab)
  have hr2 := remaining_pair t2 _ _ hv2.1 hpa2 hpb2 (indexOf_ne_of_ne ha2 hb2 hab)
  refine ⟨?_, hr1, hr2⟩
  have hna1 : ¬ (t1.indices.indexOf a = t1.indices.length ∨
      t2.indices.indexOf a = t2.indices.length) := by rw [hv1.1, hv2.1]; omega
  have hnb1 : ¬ (t1.indices.indexOf b = t1.indices.length ∨
      t2.indices.indexOf b = t2.indices.length) := by rw [hv1.1, hv2.1]; omega
  simp only [TensorNetwork.contract, get_tensor_eq_ok h1, get_tensor_eq_ok h2,
    TensorNetwork.findPositions, if_neg hna1, if_neg hnb1, TensorNetwork.checkDimensions,
    hda, hdb, ne_eq, not_true_eq_false, if_false, hr1, hr2, List.append_nil, List.map_nil]
  rfl

/-- The tensor `A` of the test contracted with itself over both of its index names. -/
theorem full_contraction_rejected_witness :
    ((TensorNetwork.empty : TensorNetwork ℚ).assign "A" tensorA).contract "A" "A" ["i", "j"]
      = .error .rankNot2 :=
  (full_contraction_rejected ((TensorNetwork.empty : TensorNetwork ℚ).assign "A" tensorA)
    "A" "A" "i" "j" tensorA tensorA (by simp) (by simp) ⟨rfl, rfl⟩ ⟨rfl, rfl⟩ (by decide)
    (by simp [tensorA, testTensor]) (by simp [tensorA, testTensor])
    (by simp [tensorA, testTensor]) (by simp [tensorA, testTensor]) rfl rfl).1

end FullContraction

section ThermalRuns

variable {R : Type} [Field R]

theorem rho_ne_exp_op (x y : String) : "rho_" ++ x ≠ "exp_op_" ++ y := by
  intro h
  have := congrArg String.data h
  simp at this

/-- A successful site iteration of the thermal build: the propagator name was free, the
state name was free, and the network continues with both registered. -/
theorem siteStep_ok (fns : MatrixFunctions R) (ops : List (Tensor R)) (dbeta : R)
    (step i : Nat) (st st2 : R × TensorNetwork R)
    (h : ThermalSolver.siteStep fns ops dbeta step i st = .ok st2) :
    (ops.getD i Tensor.empty).to_matrix.rows = (ops.getD i Tensor.empty).to_matrix.cols ∧
    ∃ (P r : Tensor R) (e : R),
      st.2.tensors_ ("exp_op_" ++ toString i) = none ∧
      (st.2.assign ("exp_op_" ++ toString i) P).tensors_ ("rho_" ++ toString (step + 1)) = none ∧
      st2 = (e, (st.2.assign ("exp_op_" ++ toString i) P).assign
        ("rho_" ++ toString (step + 1)) r) := by
  unfold ThermalSolver.siteStep at h
  simp only [] at h
  split at h
  · exact absurd h (by simp)
  rename_i hsq
  split at h
  · exact absurd h (by simp)
  rename_i P hP
  split at h
  · exact absurd h (by simp)
  rename_i net1 hnet1
  split at h
  · exact absurd h (by simp)
  rename_i r hr
  split at h
  · exact absurd h (by simp)
  rename_i net2 hnet2
  split at h
  · exact absurd h (by simp)
  rename_i e he
  simp only [Except.ok.injEq] at h
  obtain ⟨hfree1, hn1⟩ := add_tensor_ok_iff.mp hnet1
  subst hn1
  obtain ⟨hfree2, hn2⟩ := add_tensor_ok_iff.mp hnet2
  subst hn2
  exact ⟨not_not.mp hsq, P, r, st.1 + e, hfree1, hfree2, h.symm⟩

/-- A site iteration for a square operator that finds its propagator name taken fails
with `already exists` for that name. -/
theorem siteStep_propagator_taken (fns : MatrixFunctions R) (ops : List (Tensor R)) (dbeta : R)
    (step i : Nat) (st : R × TensorNetwork R) (t : Tensor R)
    (hsq : (ops.getD i Tensor.empty).to_matrix.rows = (ops.getD i Tensor.empty).to_matrix.cols)
    (ht : st.2.tensors_ ("exp_op_" ++ toString i) = some t) :
    ThermalSolver.siteStep fns ops dbeta step i st
      = .error (.alreadyExists ("exp_op_" ++ toString i)) := by
  unfold ThermalSolver.siteStep
  simp only []
  rw [if_neg (not_not.mpr hsq),
    (from_matrix_ok_iff _ ["site_" ++ toString i, "site_" ++ toString (i + 1)] _).mpr
      ⟨rfl, rfl⟩]
  simp only [add_tensor_eq_error _ ht]

/-- A site iteration that finds its state name `rho_<step+1>` taken fails: with `already
exists` for that name, unless an earlier statement of the iteration fails first (Eigen's
assertion on a non-square operator, or the contraction). -/
theorem siteStep_state_taken (fns : MatrixFunctions R) (ops : List (Tensor R)) (dbeta : R)
    (step i : Nat) (st : R × TensorNetwork R) (t : Tensor R)
    (ht : st.2.tensors_ ("rho_" ++ toString (step + 1)) = some t)
    (hfree : st.2.tensors_ ("exp_op_" ++ toString i) = none) :
    ∃ e, ThermalSolver.siteStep fns ops dbeta step i st = .error e ∧
      (e = .alreadyExists ("rho_" ++ toString (step + 1)) ∨ e = .eigenAssert ∨
        ∃ net : TensorNetwork R,
          net.contract (if step = 0 then "rho_0" else "rho_" ++ toString step)
            ("exp_op_" ++ toString i) ["site_" ++ toString i] = .error e) := by
  unfold ThermalSolver.siteStep
  simp only []
  split
  · exact ⟨_, rfl, Or.inr (Or.inl rfl)⟩
  · rw [(from_matrix_ok_iff _ ["site_" ++ toString i, "site_" ++ toString (i + 1)] _).mpr
      ⟨rfl, rfl⟩]
    simp only [add_tensor_eq_ok _ hfree]
    split
    · rename_i e he
      exact ⟨e, rfl, Or.inr (Or.inr ⟨_, he⟩)⟩
    · rename_i r hr
      have htaken : (st.2.assign ("exp_op_" ++ toString i)
          (Tensor.matrixCopy (fns.exp (MatrixXd.scale (-dbeta)
            (ops.getD i Tensor.empty).to_matrix))
            ["site_" ++ toString i, "site_" ++ toString (i + 1)])).tensors_
          ("rho_" ++ toString (step + 1)) = some t := by
        rw [assign_tensors, if_neg (rho_ne_exp_op _ _)]
        exact ht
      simp only [add_tensor_eq_error _ htaken]
      exact ⟨_, rfl, Or.inl rfl⟩

end ThermalRuns

section ThermalRuns

variable {R : Type} [Field R]

theorem range_two_cons (n : Nat) : ∃ rest, List.range (n + 2) = 0 :: 1 :: rest :=
  ⟨_, by rw [List.range_succ_eq_map, List.range_succ_eq_map]; rfl⟩

/-- With two or more sites, step 0 of the thermal build fails: if site 0 completes, it has
registered `rho_1`, and site 1 fails when it inserts its own result under `rho_1` (unless
Eigen's assertion or the contraction of site 1 fails first). -/
theorem imaginaryTimeStep_second_site (fns : MatrixFunctions R) (ops : List (Tensor R))
    (dbeta : R) (net : TensorNetwork R) (hops : 2 ≤ ops.length)
    (hfree : net.tensors_ "exp_op_1" = none) :
    ∃ e, ThermalSolver.imaginaryTimeStep fns ops dbeta 0 net = .error e ∧
      ∀ st1, ThermalSolver.siteStep fns ops dbeta 0 0 (0, net) = .ok st1 →
        (∃ t, st1.2.tensors_ "rho_1" = some t) ∧
        (e = .alreadyExists "rho_1" ∨ e = .eigenAssert ∨
          ∃ net2 : TensorNetwork R,
            net2.contract "rho_0" "exp_op_1" ["site_1"] = .error e) := by
  obtain ⟨n, hn⟩ : ∃ n, ops.length = n + 2 := ⟨ops.length - 2, by omega⟩
  obtain ⟨rest, hrest⟩ := range_two_cons n
  unfold ThermalSolver.imaginaryTimeStep
  rw [hn, hrest]
  cases h0 : ThermalSolver.siteStep fns ops dbeta 0 0 (0, net) with
  | error e =>
    refine ⟨e, by simp only [forEach, h0], fun st1 h => absurd h (by simp)⟩
  | ok st1 =>
    obtain ⟨_, P, r, e0, _, _, hst1⟩ := siteStep_ok fns ops dbeta 0 0 (0, net) st1 h0
    have ht : st1.2.tensors_ ("rho_" ++ toString (0 + 1)) = some r := by
      rw [hst1]
      simp
    have hf : st1.2.tensors_ ("exp_op_" ++ toString 1) = none := by
      rw [hst1]
      simp only [assign_tensors]
      rw [if_neg (rho_ne_exp_op _ _).symm,
        if_neg (fun h => absurd (exp_op_injective h) (by decide))]
      exact hfree
    obtain ⟨e, he, hclass⟩ := siteStep_state_taken fns ops dbeta 0 1 st1 r ht hf
    refine ⟨e, by simp only [forEach, h0, he], fun st1b h => ?_⟩
    rw [Except.ok.injEq] at h
    subst h
    exact ⟨⟨r, ht⟩, hclass⟩

/-- With one site, a completed step 0 of the thermal build has registered `exp_op_0`, and
step 1 fails when it inserts the propagator under `exp_op_0` again. -/
theorem imaginaryTimeStep_second_step (fns : MatrixFunctions R) (ops : List (Tensor R))
    (dbeta : R) (net net1 : TensorNetwork R) (hops : ops.length = 1)
    (h : ThermalSolver.imaginaryTimeStep fns ops dbeta 0 net = .ok net1) :
    (∃ t, net1.tensors_ "exp_op_0" = some t) ∧
    ThermalSolver.imaginaryTimeStep fns ops dbeta 1 net1
      = .error (.alreadyExists "exp_op_0") := by
  have hr : List.range 1 = [0] := rfl
  unfold ThermalSolver.imaginaryTimeStep at h
  rw [hops, hr, forEach_singleton] at h
  split at h
  · exact absurd h (by simp)
  rename_i st hst
  split at h
  · exact absurd h (by simp)
  simp only [Except.ok.injEq] at h
  subst h
  obtain ⟨hsq, P, r, e0, _, _, hst1⟩ := siteStep_ok fns ops dbeta 0 0 (0, net) st hst
  have ht : st.2.tensors_ ("exp_op_" ++ toString 0) = some P := by
    rw [hst1, assign_tensors, if_neg (rho_ne_exp_op _ _).symm, assign_tensors, if_pos rfl]
  refine ⟨⟨P, ht⟩, ?_⟩
  unfold ThermalSolver.imaginaryTimeStep
  rw [hops, hr, forEach_singleton, siteStep_propagator_taken fns ops dbeta 1 0 (0, st.2) P hsq ht]
  rfl

end ThermalRuns

section ThermalRuns

variable {R : Type} [Field R]

/-- C22: for every Thermal Solver and every initial state, `build_network` after
`initialize_state` completes only if `num_steps <= 0` or (`num_steps = 1` and there is
exactly one local operator).  For `num_steps <= 0` it completes and changes nothing.
Otherwise it fails: without operators, `rho_1` is looked up without having been produced;
with two or more operators, site 1 of step 0 re-inserts `rho_1` (unless site 0, Eigen's
assertion or the contraction of site 1 fails first); with one operator and two or more
steps, step 1 re-inserts `exp_op_0` (unless step 0 fails first). -/
theorem thermal_completes_only_trivially (fns : MatrixFunctions R) (beta : R)
    (num_steps : Int) (ops : List (Tensor R)) (X : Tensor R) (params : List R)
    (s1 : ThermalSolver R)
    (h1 : (ThermalSolver.new beta num_steps ops).initialize_state X = .ok s1) :
    (∀ s2, s1.build_network fns params = .ok s2 →
      num_steps ≤ 0 ∨ (num_steps = 1 ∧ ops.length = 1)) ∧
    (num_steps ≤ 0 → s1.build_network fns params = .ok s1) ∧
    (1 ≤ num_steps → ops = [] →
      s1.build_network fns params = .error (.notFound "rho_1")) ∧
    (1 ≤ num_steps → 2 ≤ ops.length →
      ∃ e, s1.build_network fns params = .error e ∧
        ∀ st1, ThermalSolver.siteStep fns ops (beta / (num_steps : R)) 0 0 (0, s1.network_)
            = .ok st1 →
          (∃ t, st1.2.tensors_ "rho_1" = some t) ∧
          (e = .alreadyExists "rho_1" ∨ e = .eigenAssert ∨
            ∃ net2 : TensorNetwork R,
              net2.contract "rho_0" "exp_op_1" ["site_1"] = .error e)) ∧
    (2 ≤ num_steps → ops.length = 1 →
      ∃ e, s1.build_network fns params = .error e ∧
        ∀ net1, ThermalSolver.imaginaryTimeStep fns ops (beta / (num_steps : R)) 0 s1.network_
            = .ok net1 →
          (∃ t, net1.tensors_ "exp_op_0" = some t) ∧ e = .alreadyExists "exp_op_0") := by
  simp only [ThermalSolver.initialize_state, ThermalSolver.new,
    add_tensor_eq_ok X (empty_tensors "rho_0"), Except.ok.injEq] at h1
  subst h1
  have hB : num_steps ≤ 0 → ThermalSolver.build_network fns
      { beta_ := beta, num_steps_ := num_steps, local_operators_ := ops
        network_ := (TensorNetwork.empty : TensorNetwork R).assign "rho_0" X } params
      = .ok { beta_ := beta, num_steps_ := num_steps, local_operators_ := ops
              network_ := (TensorNetwork.empty : TensorNetwork R).assign "rho_0" X } := by
    intro hN
    have hm : num_steps.toNat = 0 := by omega
    simp only [ThermalSolver.build_network, ThermalSolver.build_imaginary_time_evolution, hm,
      List.range_zero, forEach]
  have hC : 1 ≤ num_steps → ops = [] → ThermalSolver.build_network fns
      { beta_ := beta, num_steps_ := num_steps, local_operators_ := ops
        network_ := (TensorNetwork.empty : TensorNetwork R).assign "rho_0" X } params
      = .error (.notFound "rho_1") := by
    intro hN hops
    obtain ⟨m, hm⟩ : ∃ m, num_steps.toNat = m + 1 := ⟨num_steps.toNat - 1, by omega⟩
    have hno : ((TensorNetwork.empty : TensorNetwork R).assign "rho_0" X).tensors_
        ("rho_" ++ toString (0 + 1)) = none := by
      show ((TensorNetwork.empty : TensorNetwork R).assign "rho_0" X).tensors_ "rho_1" = none
      rw [assign_tensors, if_neg (show "rho_1" ≠ "rho_0" by decide), empty_tensors]
    simp only [ThermalSolver.build_network, ThermalSolver.build_imaginary_time_evolution, hm,
      List.range_succ_eq_map, forEach, ThermalSolver.imaginaryTimeStep, hops, List.length_nil,
      List.range_zero, get_tensor_eq_error hno]
    rfl
  have hD : 1 ≤ num_steps → 2 ≤ ops.length →
      ∃ e, ThermalSolver.build_network fns
        { beta_ := beta, num_steps_ := num_steps, local_operators_ := ops
          network_ := (TensorNetwork.empty : TensorNetwork R).assign "rho_0" X } params
        = .error e ∧
        ∀ st1, ThermalSolver.siteStep fns ops (beta / (num_steps : R)) 0 0
            (0, (TensorNetwork.empty : TensorNetwork R).assign "rho_0" X) = .ok st1 →
          (∃ t, st1.2.tensors_ "rho_1" = some t) ∧
          (e = .alreadyExists "rho_1" ∨ e = .eigenAssert ∨
            ∃ net2 : TensorNetwork R,
              net2.contract "rho_0" "exp_op_1" ["site_1"] = .error e) := by
    intro hN hops
    obtain ⟨m, hm⟩ : ∃ m, num_steps.toNat = m + 1 := ⟨num_steps.toNat - 1, by omega⟩
    obtain ⟨e, he, hcause⟩ := imaginaryTimeStep_second_site fns ops (beta / (num_steps : R))
      ((TensorNetwork.empty : TensorNetwork R).assign "rho_0" X) hops
      (by rw [assign_tensors, if_neg (by decide), empty_tensors])
    refine ⟨e, ?_, hcause⟩
    simp only [ThermalSolver.build_network, ThermalSolver.build_imaginary_time_evolution, hm,
      List.range_succ_eq_map, forEach, he]
  have hE : 2 ≤ num_steps → ops.length = 1 →
      ∃ e, ThermalSolver.build_network fns
        { beta_ := beta, num_steps_ := num_steps, local_operators_ := ops
          network_ := (TensorNetwork.empty : TensorNetwork R).assign "rho_0" X } params
        = .error e ∧
        ∀ net1, ThermalSolver.imaginaryTimeStep fns ops (beta / (num_steps : R)) 0
            ((TensorNetwork.empty : TensorNetwork R).assign "rho_0" X) = .ok net1 →
          (∃ t, net1.tensors_ "exp_op_0" = some t) ∧ e = .alreadyExists "exp_op_0" := by
    intro hN hops
    obtain ⟨m, hm⟩ : ∃ m, num_steps.toNat = m + 2 := ⟨num_steps.toNat - 2, by omega⟩
    obtain ⟨rest, hrest⟩ := range_two_cons m
    cases h0 : ThermalSolver.imaginaryTimeStep fns ops (beta / (num_steps : R)) 0
        ((TensorNetwork.empty : TensorNetwork R).assign "rho_0" X) with
    | error e =>
      refine ⟨e, ?_, fun net1 h => absurd h (by simp)⟩
      simp only [ThermalSolver.build_network, ThermalSolver.build_imaginary_time_evolution, hm,
        hrest, forEach, h0]
    | ok net1 =>
      obtain ⟨hreg, hfail⟩ := imaginaryTimeStep_second_step fns ops (beta / (num_steps : R))
        _ net1 hops h0
      refine ⟨.alreadyExists "exp_op_0", ?_, fun net1b h => ?_⟩
      · simp only [ThermalSolver.build_network, ThermalSolver.build_imaginary_time_evolution,
          hm, hrest, forEach, h0, hfail]
      · rw [Except.ok.injEq] at h
        subst h
        exact ⟨hreg, rfl⟩
  refine ⟨?_, hB, hC, hD, hE⟩
  intro s2 h2
  by_contra hcon
  rw [not_or] at hcon
  obtain ⟨hpos, hnot⟩ := hcon
  have hN : 1 ≤ num_steps := by omega
  rcases Nat.lt_or_ge ops.length 1 with hl | hl
  · have hops : ops = [] := List.length_eq_zero.mp (by omega)
    rw [hC hN hops] at h2
    exact absurd h2 (by simp)
  · rcases Nat.lt_or_ge ops.length 2 with hl2 | hl2
    · have hlen : ops.length = 1 := by omega
      have hN2 : 2 ≤ num_steps := by
        by_contra hlt
        exact hnot ⟨by omega, hlen⟩
      obtain ⟨e, he, _⟩ := hE hN2 hlen
      rw [he] at h2
      exact absurd h2 (by simp)
    · obtain ⟨e, he, _⟩ := hD hN hl2
      rw [he] at h2
      exact absurd h2 (by simp)

/-- One copy of the driver's Hamiltonian with two steps on the identity state: step 0
completes and step 1 stops at the taken name `exp_op_0`. -/
theorem thermal_completes_only_trivially_witness :
    ∃ s1 : ThermalSolver ℚ,
      (ThermalSolver.new 1 2 [hamiltonianZ]).initialize_state identityState = .ok s1 ∧
      (∀ s2, s1.build_network firstOrderFunctions [] = .ok s2 →
        (2 : Int) ≤ 0 ∨ ((2 : Int) = 1 ∧ [hamiltonianZ].length = 1)) ∧
      s1.build_network firstOrderFunctions [] = .error (.alreadyExists "exp_op_0") := by
  refine ⟨_, rfl, ?_, by with_unfolding_all rfl⟩
  exact (thermal_completes_only_trivially firstOrderFunctions 1 2 [hamiltonianZ] identityState
    [] _ rfl).1

end ThermalRuns

section Chain

variable {R : Type}

theorem squareNamed_valid {n : Nat} {x y : String} {t : Tensor R}
    (h : t.SquareNamed n x y) : t.Valid :=
  ⟨by rw [h.1]; rfl, by rw [h.2.1, h.2.2.1, h.2.2.2]⟩

/-- One link of the chain: the contraction of `[x, s]` with `[s, y]` over `s` (`x ≠ s`)
pairs the second axis of the first operand with the first axis of the second, and its
result is the `n x n` tensor `[x, y]` of the matrix product. -/
theorem contract_link [CommRing R] {n : Nat} (net : TensorNetwork R) (n1 n2 x s y : String)
    (t1 t2 : Tensor R) (h1 : net.tensors_ n1 = some t1) (h2 : net.tensors_ n2 = some t2)
    (ht1 : t1.SquareNamed n x s) (ht2 : t2.SquareNamed n s y) (hxs : x ≠ s) :
    ∃ r, net.contract n1 n2 [s] = .ok r ∧ r.SquareNamed n x y ∧
      r.to_matrix.toMatrix n = t1.to_matrix.toMatrix n * t2.to_matrix.toMatrix n := by
  have hi1 : t1.indices.indexOf s = 1 := by
    rw [ht1.1]
    simp [List.indexOf_cons, hxs]
  have hi2 : t2.indices.indexOf s = 0 := by
    rw [ht2.1]
    simp [List.indexOf_cons]
  have h := contract_single_ok net n1 n2 s t1 t2 h1 h2 (squareNamed_valid ht1) (squareNamed_valid ht2)
    (by rw [ht1.1]; simp) (by rw [ht2.1]; simp) (by rw [hi1, hi2, ht1.2.1, ht2.2.1]; rfl)
  rw [hi1, hi2] at h
  refine ⟨_, h, ⟨?_, ?_, ?_, ?_⟩, ?_⟩
  · simp [otherAxis, ht1.1, ht2.1]
  · simp [otherAxis, ht1.2.1, ht2.2.1]
  · simp [DataType.contract, DataType.dimension, otherAxis, ht1.2.2.1]
  · simp [DataType.contract, DataType.dimension, otherAxis, ht2.2.2.2]
  · funext a b
    have ha := a.isLt
    have hb := b.isLt
    simp only [MatrixXd.toMatrix, Tensor.to_matrix, DataType.contract, DataType.dimension,
      otherAxis, DataType.entry, Matrix.mul_apply, ht1.2.2.1, ht1.2.2.2, ht2.2.2.1, ht2.2.2.2,
      if_true, ha, hb, and_self, Nat.one_ne_zero, if_false]
    rw [Finset.sum_range]
    refine Finset.sum_congr rfl (fun k _ => ?_)
    simp [k.isLt, a.isLt, b.isLt]

/-- The trace of an `n x n` dense matrix is the trace of its matrix of linear algebra. -/
theorem trace_eq_toMatrix_trace [CommRing R] {n : Nat} (m : MatrixXd R) (hr : m.rows = n)
    (hc : m.cols = n) : m.trace = Matrix.trace (m.toMatrix n) := by
  simp only [MatrixXd.trace, hr, hc, min_self, Matrix.trace, Matrix.diag, MatrixXd.toMatrix]
  rw [Finset.sum_range]

end Chain

section Chain

variable {R : Type} [CommRing R]

/-- C24: for every `n` (so for every `n >= 1`) and `n x n` tensors `A`, `B`, `C`, `D` with
index lists `[i, j]`, `[j, k]`, `[k, l]`, `[l, i]` (of the pairwise distinctness of the four
names only `i ≠ j`, `k ≠ l` and `i ≠ k` are used) held by a network in which the names for
`AB` and `CD` are free and distinct: `contract(A, B, [j])` registered as `AB`,
`contract(C, D, [l])` registered as `CD` and `contract(AB, CD, [k])` all succeed, and the
last result has index list `[i, i]`, dimensions `[n, n]` and the matrix `A * B * C * D`, so
the sum of its diagonal entries is `trace(A * B * C * D)`. -/
theorem contraction_chain {n : Nat} (net : TensorNetwork R)
    (nA nB nC nD nAB nCD i j k l : String) (A B C D : Tensor R)
    (hA : net.tensors_ nA = some A) (hB : net.tensors_ nB = some B)
    (hC : net.tensors_ nC = some C) (hD : net.tensors_ nD = some D)
    (hAB : net.tensors_ nAB = none) (hCD : net.tensors_ nCD = none) (hne : nAB ≠ nCD)
    (sA : A.SquareNamed n i j) (sB : B.SquareNamed n j k) (sC : C.SquareNamed n k l)
    (sD : D.SquareNamed n l i) (hij : i ≠ j) (hkl : k ≠ l) (hik : i ≠ k) :
    ∃ (rAB rCD r : Tensor R) (net1 net2 : TensorNetwork R),
      net.contract nA nB [j] = .ok rAB ∧ net.add_tensor rAB nAB = .ok net1 ∧
      net1.contract nC nD [l] = .ok rCD ∧ net1.add_tensor rCD nCD = .ok net2 ∧
      net2.contract nAB nCD [k] = .ok r ∧
      r.indices = [i, i] ∧ r.dimensions = [(n : Int), (n : Int)] ∧
      r.to_matrix.rows = n ∧ r.to_matrix.cols = n ∧
      r.to_matrix.toMatrix n =
        A.to_matrix.toMatrix n * B.to_matrix.toMatrix n * C.to_matrix.toMatrix n *
          D.to_matrix.toMatrix n ∧
      r.to_matrix.trace =
        Matrix.trace (A.to_matrix.toMatrix n * B.to_matrix.toMatrix n *
          C.to_matrix.toMatrix n * D.to_matrix.toMatrix n) := by
  have hnC : nC ≠ nAB := fun h => by rw [h, hAB] at hC; exact absurd hC (by simp)
  have hnD : nD ≠ nAB := fun h => by rw [h, hAB] at hD; exact absurd hD (by simp)
  obtain ⟨rAB, h1, sAB, mAB⟩ := contract_link net nA nB i j k A B hA hB sA sB hij
  obtain ⟨rCD, h2, sCD, mCD⟩ := contract_link (net.assign nAB rAB) nC nD k l i C D
    (by rw [assign_tensors, if_neg hnC]; exact hC)
    (by rw [assign_tensors, if_neg hnD]; exact hD) sC sD hkl
  have hfree2 : (net.assign nAB rAB).tensors_ nCD = none := by
    rw [assign_tensors, if_neg hne.symm]
    exact hCD
  obtain ⟨r, h3, sr, mr⟩ := contract_link ((net.assign nAB rAB).assign nCD rCD) nAB nCD i k i
    rAB rCD
    (by rw [assign_tensors, if_neg hne, assign_tensors, if_pos rfl])
    (by rw [assign_tensors, if_pos rfl]) sAB sCD hik
  have hm : r.to_matrix.toMatrix n =
      A.to_matrix.toMatrix n * B.to_matrix.toMatrix n * C.to_matrix.toMatrix n *
        D.to_matrix.toMatrix n := by
    rw [mr, mAB, mCD, Matrix.mul_assoc, Matrix.mul_assoc, Matrix.mul_assoc]
  have hrows : r.to_matrix.rows = n := sr.2.2.1
  have hcols : r.to_matrix.cols = n := sr.2.2.2
  refine ⟨rAB, rCD, r, net.assign nAB rAB, (net.assign nAB rAB).assign nCD rCD, h1,
    add_tensor_eq_ok rAB hAB, h2, add_tensor_eq_ok rCD hfree2, h3, sr.1, sr.2.1, hrows, hcols,
    hm, ?_⟩
  rw [trace_eq_toMatrix_trace r.to_matrix hrows hcols, hm]

end Chain

/-- The four tensors of `FourTensorContraction`: the chain succeeds and the trace of its
result is 41777, the value the test expects. -/
theorem contraction_chain_witness :
    ∃ (rAB rCD r : Tensor ℚ) (net1 net2 : TensorNetwork ℚ),
      networkABCD.contract "A" "B" ["j"] = .ok rAB ∧
      networkABCD.add_tensor rAB "AB" = .ok net1 ∧
      net1.contract "C" "D" ["l"] = .ok rCD ∧ net1.add_tensor rCD "CD" = .ok net2 ∧
      net2.contract "AB" "CD" ["k"] = .ok r ∧
      r.indices = ["i", "i"] ∧ r.dimensions = [2, 2] ∧ r.to_matrix.trace = 41777 := by
  obtain ⟨rAB, rCD, r, net1, net2, h1, h2, h3, h4, h5, hi, hd, _, _, _, ht⟩ :=
    contraction_chain networkABCD
      "A" "B" "C" "D" "AB" "CD" "i" "j" "k" "l" tensorA tensorB tensorC tensorD
      (by simp [networkABCD, networkAB]) (by simp [networkABCD, networkAB])
      (by simp [networkABCD, networkAB]) (by simp [networkABCD, networkAB])
      (by simp [networkABCD, networkAB]) (by simp [networkABCD, networkAB]) (by decide)
      ⟨rfl, rfl, rfl, rfl⟩ ⟨rfl, rfl, rfl, rfl⟩ ⟨rfl, rfl, rfl, rfl⟩ ⟨rfl, rfl, rfl, rfl⟩
      (by decide) (by decide) (by decide)
  refine ⟨rAB, rCD, r, net1, net2, h1, h2, h3, h4, h5, hi, hd, ?_⟩
  rw [ht]
  simp [Matrix.trace, Matrix.mul_apply, Fin.sum_univ_two, MatrixXd.toMatrix, Tensor.to_matrix,
    tensorA, tensorB, tensorC, tensorD, testTensor, matrix2]
  norm_num

end qps
